import Mathlib

/-!
# deko3d rendering abstraction (`video/out/deko3d/ra_dk.c`)

A shallow embedding of the descriptor table, the shader cache serialisation
and the timer queries of the deko3d backend, with the properties of the
design document stated over it.

Machine integers are natural numbers (or integers for `int`) with explicit
reduction modulo `2^64` / `2^32` where the C code can wrap.
-/

namespace DK

/-! ## Machine words -/

/-- The modulus of `uint64_t`. -/
def U64 : Nat := 2 ^ 64

/-- The modulus of `uint32_t`. -/
def U32 : Nat := 2 ^ 32

/-- The constant `-1ull`, all 64 bits set. -/
def ALL_ONES : Nat := 2 ^ 64 - 1

/-- Bitwise complement `~x` of a `uint64_t`. -/
def not64 (x : Nat) : Nat := ALL_ONES - x % U64

/-- Worker of `ctzll`: counts the zero bits below the lowest set bit, looking
at most at `fuel` bits. -/
def ctzAux : Nat → Nat → Nat → Nat
  | 0, _, acc => acc
  | fuel + 1, x, acc => if x % 2 = 1 then acc else ctzAux fuel (x / 2) (acc + 1)

/-- The builtin `__builtin_ctzll`: number of trailing zero bits of a 64-bit
word (the code only calls it on a non-zero word). -/
def ctzll (x : Nat) : Nat := ctzAux 64 x 0

/-- The expression `1ull << s` for an `int` shift count `s`.  For `0 ≤ s < 64`
this is the C value.  A count outside that range is undefined in C; the model
follows the AArch64 `LSL` instruction, which takes the count modulo 64. -/
def shl1 (s : Int) : Nat := 2 ^ (s % 64).toNat

/-! ## Descriptor table -/

/-- The constant `RA_DK_MAX_DESCRIPTORS`. -/
def RA_DK_MAX_DESCRIPTORS : Nat := 128

/-- The bookkeeping fields of `struct priv`: `uint64_t allocated_descriptors[2]`,
kept as the list of its words, and the counter `num_queries`. -/
structure priv where
  allocated_descriptors : List Nat
  num_queries : Nat
  deriving DecidableEq, Repr

/-- The part of `struct ra_tex_dk` the descriptor table touches. -/
structure ra_tex_dk where
  descriptor_idx : Int
  deriving DecidableEq, Repr

/-- The fields after `ra_init_dk`: `memset(priv->allocated_descriptors, 0, ..)`
and `priv->num_queries = 0`. -/
def priv_init : priv := ⟨[0, 0], 0⟩

/-- The `for` loop of `ra_dk_register_texture` over the words of
`allocated_descriptors`, from the word at the head of the list on.  A saturated
word (`*pos == -1ull`) is skipped (`continue`); at the first other word the
index is `__builtin_ctzll(~*pos)`, the bit `1ull << descriptor_idx` is or-ed
into that word and the loop stops (`break`).  The index stays `-1` when the
loop runs off the end. -/
def register_loop : List Nat → Int × List Nat
  | [] => (-1, [])
  | pos :: rest =>
    if pos = ALL_ONES then
      ((register_loop rest).1, pos :: (register_loop rest).2)
    else
      (((ctzll (not64 pos) : Nat) : Int),
        ((pos ||| shl1 (ctzll (not64 pos))) % U64) :: rest)

/-- The allocation part of `ra_dk_register_texture`: the texture receives
`descriptor_idx` and the table the new bit.  (The descriptor writes and the
barrier that follow do not touch the table.) -/
def ra_dk_register_texture (p : priv) : priv × ra_tex_dk :=
  ({ p with allocated_descriptors := (register_loop p.allocated_descriptors).2 },
   ⟨(register_loop p.allocated_descriptors).1⟩)

/-- The function `ra_dk_unregister_texture`:
`allocated_descriptors[idx / 64] &= ~(1ull << (idx % 64))`, with the truncating
division and remainder of C. -/
def ra_dk_unregister_texture (p : priv) (tex : ra_tex_dk) : priv :=
  if 0 ≤ Int.tdiv tex.descriptor_idx 64 then
    ⟨p.allocated_descriptors.modify
      (fun w => w &&& not64 (shl1 (Int.tmod tex.descriptor_idx 64)))
      (Int.tdiv tex.descriptor_idx 64).toNat, p.num_queries⟩
  else p

/-- Bit `i` (`0 ≤ i < 128`) of the table: bit `i % 64` of word `i / 64`. -/
def desc_bit (p : priv) (i : Nat) : Bool :=
  (p.allocated_descriptors.getD (i / 64) 0).testBit (i % 64)

/-- Number of set bits among the 128 bits of the table. -/
def desc_popcount (p : priv) : Nat :=
  ((List.range RA_DK_MAX_DESCRIPTORS).filter (desc_bit p)).length

/-- A call sequence on the descriptor table: `register` creates and registers a
fresh texture, `unregister t` unregisters the `t`-th texture created so far. -/
inductive DescOp where
  | register
  | unregister (t : Nat)
  deriving DecidableEq, Repr

/-- The table together with every texture created so far: its private data and
whether it is currently registered (registration succeeded and it has not been
unregistered since). -/
structure DescState where
  table : priv
  texs : List (ra_tex_dk × Bool)
  deriving DecidableEq, Repr

/-- The state after `ra_init_dk`, before any texture exists. -/
def DescState.init : DescState := ⟨priv_init, []⟩

/-- One call of the sequence. -/
def DescState.step (s : DescState) : DescOp → DescState
  | .register =>
    let r := ra_dk_register_texture s.table
    ⟨r.1, s.texs ++ [(r.2, decide (0 ≤ r.2.descriptor_idx))]⟩
  | .unregister t =>
    match s.texs.get? t with
    | some (tex, _) =>
      ⟨ra_dk_unregister_texture s.table tex, s.texs.set t (tex, false)⟩
    | none => s

/-- Run a call sequence. -/
def DescState.run (s : DescState) (ops : List DescOp) : DescState :=
  ops.foldl DescState.step s

/-- The descriptor indices of the textures that are currently registered, in
creation order. -/
def DescState.registered (s : DescState) : List Int :=
  (s.texs.filter (fun t => t.2)).map (fun t => t.1.descriptor_idx)

/-- The sequence is well formed in state `s`: every `unregister t` names a
texture that is registered at that moment. -/
def DescState.wf (s : DescState) : List DescOp → Bool
  | [] => true
  | .register :: ops => (s.step .register).wf ops
  | .unregister t :: ops =>
    (match s.texs.get? t with
     | some (_, r) => r
     | none => false) && (s.step (.unregister t)).wf ops

/-! ## Shader cache -/

/-- A byte of memory. -/
abbrev Byte := Fin 256

/-- The deko3d constant `DK_SHADER_CODE_ALIGNMENT`. -/
def DK_SHADER_CODE_ALIGNMENT : Nat := 256

/-- The deko3d constant `DK_SHADER_CODE_UNUSABLE_SIZE`. -/
def DK_SHADER_CODE_UNUSABLE_SIZE : Nat := 1024

/-- The deko3d constant `DK_MEMBLOCK_ALIGNMENT`. -/
def DK_MEMBLOCK_ALIGNMENT : Nat := 4096

/-- Modelled from the spec: the macro `MP_ALIGN_UP` (common/common.h) is not
among the sources; it rounds `x` up to the next multiple of the alignment. -/
def MP_ALIGN_UP (x align : Nat) : Nat := (x + align - 1) / align * align

/-- The four bytes of a `uint32_t` in memory (little endian, the byte order of
the only target). -/
def le32 (x : Nat) : List Byte :=
  [Fin.ofNat x, Fin.ofNat (x / 256), Fin.ofNat (x / 65536), Fin.ofNat (x / 16777216)]

/-- Read a `uint32_t` from memory at byte offset `off`. -/
def rd32 (mem : Nat → Byte) (off : Nat) : Nat :=
  (mem off).val + 256 * (mem (off + 1)).val + 65536 * (mem (off + 2)).val +
    16777216 * (mem (off + 3)).val

/-- The value of an `int` whose four bytes read as the unsigned `x`. -/
def toInt32 (x : Nat) : Int := if x < 2 ^ 31 then (x : Int) else (x : Int) - 2 ^ 32

/-- The four bytes of `dk_shadercache_magic`, "DKCH". -/
def dk_shadercache_magic : List Byte := [0x44, 0x4B, 0x43, 0x48]

/-- The value `AV_RN32(dk_shadercache_magic)`: the four bytes read as one
native `uint32_t`. -/
def AV_RN32_magic : Nat := rd32 (fun i => dk_shadercache_magic.getD i 0) 0

/-- The constant `dk_shadercache_version`. -/
def dk_shadercache_version : Int := 1

/-- The header `struct dk_shadercache_hdr`. -/
structure dk_shadercache_hdr where
  magic : Nat
  cache_version : Int
  vertex_offset : Nat
  vertex_size : Nat
  fragment_offset : Nat
  fragment_size : Nat
  compute_offset : Nat
  compute_size : Nat
  deriving DecidableEq, Repr

/-- The constant `sizeof(struct dk_shadercache_hdr)`, fixed to `0x20` by the
static assertion that follows the struct. -/
def HDR_SIZE : Nat := 0x20

/-- The 32 bytes of a header in memory. -/
def hdr_bytes (h : dk_shadercache_hdr) : List Byte :=
  le32 h.magic ++ le32 (h.cache_version % 2 ^ 32).toNat ++
  le32 h.vertex_offset ++ le32 h.vertex_size ++
  le32 h.fragment_offset ++ le32 h.fragment_size ++
  le32 h.compute_offset ++ le32 h.compute_size

/-- The header seen through the cast `(struct dk_shadercache_hdr *)data.start`. -/
def hdr_read (mem : Nat → Byte) : dk_shadercache_hdr where
  magic := rd32 mem 0
  cache_version := toInt32 (rd32 mem 4)
  vertex_offset := rd32 mem 8
  vertex_size := rd32 mem 12
  fragment_offset := rd32 mem 16
  fragment_size := rd32 mem 20
  compute_offset := rd32 mem 24
  compute_size := rd32 mem 28

/-- A byte string `bstr`: the `start` pointer (`none` is `NULL`) with the
`len` bytes it points to. -/
structure bstr where
  start : Option (List Byte)
  deriving DecidableEq, Repr

/-- The bytes of a `bstr` (none for a `NULL` start). -/
def bstr.bytes (s : bstr) : List Byte := s.start.getD []

/-- The field `len`. -/
def bstr.len (s : bstr) : Nat := s.bytes.length

/-- The empty string `(bstr){0}`. -/
def bstr.null : bstr := ⟨none⟩

/-- Modelled from the spec: `bstr_xappend` (misc/bstr.c) is not among the
sources; the cache blob is the header followed by the concatenated stage
blobs, so it appends the bytes of `a` to `s`. -/
def bstr_xappend (s a : bstr) : bstr :=
  if a.len = 0 then s else ⟨some (s.bytes ++ a.bytes)⟩

/-- The header built by `save_shader_code`.  `offset` is a `uint32_t` that
starts at the header size; a stage with `len == 0` leaves its two fields zero
and does not advance `offset`; the sizes are stored into `uint32_t` fields. -/
def save_header (vert_dat frag_dat comp_dat : bstr) : dk_shadercache_hdr :=
  let offset0 := HDR_SIZE
  let offset1 := if frag_dat.len ≠ 0 then (offset0 + vert_dat.len) % U32 else offset0
  let offset2 := if comp_dat.len ≠ 0 then (offset1 + frag_dat.len) % U32 else offset1
  { magic := AV_RN32_magic
    cache_version := dk_shadercache_version
    vertex_offset := if vert_dat.len ≠ 0 then offset0 else 0
    vertex_size := if vert_dat.len ≠ 0 then vert_dat.len % U32 else 0
    fragment_offset := if frag_dat.len ≠ 0 then offset1 else 0
    fragment_size := if frag_dat.len ≠ 0 then frag_dat.len % U32 else 0
    compute_offset := if comp_dat.len ≠ 0 then offset2 else 0
    compute_size := if comp_dat.len ≠ 0 then comp_dat.len % U32 else 0 }

/-- The function `save_shader_code`: appends the header and the three stage
blobs to `pass->params.cached_program` (`prog`). -/
def save_shader_code (prog vert_dat frag_dat comp_dat : bstr) : bstr :=
  bstr_xappend (bstr_xappend (bstr_xappend
    (bstr_xappend prog ⟨some (hdr_bytes (save_header vert_dat frag_dat comp_dat))⟩)
    vert_dat) frag_dat) comp_dat

/-- The memory a pointer into a blob reads: the bytes of the blob, and past
its end whatever follows it in memory (`beyond`, by distance from the end). -/
def blob_mem (data : List Byte) (beyond : Nat → Byte) (i : Nat) : Byte :=
  if h : i < data.length then data.get ⟨i, h⟩ else beyond (i - data.length)

/-- The `n` bytes a `memcpy` reads from address `off` of the memory `mem`. -/
def mem_read (mem : Nat → Byte) (off n : Nat) : List Byte :=
  (List.range n).map (fun i => mem (off + i))

/-- The memory block after a `memcpy` of `src` to its byte offset `off`. -/
def mem_write (blk : List Byte) (off : Nat) (src : List Byte) : List Byte :=
  blk.take off ++ src ++ blk.drop (off + src.length)

/-- What `dkMemBlockCreate` returns for a request of `size` bytes: `NULL`
(`none`) when the allocation fails, else a block of that size. -/
def dkMemBlockCreate (ok : Bool) (size : Nat) : Option (List Byte) :=
  if ok then some (List.replicate size 0) else none

/-- A shader object after `dkShaderInitialize` with a maker that points at
byte offset `codeOffset` of the code memory block. -/
structure DkShader where
  codeOffset : Nat
  deriving DecidableEq, Repr

/-- The outcome of `load_shader_code`: the returned flag, the code memory
block stored in `pass_priv->shader_memblock` and the three shader objects
(`none`: not initialised by the call). -/
structure ShaderLoad where
  ret : Bool
  shader_memblock : Option (List Byte)
  vert_sh : Option DkShader
  frag_sh : Option DkShader
  comp_sh : Option DkShader
  deriving DecidableEq, Repr

/-- The code-memory request of `load_shader_code`: the unusable tail plus the
aligned size of every requested stage with a non-zero size, rounded up to the
block alignment and passed as the `uint32_t` size of the block maker. -/
def load_memblock_size (hdr : dk_shadercache_hdr) (vert_sh frag_sh comp_sh : Bool) : Nat :=
  MP_ALIGN_UP
    (DK_SHADER_CODE_UNUSABLE_SIZE +
      (if vert_sh ∧ hdr.vertex_size ≠ 0
        then MP_ALIGN_UP hdr.vertex_size DK_SHADER_CODE_ALIGNMENT else 0) +
      (if frag_sh ∧ hdr.fragment_size ≠ 0
        then MP_ALIGN_UP hdr.fragment_size DK_SHADER_CODE_ALIGNMENT else 0) +
      (if comp_sh ∧ hdr.compute_size ≠ 0
        then MP_ALIGN_UP hdr.compute_size DK_SHADER_CODE_ALIGNMENT else 0))
    DK_MEMBLOCK_ALIGNMENT % U32

/-- One of the three copy blocks of `load_shader_code`: when the stage is
requested and its size is non-zero, `size` bytes are copied from
`data.start + off` to the block at `offset`, the shader is initialised at
`offset`, and `offset` advances by the aligned size. -/
def load_stage (src : Nat → Byte) (want : Bool) (off size : Nat)
    (st : List Byte × Nat) : (List Byte × Nat) × Option DkShader :=
  if want ∧ size ≠ 0 then
    ((mem_write st.1 st.2 (mem_read src off size),
      st.2 + MP_ALIGN_UP size DK_SHADER_CODE_ALIGNMENT), some ⟨st.2⟩)
  else (st, none)

/-- The function `load_shader_code`.  `alloc_ok` tells whether
`dkMemBlockCreate` succeeds, `beyond` is the memory that follows the blob, and
`vert_sh`, `frag_sh`, `comp_sh` tell which shader pointers are non-`NULL`. -/
def load_shader_code (alloc_ok : Bool) (beyond : Nat → Byte) (data : bstr)
    (vert_sh frag_sh comp_sh : Bool) : ShaderLoad :=
  match data.start with
  | none => ⟨false, none, none, none, none⟩
  | some bytes =>
    if bytes.length < HDR_SIZE then ⟨false, none, none, none, none⟩
    else
      let src := blob_mem bytes beyond
      let hdr := hdr_read src
      if hdr.magic ≠ AV_RN32_magic ∨ hdr.cache_version ≠ dk_shadercache_version then
        ⟨false, none, none, none, none⟩
      else
        match dkMemBlockCreate alloc_ok (load_memblock_size hdr vert_sh frag_sh comp_sh) with
        | none => ⟨false, none, none, none, none⟩
        | some blk =>
          let v := load_stage src vert_sh hdr.vertex_offset hdr.vertex_size (blk, 0)
          let f := load_stage src frag_sh hdr.fragment_offset hdr.fragment_size v.1
          let c := load_stage src comp_sh hdr.compute_offset hdr.compute_size f.1
          ⟨true, some c.1.1, v.2, f.2, c.2⟩

/-- The uam shader compiler of one stage, as the pipeline creators see it:
whether `uam_create_compiler` returns a compiler, and the code
`uam_compile_dksh` produces (`none`: the source is rejected). -/
structure uam_compiler where
  created : Bool
  code : Option (List Byte)
  deriving DecidableEq, Repr

/-- The shader part of a render pass: `pass_priv->shader_memblock`, the array
`pass_priv->shaders` (`none`: allocated but not initialised) and
`pass->params.cached_program`. -/
structure ra_rpass_dk where
  shader_memblock : Option (List Byte)
  shaders : List (Option DkShader)
  cached_program : bstr
  deriving DecidableEq, Repr

/-- The outcome of a pipeline creator: whether the compile branch was entered,
and the pass (`none`: the creator returned `NULL`). -/
structure PassCreate where
  compiled : Bool
  pass : Option ra_rpass_dk
  deriving DecidableEq, Repr

/-- The `size` bytes at offset `off` of a memory block. -/
def blk_read (blk : List Byte) (off size : Nat) : List Byte := (blk.drop off).take size

/-- The shader part of `dk_renderpass_create_raster` (up to the label `fail_2`).
The cache is used when `cached_program.len` is non-zero and `load_shader_code`
accepts it; otherwise both stages are compiled, written into a fresh code
block at offsets `0` and `MP_ALIGN_UP(vsh_size, DK_SHADER_CODE_ALIGNMENT)`,
and serialised by `save_shader_code`.  `load_alloc_ok` and `alloc_ok` tell
whether the block allocation of the load and of the compile branch succeed. -/
def dk_renderpass_create_raster (load_alloc_ok alloc_ok : Bool) (beyond : Nat → Byte)
    (vsh_compiler fsh_compiler : uam_compiler) (cached_program : bstr) : PassCreate :=
  let ld := load_shader_code load_alloc_ok beyond cached_program true true false
  if cached_program.len = 0 ∨ ld.ret = false then
    if vsh_compiler.created = false ∨ fsh_compiler.created = false then ⟨true, none⟩
    else
      match vsh_compiler.code, fsh_compiler.code with
      | some vsh, some fsh =>
        let vsh_off := 0
        let fsh_off := MP_ALIGN_UP vsh.length DK_SHADER_CODE_ALIGNMENT
        match dkMemBlockCreate alloc_ok
            (MP_ALIGN_UP (vsh.length + fsh.length + DK_SHADER_CODE_UNUSABLE_SIZE)
              DK_MEMBLOCK_ALIGNMENT % U32) with
        | none => ⟨true, none⟩
        | some blk =>
          let mem := mem_write (mem_write blk vsh_off vsh) fsh_off fsh
          ⟨true, some
            { shader_memblock := some mem
              shaders := [some ⟨vsh_off⟩, some ⟨fsh_off⟩]
              cached_program := save_shader_code bstr.null
                ⟨some (blk_read mem vsh_off vsh.length)⟩
                ⟨some (blk_read mem fsh_off fsh.length)⟩ bstr.null }⟩
      | _, _ => ⟨true, none⟩
  else
    ⟨false, some
      { shader_memblock := ld.shader_memblock
        shaders := [ld.vert_sh, ld.frag_sh]
        cached_program := bstr.null }⟩

/-- The function `dk_renderpass_create_compute`, in the same way, with the
single compute stage at offset `0` of the code block. -/
def dk_renderpass_create_compute (load_alloc_ok alloc_ok : Bool) (beyond : Nat → Byte)
    (sh_compiler : uam_compiler) (cached_program : bstr) : PassCreate :=
  let ld := load_shader_code load_alloc_ok beyond cached_program false false true
  if cached_program.len = 0 ∨ ld.ret = false then
    if sh_compiler.created = false then ⟨true, none⟩
    else
      match sh_compiler.code with
      | some sh =>
        match dkMemBlockCreate alloc_ok
            (MP_ALIGN_UP (sh.length + DK_SHADER_CODE_UNUSABLE_SIZE)
              DK_MEMBLOCK_ALIGNMENT % U32) with
        | none => ⟨true, none⟩
        | some blk =>
          let mem := mem_write blk 0 sh
          ⟨true, some
            { shader_memblock := some mem
              shaders := [some ⟨0⟩]
              cached_program := save_shader_code bstr.null bstr.null bstr.null
                ⟨some (blk_read mem 0 sh.length)⟩ }⟩
      | none => ⟨true, none⟩
  else
    ⟨false, some
      { shader_memblock := ld.shader_memblock
        shaders := [ld.comp_sh]
        cached_program := bstr.null }⟩

/-- The code block `load_shader_code` needs for stages of the given sizes,
before the truncation to the `uint32_t` size of the block maker. -/
def code_block_size (vsize fsize csize : Nat) : Nat :=
  MP_ALIGN_UP (DK_SHADER_CODE_UNUSABLE_SIZE +
    MP_ALIGN_UP vsize DK_SHADER_CODE_ALIGNMENT +
    MP_ALIGN_UP fsize DK_SHADER_CODE_ALIGNMENT +
    MP_ALIGN_UP csize DK_SHADER_CODE_ALIGNMENT) DK_MEMBLOCK_ALIGNMENT

/-! ## Timer queries -/

/-- The constant `RA_DK_MAX_QUERIES`. -/
def RA_DK_MAX_QUERIES : Nat := 128

/-- The constant `RA_DK_NUM_QUERIES`. -/
def RA_DK_NUM_QUERIES : Nat := 2

/-- The timer `struct ra_dk_timer`. -/
structure ra_dk_timer where
  query_idx : List Nat
  cur_idx : Nat
  result : Nat
  deriving DecidableEq, Repr

/-- The function `dk_timer_create`.  `talloc_ok` tells whether `talloc_zero`
returns memory.  The loop stores `priv->num_queries++` into each of the
`RA_DK_NUM_QUERIES` entries of `query_idx`. -/
def dk_timer_create (p : priv) (talloc_ok : Bool) : priv × Option ra_dk_timer :=
  if p.num_queries + RA_DK_NUM_QUERIES > RA_DK_MAX_QUERIES then (p, none)
  else if talloc_ok = false then (p, none)
  else
    ({ p with num_queries := p.num_queries + RA_DK_NUM_QUERIES },
     some ⟨(List.range RA_DK_NUM_QUERIES).map (fun i => p.num_queries + i), 0, 0⟩)

/-- The query memory block, read as an array of `uint64_t` words. -/
abbrev QueryMem := Nat → Nat

/-- The index of the first `uint64_t` word of the record of query `q`: the
byte offset `(2 * q) * 16` divided by the word size. -/
def query_word (q : Nat) : Nat := (2 * q) * 16 / 8

/-- The slot `query_idx[cur_idx]` of a timer. -/
def ra_dk_timer.slot (t : ra_dk_timer) : Nat := t.query_idx.getD t.cur_idx 0

/-- The function `dk_timer_start`: advances `cur_idx`, computes `result` from
`query_data[1]` and `query_data[3]` of the new slot (the subtraction is only
evaluated when it cannot wrap), and records a timestamp
report at byte offset `(2 * query_idx[cur_idx] + 0) * 16` of the query memory
(the returned offset).  `dkTimestampToNs` is the deko3d conversion. -/
def dk_timer_start (dkTimestampToNs : Nat → Nat) (mem : QueryMem) (t : ra_dk_timer) :
    ra_dk_timer × Nat :=
  let cur := (t.cur_idx + 1) % RA_DK_NUM_QUERIES
  let q := t.query_idx.getD cur 0
  let query_data := fun i => mem (query_word q + i)
  ({ t with
      cur_idx := cur
      result := if query_data 3 > query_data 1
        then dkTimestampToNs (query_data 3 - query_data 1) else 0 },
   (2 * q + 0) * 16)

/-- The function `dk_timer_stop`: records a timestamp report at byte offset
`(2 * query_idx[cur_idx] + 1) * 16` (the second component), submits, and returns
`result` (the first component). -/
def dk_timer_stop (t : ra_dk_timer) : Nat × Nat :=
  (t.result, (2 * t.slot + 1) * 16)

/-- The effect of a timestamp report at byte offset `addr` on the query
memory once the GPU has executed it: a 16-byte record, the counter word (not
read by the code, written as `0`) followed by the timestamp `ts`. -/
def gpu_report (mem : QueryMem) (addr ts : Nat) : QueryMem :=
  fun w => if w = addr / 8 then 0 else if w = addr / 8 + 1 then ts else mem w

/-- One start/stop cycle of a timer: `dk_timer_start`, `dk_timer_stop`, and
then both recorded captures land in query memory with the GPU timestamps
`ts.1` (start) and `ts.2` (end).  Returns the new timer and memory and the
value `dk_timer_stop` returned. -/
def timer_cycle (dkTimestampToNs : Nat → Nat) (st : ra_dk_timer × QueryMem) (ts : Nat × Nat) :
    (ra_dk_timer × QueryMem) × Nat :=
  let a := dk_timer_start dkTimestampToNs st.2 st.1
  let b := dk_timer_stop a.1
  ((a.1, gpu_report (gpu_report st.2 a.2 ts.1) b.2 ts.2), b.1)

/-- The state after the first `k` cycles, cycle `i` (counted from 1) having the
GPU timestamps `ts i`. -/
def timer_run (dkTimestampToNs : Nat → Nat) (ts : Nat → Nat × Nat)
    (st : ra_dk_timer × QueryMem) : Nat → ra_dk_timer × QueryMem
  | 0 => st
  | k + 1 => (timer_cycle dkTimestampToNs (timer_run dkTimestampToNs ts st k) (ts (k + 1))).1

/-- The value returned by the `k`-th `dk_timer_stop` (`k ≥ 1`). -/
def timer_stop_result (dkTimestampToNs : Nat → Nat) (ts : Nat → Nat × Nat)
    (st : ra_dk_timer × QueryMem) (k : Nat) : Nat :=
  (timer_cycle dkTimestampToNs (timer_run dkTimestampToNs ts st (k - 1)) (ts k)).2

/-- The elapsed time of a cycle with GPU timestamps `ts`, as `dk_timer_start`
computes it from a record holding them. -/
def elapsed (dkTimestampToNs : Nat → Nat) (ts : Nat × Nat) : Nat :=
  if ts.2 > ts.1 then dkTimestampToNs (ts.2 - ts.1) else 0

/-- The two timestamps of the record of query `q`: the second word of its
start capture and the second word of its end capture. -/
def slot_record (mem : QueryMem) (q : Nat) : Nat × Nat :=
  (mem (query_word q + 1), mem (query_word q + 3))

/-- The function `dk_timer_destroy`: frees the timer; `num_queries` and the
slots of the timer are not touched. -/
def dk_timer_destroy (p : priv) (_timer : Option ra_dk_timer) : priv := p

/-- A call on the timer pool: `create` with the outcome of its `talloc_zero`,
or `destroy` of the result of the `i`-th create call. -/
inductive TimerOp where
  | create (talloc_ok : Bool)
  | destroy (i : Nat)
  deriving DecidableEq, Repr

/-- The context together with what every `dk_timer_create` call so far
returned (`none` is `NULL`), in call order. -/
structure TimerState where
  ctx : priv
  timers : List (Option ra_dk_timer)
  deriving DecidableEq, Repr

/-- The fresh context, before any timer call. -/
def TimerState.init : TimerState := ⟨priv_init, []⟩

/-- One call on the timer pool. -/
def TimerState.step (s : TimerState) : TimerOp → TimerState
  | .create ok => ⟨(dk_timer_create s.ctx ok).1, s.timers ++ [(dk_timer_create s.ctx ok).2]⟩
  | .destroy i => ⟨dk_timer_destroy s.ctx (s.timers.getD i none), s.timers⟩

/-- Run a sequence of timer calls. -/
def TimerState.run (s : TimerState) (ops : List TimerOp) : TimerState :=
  ops.foldl TimerState.step s

/-- The number of timers created so far (calls that did not return `NULL`). -/
def TimerState.created (s : TimerState) : Nat :=
  (s.timers.filter Option.isSome).length

/-- The invariant of the timer pool: the counter is twice the number of
timers created, at most 128, and every slot of a created timer lies below it. -/
def TimerState.inv (s : TimerState) : Prop :=
  s.ctx.num_queries = 2 * s.created ∧ s.created ≤ 64 ∧
  ∀ t, some t ∈ s.timers → ∀ q ∈ t.query_idx, q < s.ctx.num_queries

/-! ## Frame protocol (`video/out/deko3d/libmpv_dk.c`) -/

/-- The constant `RA_DK_NUM_CMDBUFS`. -/
def RA_DK_NUM_CMDBUFS : Nat := 3

/-- The constant `RA_DK_CMDBUF_SIZE`, `MP_ALIGN_UP(0x10000, DK_MEMBLOCK_ALIGNMENT)`. -/
def RA_DK_CMDBUF_SIZE : Nat := MP_ALIGN_UP 0x10000 DK_MEMBLOCK_ALIGNMENT

/-- A fence the frame protocol touches: the completion fence
`cmdbuf_fences[i]` of a slice, or a fence object owned by the client. -/
inductive DkFence where
  | slice (i : Int)
  | client (id : Nat)
  deriving DecidableEq, Repr

/-- The deko3d calls of the frame protocol, in the order they are made.
`dkFenceWait` carries its timeout (`-1` blocks until the fence is signalled);
`dkCmdBufAddMemory` carries the byte offset and size inside the command
buffer memory block. -/
inductive DkCall where
  | dkQueueWaitIdle
  | dkCmdBufClear
  | dkCmdBufAddMemory (offset size : Int)
  | dkFenceWait (fence : DkFence) (timeout : Int)
  | dkQueueWaitFence (fence : DkFence)
  | dkQueueSignalFence (fence : DkFence)
  | dkQueueSubmitCommands
  | dkQueueFlush
  deriving DecidableEq, Repr

/-- The slice cursor of `mp_dk_ctx`. -/
structure mp_dk_ctx where
  cur_cmdbuf_slice : Int
  deriving DecidableEq, Repr

/-- The fields of `struct priv` of `libmpv_dk.c` the frame protocol uses. -/
structure libmpv_priv where
  dk : mp_dk_ctx
  first_frame : Bool
  client_done_fence : Option DkFence
  deriving DecidableEq, Repr

/-- The fences of the per-frame record `mpv_deko3d_fbo` (`none` is `NULL`). -/
structure fbo_fences where
  ready_fence : Option DkFence
  done_fence : Option DkFence
  deriving DecidableEq, Repr

/-- The state after `init`: `ra_init_dk` sets `cur_cmdbuf_slice = 0`, `init`
sets `first_frame = true`, and `talloc_zero` leaves `client_done_fence` null. -/
def libmpv_priv.init : libmpv_priv := ⟨⟨0⟩, true, none⟩

/-- The function `begin_frame`: the new state and the deko3d calls it makes,
in order. -/
def begin_frame (s : libmpv_priv) (fbo : fbo_fences) : libmpv_priv × List DkCall :=
  let cur := Int.tmod (s.dk.cur_cmdbuf_slice + 1) RA_DK_NUM_CMDBUFS
  (⟨⟨cur⟩, false, fbo.done_fence⟩,
   (if s.first_frame then [DkCall.dkQueueWaitIdle] else []) ++
   [DkCall.dkCmdBufClear,
    DkCall.dkCmdBufAddMemory (cur * RA_DK_CMDBUF_SIZE) RA_DK_CMDBUF_SIZE,
    DkCall.dkFenceWait (DkFence.slice cur) (-1)] ++
   (match fbo.ready_fence with
    | some f => [DkCall.dkQueueWaitFence f]
    | none => []))

/-- The function `done_frame`: the state (unchanged) and the deko3d calls it
makes, in order. -/
def done_frame (s : libmpv_priv) : libmpv_priv × List DkCall :=
  (s,
   (match s.client_done_fence with
    | some f => [DkCall.dkQueueSignalFence f]
    | none => []) ++
   [DkCall.dkQueueSignalFence (DkFence.slice s.dk.cur_cmdbuf_slice), DkCall.dkQueueFlush])

/-- The state after the first `k` frames (a `begin_frame` followed by a
`done_frame` each), frame `i` (counted from 0) being given the record `fbos i`. -/
def frame_run (fbos : Nat → fbo_fences) : Nat → libmpv_priv
  | 0 => libmpv_priv.init
  | k + 1 => (done_frame (begin_frame (frame_run fbos k) (fbos k)).1).1

/-! ## Formats and textures -/

/-- The deko3d format tags `DkImageFormat_*` that occur in the format table;
`Other` stands for every other tag of the deko3d enumeration. -/
inductive DkImageFormat where
  | R8_Unorm | RG8_Unorm | RGBA8_Unorm | R16_Unorm | RG16_Unorm | RGBA16_Unorm
  | R32_Uint | RG32_Uint | RGB32_Uint | RGBA32_Uint
  | R16_Float | RG16_Float | RGBA16_Float | R32_Float | RG32_Float | RGB32_Float
  | RGBA32_Float | RGB10A2_Unorm | RG11B10_Float | BGRA8_Unorm | BGRX8_Unorm
  | Other (tag : Nat)
  deriving DecidableEq, Repr

/-- The numeric class `enum ra_ctype` of a format. -/
inductive ra_ctype where
  | RA_CTYPE_UNORM | RA_CTYPE_UINT | RA_CTYPE_FLOAT
  deriving DecidableEq, Repr

/-- An entry `struct dk_format` of the format table. -/
structure dk_format where
  name : String
  components : Nat
  bytes : Nat
  bits : List Nat
  fmt : DkImageFormat
  ctype : ra_ctype
  renderable : Bool
  linear_filter : Bool
  storable : Bool
  ordered : Bool
  deriving DecidableEq, Repr

open DkImageFormat ra_ctype in
/-- The format table `formats[]` of `ra_dk.c`. -/
def formats : List dk_format :=
  [ ⟨"r8", 1, 1, [8], R8_Unorm, RA_CTYPE_UNORM, true, true, true, true⟩,
    ⟨"rg8", 2, 2, [8, 8], RG8_Unorm, RA_CTYPE_UNORM, true, true, true, true⟩,
    ⟨"rgba8", 4, 4, [8, 8, 8, 8], RGBA8_Unorm, RA_CTYPE_UNORM, true, true, true, true⟩,
    ⟨"r16", 1, 2, [16], R16_Unorm, RA_CTYPE_UNORM, true, true, true, true⟩,
    ⟨"rg16", 2, 4, [16, 16], RG16_Unorm, RA_CTYPE_UNORM, true, true, true, true⟩,
    ⟨"rgba16", 4, 8, [16, 16, 16, 16], RGBA16_Unorm, RA_CTYPE_UNORM, true, true, true, true⟩,
    ⟨"r32ui", 1, 4, [32], R32_Uint, RA_CTYPE_UINT, true, false, true, true⟩,
    ⟨"rg32ui", 2, 8, [32, 32], RG32_Uint, RA_CTYPE_UINT, true, false, true, true⟩,
    ⟨"rgb32ui", 3, 12, [32, 32, 32], RGB32_Uint, RA_CTYPE_UINT, false, false, false, true⟩,
    ⟨"rgba32ui", 4, 16, [32, 32, 32, 32], RGBA32_Uint, RA_CTYPE_UINT, true, false, true, true⟩,
    ⟨"r16f", 1, 2, [16], R16_Float, RA_CTYPE_FLOAT, true, true, true, true⟩,
    ⟨"rg16f", 2, 4, [16, 16], RG16_Float, RA_CTYPE_FLOAT, true, true, true, true⟩,
    ⟨"rgba16f", 4, 8, [16, 16, 16, 16], RGBA16_Float, RA_CTYPE_FLOAT, true, true, true, true⟩,
    ⟨"r32f", 1, 4, [32], R32_Float, RA_CTYPE_FLOAT, true, true, true, true⟩,
    ⟨"rg32f", 2, 8, [32, 32], RG32_Float, RA_CTYPE_FLOAT, true, true, true, true⟩,
    ⟨"rgb32f", 3, 12, [32, 32, 32], RGB32_Float, RA_CTYPE_FLOAT, false, false, false, true⟩,
    ⟨"rgba32f", 4, 16, [32, 32, 32, 32], RGBA32_Float, RA_CTYPE_FLOAT, true, true, true, true⟩,
    ⟨"rgb10_a2", 4, 4, [10, 10, 10, 2], RGB10A2_Unorm, RA_CTYPE_UNORM, true, true, true, true⟩,
    ⟨"rg11b10f", 3, 4, [11, 11, 10], RG11B10_Float, RA_CTYPE_FLOAT, true, true, true, true⟩,
    ⟨"bgra8", 4, 4, [8, 8, 8, 8], BGRA8_Unorm, RA_CTYPE_UNORM, true, true, true, false⟩,
    ⟨"bgrx8", 3, 4, [8, 8, 8], BGRX8_Unorm, RA_CTYPE_UNORM, true, true, false, false⟩ ]

/-- The fields of `struct ra_format` that `ra_init_dk` fills from a table
entry; `priv` points back at the entry. -/
structure ra_format where
  name : String
  priv : dk_format
  ctype : ra_ctype
  ordered : Bool
  num_components : Nat
  pixel_size : Nat
  linear_filter : Bool
  renderable : Bool
  storable : Bool
  component_size : List Nat
  deriving DecidableEq, Repr

/-- The format loop of `ra_init_dk`: one `ra_format` per table entry, appended
to `ra->formats` in table order. -/
def ra_formats : List ra_format :=
  formats.map (fun dkfmt =>
    { name := dkfmt.name
      priv := dkfmt
      ctype := dkfmt.ctype
      ordered := dkfmt.ordered
      num_components := dkfmt.components
      pixel_size := dkfmt.bytes
      linear_filter := dkfmt.linear_filter
      renderable := dkfmt.renderable
      storable := dkfmt.storable
      component_size := dkfmt.bits.take dkfmt.components })

/-- The fields of `struct ra_tex_params` the backend reads; `initial_data`
tells whether the pointer is non-null. -/
structure ra_tex_params where
  dimensions : Int
  w : Int
  h : Int
  d : Int
  format : ra_format
  render_src : Bool
  render_dst : Bool
  storage_dst : Bool
  blit_src : Bool
  blit_dst : Bool
  initial_data : Bool
  deriving DecidableEq, Repr

/-- The flags `DkImageFlags_*` that `dk_tex_create` sets. -/
inductive DkImageFlags where
  | HwCompression | UsageRender | UsageLoadStore | Usage2DEngine | CustomTileSize
  deriving DecidableEq, Repr

/-- The image types `DkImageType_*` that `dk_tex_create` selects. -/
inductive DkImageType where
  | DkImageType_1D | DkImageType_2D | DkImageType_3D
  deriving DecidableEq, Repr

/-- The tile sizes: `DkTileSize_OneGob`, or the default that
`dkImageLayoutMakerDefaults` leaves. -/
inductive DkTileSize where
  | DkTileSize_OneGob | default
  deriving DecidableEq, Repr

/-- The layout request `DkImageLayoutMaker` as `dk_tex_create` fills it; the
flags are the set bits of the flag word, `type` is `none` until the `switch`
sets it. -/
structure DkImageLayoutMaker where
  format : DkImageFormat
  dimensions : List Int
  flags : List DkImageFlags
  tileSize : DkTileSize
  type : Option DkImageType
  deriving DecidableEq, Repr

/-- The function `dk_tex_destroy`, called on a texture whose private data is
`tex_priv`: it unregisters the texture unconditionally, then releases its
memory (which touches no bookkeeping). -/
def dk_tex_destroy (p : priv) (tex_priv : ra_tex_dk) : priv :=
  ra_dk_unregister_texture p tex_priv

/-- The layout request of `dk_tex_create`, up to and including the tiling
workaround and the `switch` on `params->dimensions`. -/
def dk_tex_layout (params : ra_tex_params) : DkImageLayoutMaker :=
  { format := params.format.priv.fmt
    dimensions := [params.w, params.h, params.d]
    flags := [DkImageFlags.HwCompression] ++
      (if params.render_src ∨ params.render_dst then [DkImageFlags.UsageRender] else []) ++
      (if params.storage_dst then [DkImageFlags.UsageLoadStore] else []) ++
      (if params.blit_src ∨ params.blit_dst then [DkImageFlags.Usage2DEngine] else []) ++
      (if params.h ≤ 8 then [DkImageFlags.CustomTileSize] else [])
    tileSize := if params.h ≤ 8 then DkTileSize.DkTileSize_OneGob else DkTileSize.default
    type :=
      if params.dimensions = 1 then some DkImageType.DkImageType_1D
      else if params.dimensions = 2 then some DkImageType.DkImageType_2D
      else if params.dimensions = 3 then some DkImageType.DkImageType_3D
      else none }

/-- The outcome of `dk_tex_create`: the bookkeeping afterwards, the private
data of the returned texture (`none`: the call returned `NULL`) and the layout
request it built. -/
structure TexCreate where
  ra : priv
  tex : Option ra_tex_dk
  layout : DkImageLayoutMaker
  deriving DecidableEq, Repr

/-- The function `dk_tex_create`.  Both `talloc_zero` calls are taken to
succeed (the private data then starts zeroed, `descriptor_idx = 0`);
`memblock_ok` tells whether `dkMemBlockCreate` returns a block and `upload_ok`
what `dk_tex_upload` returns for the initial data.  Every failure path calls
`dk_tex_destroy` on the texture before returning `NULL`. -/
def dk_tex_create (p : priv) (params : ra_tex_params) (memblock_ok upload_ok : Bool) :
    TexCreate :=
  let tex_priv : ra_tex_dk := ⟨0⟩
  let layout := dk_tex_layout params
  if layout.type = none then ⟨dk_tex_destroy p tex_priv, none, layout⟩
  else if memblock_ok = false then ⟨dk_tex_destroy p tex_priv, none, layout⟩
  else if params.initial_data = true ∧ upload_ok = false then
    ⟨dk_tex_destroy p tex_priv, none, layout⟩
  else
    ⟨(ra_dk_register_texture p).1, some (ra_dk_register_texture p).2, layout⟩

/-- The first entry of the format table, `r8`, as a default for list lookups. -/
def default_format : ra_format :=
  { name := "r8", priv := ⟨"r8", 1, 1, [8], DkImageFormat.R8_Unorm, ra_ctype.RA_CTYPE_UNORM,
      true, true, true, true⟩, ctype := ra_ctype.RA_CTYPE_UNORM, ordered := true,
    num_components := 1, pixel_size := 1, linear_filter := true, renderable := true,
    storable := true, component_size := [8] }

/-- Modelled from the spec: the invalid-parameter error of the render API
(`MPV_ERROR_INVALID_PARAMETER` of client.h, which is not among the sources),
the parameter-error result of a capability mismatch. -/
def MPV_ERROR_INVALID_PARAMETER : Int := -4

/-- The per-frame record `mpv_deko3d_fbo`: the target image (by identity), the
two optional fences, the dimensions and the hardware format tag. -/
structure mpv_deko3d_fbo where
  tex : Nat
  fences : fbo_fences
  w : Int
  h : Int
  format : DkImageFormat
  deriving DecidableEq, Repr

/-- The search loop of `wrap_fbo` over `ra->formats`: `fmt` (initially `NULL`)
is assigned every format the loop visits and the loop breaks at the first one
whose table entry carries the requested tag. -/
def wrap_fbo_loop (tag : DkImageFormat) : List ra_format → Option ra_format → Option ra_format
  | [], fmt => fmt
  | f :: rest, _ => if f.priv.fmt = tag then some f else wrap_fbo_loop tag rest (some f)

/-- The outcome of `wrap_fbo`: the return code and, when it stores one in
`*out`, the parameters and the image of the wrapped target texture. -/
structure WrapFbo where
  ret : Int
  out : Option (ra_tex_params × Nat)
  deriving DecidableEq, Repr

/-- The function `wrap_fbo` on a context whose formats are `fmts`. -/
def wrap_fbo (fmts : List ra_format) (fbo : mpv_deko3d_fbo) : WrapFbo :=
  match wrap_fbo_loop fbo.format fmts none with
  | none => ⟨MPV_ERROR_INVALID_PARAMETER, none⟩
  | some fmt =>
    ⟨0, some ({ dimensions := 0, w := fbo.w, h := fbo.h, d := 1, format := fmt,
                render_src := false, render_dst := true, storage_dst := false,
                blit_src := true, blit_dst := true, initial_data := false }, fbo.tex)⟩

/-! ## Imported-texture cache (`video/out/hwdec/hwdec_deko3d.c`) -/

/-- A pointer `struct ra_tex_dk *`: the address `talloc_zero` returned and the
private data stored there. -/
structure tex_ptr where
  addr : Nat
  obj : ra_tex_dk
  deriving DecidableEq, Repr

/-- An entry `struct cached_texture`: the buffer reference it holds, the
owning frames context (by identity), the external handle, the memory import
(`none` is `NULL`) and the first `num_planes` entries of `tex[3]`. -/
structure cached_texture where
  buf_ref : Nat
  frames_ctx : Nat
  handle : Nat
  memblock : Option Nat
  tex : List tex_ptr
  deriving DecidableEq, Repr

/-- The fields of `struct priv` of the mapper; `num_cached_textures` is the
length of `cached_textures`. -/
structure hwdec_priv where
  has_calculated_layouts : Bool
  num_planes : Nat
  is_linear : Bool
  cached_textures : List cached_texture
  deriving DecidableEq, Repr

/-- The external calls of the mapper, in the order they are made. -/
inductive HwCall where
  | dkImageLayoutInitialize (plane : Nat) (linear : Bool)
  | av_buffer_ref (ref : Nat)
  | av_buffer_unref (ref : Nat)
  | dkMemBlockCreate (handle : Nat)
  | dkMemBlockDestroy (block : Nat)
  | dkCmdBufBarrier_invalidate_image
  | dkQueueSubmitCommands
  deriving DecidableEq, Repr

/-- The state a mapper works on: its private data, the bookkeeping of the
rendering abstraction (descriptor table), the private pointers
`mapper->tex[j]->priv` of its plane textures (`none` is `NULL`), the next
address `talloc_zero` hands out and the next memory block identity, the
external calls made so far, and the entries `destroy_cache_entry` ran on, in
call order. -/
structure Mapper where
  hw : hwdec_priv
  ra : priv
  tex : List (Option tex_ptr)
  next_addr : Nat
  next_block : Nat
  log : List HwCall
  destroyed : List cached_texture
  deriving DecidableEq, Repr

/-- A mapping request: the handle and the linear flag of the frame's map, the
frames context of the source image, the map reference, and the outcomes of the
calls that can fail (`talloc_fail` is the plane whose `talloc_zero` returns
`NULL`, if any). -/
structure map_request where
  handle : Nat
  is_linear : Bool
  hwctx : Nat
  map_ref : Nat
  buf_ref_ok : Bool
  memblock_ok : Bool
  talloc_fail : Option Nat
  deriving DecidableEq, Repr

/-- The function `destroy_cache_entry`: unregisters the `num_planes` plane
textures of the entry, destroys its memory import when there is one, and drops
its buffer reference. -/
def destroy_cache_entry (m : Mapper) (e : cached_texture) : Mapper :=
  { m with
    ra := (e.tex.take m.hw.num_planes).foldl (fun p t => ra_dk_unregister_texture p t.obj) m.ra
    log := m.log ++
      (match e.memblock with
       | some b => [HwCall.dkMemBlockDestroy b]
       | none => []) ++ [HwCall.av_buffer_unref e.buf_ref]
    destroyed := m.destroyed ++ [e] }

/-- Modelled from the spec: the macro `MP_TARRAY_REMOVE_AT` (ta/ta_talloc.h)
is not among the sources; it removes the element at index `i` from the cache
list and keeps the others in order. -/
def MP_TARRAY_REMOVE_AT (m : Mapper) (i : Nat) : Mapper :=
  { m with hw := { m.hw with cached_textures := m.hw.cached_textures.eraseIdx i } }

/-- Modelled from the spec: the macro `MP_TARRAY_APPEND` (ta/ta_talloc.h) is
not among the sources; it appends the entry to the cache list. -/
def MP_TARRAY_APPEND (m : Mapper) (e : cached_texture) : Mapper :=
  { m with hw := { m.hw with cached_textures := m.hw.cached_textures ++ [e] } }

/-- The eviction loop of `mapper_map`, `for (i = n - 1; i >= 0; --i)`, with
`i + 1` indices still to visit: an entry whose frames context differs from the
request's is destroyed and removed. -/
def evict_loop (hwctx : Nat) : Nat → Mapper → Mapper
  | 0, m => m
  | i + 1, m =>
    match m.hw.cached_textures.get? i with
    | some e =>
      if e.frames_ctx ≠ hwctx then
        evict_loop hwctx i (MP_TARRAY_REMOVE_AT (destroy_cache_entry m e) i)
      else evict_loop hwctx i m
    | none => evict_loop hwctx i m

/-- The layout block at the head of `mapper_map`: the plane layouts are
initialised again when the linear flag changes or when they never were.  (The
adjustment of the plane width to the stride is not part of the model.) -/
def mapper_layouts (m : Mapper) (req : map_request) : Mapper :=
  if m.hw.is_linear ≠ req.is_linear ∨ m.hw.has_calculated_layouts = false then
    { m with
      hw := { m.hw with is_linear := req.is_linear, has_calculated_layouts := true }
      log := m.log ++
        (List.range m.hw.num_planes).map (fun i => HwCall.dkImageLayoutInitialize i req.is_linear) }
  else m

/-- The state of `mapper_map` after the layout block and the eviction loop. -/
def mapper_evict (m : Mapper) (req : map_request) : Mapper :=
  evict_loop req.hwctx (mapper_layouts m req).hw.cached_textures.length (mapper_layouts m req)

/-- The outcome of the plane loop of the miss path: the bookkeeping, the next
address, the plane textures created so far, and whether every `talloc_zero`
succeeded. -/
structure PlaneLoop where
  ra : priv
  next_addr : Nat
  created : List tex_ptr
  ok : Bool
  deriving DecidableEq, Repr

/-- The plane loop of the miss path of `mapper_map` from plane `i` on, with
`n` planes left: each plane gets fresh private data, which is registered in
the descriptor table and recorded in the new entry; a failed `talloc_zero`
stops the loop. -/
def map_planes (talloc_fail : Option Nat) : Nat → Nat → PlaneLoop → PlaneLoop
  | 0, _, st => st
  | n + 1, i, st =>
    if talloc_fail = some i then { st with ok := false }
    else
      map_planes talloc_fail n (i + 1)
        { ra := (ra_dk_register_texture st.ra).1
          next_addr := st.next_addr + 1
          created := st.created ++ [⟨st.next_addr, (ra_dk_register_texture st.ra).2⟩]
          ok := true }

/-- The function `mapper_map`: the return code and the state afterwards. -/
def mapper_map (m : Mapper) (req : map_request) : Int × Mapper :=
  let m2 := mapper_evict m req
  match m2.hw.cached_textures.find? (fun e => decide (e.handle = req.handle)) with
  | some e =>
    (0, { m2 with
          tex := (List.range m2.hw.num_planes).map (fun j => e.tex.get? j)
          log := m2.log ++ [HwCall.dkCmdBufBarrier_invalidate_image,
            HwCall.dkQueueSubmitCommands] })
  | none =>
    if req.buf_ref_ok = false then (-1, m2)
    else if req.memblock_ok = false then
      (-1, { m2 with log := m2.log ++ [HwCall.av_buffer_ref req.map_ref] })
    else
      let pl := map_planes req.talloc_fail m2.hw.num_planes 0 ⟨m2.ra, m2.next_addr, [], true⟩
      if pl.ok = false then
        (-1, { m2 with
               ra := pl.ra
               next_addr := pl.next_addr
               next_block := m2.next_block + 1
               tex := pl.created.map some ++ [none] ++ m2.tex.drop (pl.created.length + 1)
               log := m2.log ++ [HwCall.av_buffer_ref req.map_ref,
                 HwCall.dkMemBlockCreate req.handle, HwCall.dkMemBlockDestroy m2.next_block] })
      else
        (0, MP_TARRAY_APPEND
          { m2 with
            ra := pl.ra
            next_addr := pl.next_addr
            next_block := m2.next_block + 1
            tex := pl.created.map some
            log := m2.log ++ [HwCall.av_buffer_ref req.map_ref,
              HwCall.dkMemBlockCreate req.handle] }
          ⟨req.map_ref, req.hwctx, req.handle, some m2.next_block, pl.created⟩)

/-! ## Texture transfers and buffer updates -/

/-- A memory block a transfer touches: the block of a caller buffer (by
identity), the temporary import of host memory made by the call, or the
scratch vertex block of a render pass (by identity). -/
inductive MemRef where
  | buffer (id : Nat)
  | host
  | scratch (id : Nat)
  deriving DecidableEq, Repr

/-- A fence a transfer touches: the fence of a caller buffer, or the `fence`
on the stack of the call. -/
inductive RaFence where
  | buffer (id : Nat)
  | stack
  deriving DecidableEq, Repr

/-- The deko3d calls and host memory copies of the transfer, update and run
functions, in the order they are made.  A GPU address is a block with a byte
offset; `dkMemBlockCreate` carries the storage address and the size of the
request. -/
inductive RaCall where
  | dkMemBlockCreate (storage size : Nat)
  | dkMemBlockDestroy (block : MemRef)
  | dkMemBlockFlushCpuCache (block : MemRef) (offset size : Nat)
  | dkCmdBufWaitFence (fence : RaFence)
  | dkCmdBufCopyBufferToImage (block : MemRef) (offset rowLength imageHeight : Nat)
  | dkCmdBufCopyImageToBuffer (block : MemRef) (offset rowLength imageHeight : Nat)
  | dkCmdBufBarrier_invalidate_image
  | dkCmdBufSignalFence (fence : RaFence) (flush : Bool)
  | dkQueueSubmitCommands
  | dkQueueFlush
  | dkFenceWait (fence : RaFence) (timeout : Int)
  | dkQueueWaitIdle
  | dkCmdBufPushConstants (block : MemRef) (offset size : Nat)
  | memcpy (block : MemRef) (offset size : Nat)
  | dkCmdBufPushData (block : MemRef) (size : Nat)
  | dkCmdBufBindRenderTarget
  | dkCmdBufDiscardColor
  | dkCmdBufBindBlendState
  | dkCmdBufSetViewports
  | dkCmdBufSetScissors
  | dkCmdBufBindShaders (count : Nat)
  | dkCmdBufBindRasterizerState
  | dkCmdBufBindColorState
  | dkCmdBufBindColorWriteState
  | dkCmdBufBindDepthStencilState
  | dkCmdBufBindVtxBuffer (block : MemRef) (size : Nat)
  | dkCmdBufBindVtxAttribState
  | dkCmdBufBindVtxBufferState
  | dkCmdBufDraw (vertex_count : Nat)
  | dkCmdBufBarrier_fragments
  | dkCmdBufDispatchCompute (x y z : Nat)
  | dkCmdBufBarrier_primitives
  deriving DecidableEq, Repr

/-- The buffer types `enum ra_buf_type`. -/
inductive ra_buf_type where
  | RA_BUF_TYPE_INVALID
  | RA_BUF_TYPE_TEX_UPLOAD
  | RA_BUF_TYPE_SHADER_STORAGE
  | RA_BUF_TYPE_UNIFORM
  | RA_BUF_TYPE_VERTEX
  | RA_BUF_TYPE_SHARED_MEMORY
  deriving DecidableEq, Repr

/-- A buffer `struct ra_buf` with its private data: identity of its memory
block and fence, its type, `params.host_mapped`, and `is_cpu_cached`. -/
structure ra_buf where
  id : Nat
  type : ra_buf_type
  host_mapped : Bool
  is_cpu_cached : Bool
  deriving DecidableEq, Repr

/-- The private data `dk_buf_create` sets up for a buffer of the given type:
`is_cpu_cached = (type == RA_BUF_TYPE_TEX_UPLOAD)`. -/
def dk_buf_create (id : Nat) (type : ra_buf_type) (host_mapped : Bool) : ra_buf :=
  ⟨id, type, host_mapped, decide (type = ra_buf_type.RA_BUF_TYPE_TEX_UPLOAD)⟩

/-- A rectangle `struct mp_rect`. -/
structure mp_rect where
  x0 : Nat
  y0 : Nat
  x1 : Nat
  y1 : Nat
  deriving DecidableEq, Repr

/-- The wrapping of host memory at address `p` with a payload of `n` bytes in
a block aligned to `align`, as `dk_tex_upload` and `dk_tex_download` compute
it: `memblk_off = p & (align - 1)`, the request size
`MP_ALIGN_UP(n + memblk_off, align)` passed as the `uint32_t` size of the block
maker, and the storage address `p - memblk_off`. -/
structure HostImport where
  memblk_off : Nat
  size : Nat
  storage : Nat
  deriving DecidableEq, Repr

/-- The wrapping of `dk_tex_upload`, with
`memblk_size = n + memblk_off`. -/
def upload_import (align p n : Nat) : HostImport :=
  { memblk_off := p &&& (align - 1)
    size := MP_ALIGN_UP (n + (p &&& (align - 1))) align % U32
    storage := p - (p &&& (align - 1)) }

/-- The wrapping of `dk_tex_download`, with
`memblk_size = memblk_off + n`. -/
def download_import (align p n : Nat) : HostImport :=
  { memblk_off := p &&& (align - 1)
    size := MP_ALIGN_UP ((p &&& (align - 1)) + n) align % U32
    storage := p - (p &&& (align - 1)) }

/-- The fields of `struct ra_tex_upload_params` with the dimensions of the
target texture: the caller buffer (`none` when `params->buf` is null), its
offset, the host address `src`, the stride and the optional rectangle. -/
structure ra_tex_upload_params where
  tex_w : Nat
  tex_h : Nat
  tex_d : Nat
  buf : Option ra_buf
  buf_offset : Nat
  src : Nat
  stride : Nat
  rc : Option mp_rect
  deriving DecidableEq, Repr

/-- The height of the rectangle `tex_rect` of `dk_tex_upload`. -/
def ra_tex_upload_params.rect_height (params : ra_tex_upload_params) : Nat :=
  match params.rc with
  | some rc => rc.y1 - rc.y0
  | none => params.tex_h

/-- The depth of the rectangle `tex_rect` of `dk_tex_upload`. -/
def ra_tex_upload_params.rect_depth (params : ra_tex_upload_params) : Nat :=
  match params.rc with
  | some _ => 1
  | none => params.tex_d

/-- The outcome of a transfer: the returned flag and the calls made. -/
structure Transfer where
  ret : Bool
  calls : List RaCall
  deriving DecidableEq, Repr

/-- The function `dk_tex_upload`.  `memblock_ok` tells whether
`dkMemBlockCreate` returns the temporary import and `wait_ok` whether the
final `dkFenceWait` reports `DkResult_Success`. -/
def dk_tex_upload (params : ra_tex_upload_params) (memblock_ok wait_ok : Bool) : Transfer :=
  let rows := params.rect_height * params.rect_depth
  let n := params.stride * params.rect_height * params.rect_depth
  match params.buf with
  | some buf =>
    let record :=
      (if buf.host_mapped
        then [RaCall.dkMemBlockFlushCpuCache (MemRef.buffer buf.id) params.buf_offset n]
        else []) ++
      [RaCall.dkCmdBufWaitFence (RaFence.buffer buf.id),
       RaCall.dkCmdBufCopyBufferToImage (MemRef.buffer buf.id) params.buf_offset
         params.stride rows,
       RaCall.dkCmdBufBarrier_invalidate_image,
       RaCall.dkCmdBufSignalFence (RaFence.buffer buf.id) false]
    if buf.is_cpu_cached then ⟨true, record⟩
    else
      ⟨wait_ok, record ++
        [RaCall.dkQueueSubmitCommands, RaCall.dkQueueFlush,
         RaCall.dkFenceWait (RaFence.buffer buf.id) (-1)]⟩
  | none =>
    let imp := upload_import DK_MEMBLOCK_ALIGNMENT params.src n
    if memblock_ok = false then ⟨false, [RaCall.dkMemBlockCreate imp.storage imp.size]⟩
    else
      ⟨wait_ok,
        [RaCall.dkMemBlockCreate imp.storage imp.size,
         RaCall.dkMemBlockFlushCpuCache MemRef.host imp.memblk_off n,
         RaCall.dkCmdBufCopyBufferToImage MemRef.host imp.memblk_off params.stride rows,
         RaCall.dkCmdBufBarrier_invalidate_image,
         RaCall.dkCmdBufSignalFence RaFence.stack false,
         RaCall.dkQueueSubmitCommands, RaCall.dkQueueFlush,
         RaCall.dkFenceWait RaFence.stack (-1),
         RaCall.dkMemBlockDestroy MemRef.host]⟩

/-- The fields of `struct ra_tex_download_params` with the dimensions of the
source texture: the host address `dst` and the stride. -/
structure ra_tex_download_params where
  tex_w : Nat
  tex_h : Nat
  dst : Nat
  stride : Nat
  deriving DecidableEq, Repr

/-- The function `dk_tex_download`, with the same two outcomes. -/
def dk_tex_download (params : ra_tex_download_params) (memblock_ok wait_ok : Bool) :
    Transfer :=
  let imp := download_import DK_MEMBLOCK_ALIGNMENT params.dst (params.stride * params.tex_h)
  if memblock_ok = false then ⟨false, [RaCall.dkMemBlockCreate imp.storage imp.size]⟩
  else
    ⟨wait_ok,
      [RaCall.dkMemBlockCreate imp.storage imp.size,
       RaCall.dkCmdBufCopyImageToBuffer MemRef.host imp.memblk_off params.stride params.tex_h,
       RaCall.dkCmdBufSignalFence RaFence.stack true,
       RaCall.dkQueueSubmitCommands, RaCall.dkQueueFlush,
       RaCall.dkFenceWait RaFence.stack (-1),
       RaCall.dkMemBlockDestroy MemRef.host]⟩

/-- The function `dk_buf_update`: the calls it makes for an update of `size`
bytes at `offset`. -/
def dk_buf_update (buf : ra_buf) (offset size : Nat) : List RaCall :=
  if buf.type = ra_buf_type.RA_BUF_TYPE_UNIFORM then
    [RaCall.dkCmdBufPushConstants (MemRef.buffer buf.id) offset size]
  else
    [RaCall.dkQueueWaitIdle, RaCall.memcpy (MemRef.buffer buf.id) offset size] ++
    (if buf.is_cpu_cached
      then [RaCall.dkMemBlockFlushCpuCache (MemRef.buffer buf.id) offset size]
      else [])

/-! ## Render pass runs -/

/-- The scratch vertex block `pass_priv->vao_memblock`: its identity and the
size `dkMemBlockGetSize` reports. -/
structure vao_block where
  id : Nat
  size : Nat
  deriving DecidableEq, Repr

/-- The fields of a raster run the vertex path reads: the vertex count of the
run, and the stride and the two flags of the pass. -/
structure raster_run where
  vertex_count : Nat
  vertex_stride : Nat
  invalidate_target : Bool
  enable_blend : Bool
  deriving DecidableEq, Repr

/-- The reallocation block at the head of `dk_renderpass_run_raster`: when the
scratch block is absent or smaller than the payload, the queue is waited idle,
the old block is destroyed and a block of the aligned payload size is
requested (`new_id` is the identity of the new block and `alloc_ok` tells
whether the request succeeds).  Returns the block afterwards and the calls. -/
def vao_realloc (vao : Option vao_block) (s new_id : Nat) (alloc_ok : Bool) :
    Option vao_block × List RaCall :=
  let size := MP_ALIGN_UP s DK_MEMBLOCK_ALIGNMENT % U32
  match vao with
  | none =>
    (if alloc_ok then some ⟨new_id, size⟩ else none,
     [RaCall.dkQueueWaitIdle, RaCall.dkMemBlockCreate 0 size])
  | some blk =>
    if s > blk.size then
      (if alloc_ok then some ⟨new_id, size⟩ else none,
       [RaCall.dkQueueWaitIdle, RaCall.dkMemBlockDestroy (MemRef.scratch blk.id),
        RaCall.dkMemBlockCreate 0 size])
    else (some blk, [])

/-- The vertex write of `dk_renderpass_run_raster`: the payload of `vao_size`
bytes goes through the inline engine when it is at most `0x7ffc` bytes, else
the queue is waited idle and the bytes are copied to the host address of the
scratch block. -/
def vertex_write (blk : vao_block) (vao_size : Nat) : List RaCall :=
  if vao_size ≤ 0x7ffc then [RaCall.dkCmdBufPushData (MemRef.scratch blk.id) vao_size]
  else [RaCall.dkQueueWaitIdle, RaCall.memcpy (MemRef.scratch blk.id) 0 vao_size]

/-- The binding and draw calls that end `dk_renderpass_run_raster`. -/
def raster_draw (blk : vao_block) (run : raster_run) : List RaCall :=
  [RaCall.dkCmdBufBindRenderTarget] ++
  (if run.invalidate_target then [RaCall.dkCmdBufDiscardColor] else []) ++
  (if run.enable_blend then [RaCall.dkCmdBufBindBlendState] else []) ++
  [RaCall.dkCmdBufSetViewports, RaCall.dkCmdBufSetScissors, RaCall.dkCmdBufBindShaders 2,
   RaCall.dkCmdBufBindRasterizerState, RaCall.dkCmdBufBindColorState,
   RaCall.dkCmdBufBindColorWriteState, RaCall.dkCmdBufBindDepthStencilState,
   RaCall.dkCmdBufBindVtxBuffer (MemRef.scratch blk.id) blk.size,
   RaCall.dkCmdBufBindVtxAttribState, RaCall.dkCmdBufBindVtxBufferState,
   RaCall.dkCmdBufDraw run.vertex_count, RaCall.dkCmdBufBarrier_fragments]

/-- The function `dk_renderpass_run_raster`: the scratch block afterwards and
the calls made.  When the reallocation fails the function returns before the
vertex write. -/
def dk_renderpass_run_raster (vao : Option vao_block) (run : raster_run) (new_id : Nat)
    (alloc_ok : Bool) : Option vao_block × List RaCall :=
  let s := run.vertex_count * run.vertex_stride
  match (vao_realloc vao s new_id alloc_ok).1 with
  | none => (none, (vao_realloc vao s new_id alloc_ok).2)
  | some blk =>
    (some blk, (vao_realloc vao s new_id alloc_ok).2 ++ vertex_write blk s ++ raster_draw blk run)

/-- The variable types `enum ra_vartype`. -/
inductive ra_vartype where
  | RA_VARTYPE_INVALID
  | RA_VARTYPE_INT
  | RA_VARTYPE_FLOAT
  | RA_VARTYPE_TEX
  | RA_VARTYPE_IMG_W
  | RA_VARTYPE_BYTE_UNORM
  | RA_VARTYPE_BUF_RO
  | RA_VARTYPE_BUF_RW
  deriving DecidableEq, Repr

/-- An input `struct ra_renderpass_input` of a pass: its declared type and
binding. -/
structure ra_renderpass_input where
  type : ra_vartype
  binding : Nat
  deriving DecidableEq, Repr

/-- An input value `struct ra_renderpass_input_val` of a run: the index of the
input it belongs to and, for a buffer input, the identity of the buffer that
`val->data` points to. -/
structure ra_renderpass_input_val where
  index : Nat
  data : Nat
  deriving DecidableEq, Repr

/-- The loop over `params->values` that ends `dk_renderpass_run_compute`: a
value whose input is declared `RA_VARTYPE_BUF_RW` gets a signal of its
buffer's fence (with the flush flag), any other value gets nothing. -/
def compute_fence_loop (inputs : List ra_renderpass_input) :
    List ra_renderpass_input_val → List RaCall
  | [] => []
  | val :: rest =>
    (if (inputs.getD val.index ⟨ra_vartype.RA_VARTYPE_INVALID, 0⟩).type =
        ra_vartype.RA_VARTYPE_BUF_RW
      then [RaCall.dkCmdBufSignalFence (RaFence.buffer val.data) true]
      else []) ++ compute_fence_loop inputs rest

/-- The function `dk_renderpass_run_compute`: the calls it records for a pass
with the inputs `inputs`, the values `values` and the group counts. -/
def dk_renderpass_run_compute (inputs : List ra_renderpass_input)
    (values : List ra_renderpass_input_val) (gx gy gz : Nat) : List RaCall :=
  [RaCall.dkCmdBufBindShaders 1, RaCall.dkCmdBufDispatchCompute gx gy gz,
   RaCall.dkCmdBufBarrier_primitives] ++ compute_fence_loop inputs values

/-! ## Mapper runs -/

/-- A run of the mapper: `mapper_map` called on each request in turn, whatever
each call returned. -/
def mapper_run (m : Mapper) : List map_request → Mapper
  | [] => m
  | req :: rest => mapper_run (mapper_map m req).2 rest

/-! ## Descriptor table: properties -/

/-- C1 (descriptor uniqueness), evaluated on the code: after 65 registrations
from the empty table with no unregistration, the 65th texture has received
descriptor index 0 while the first texture, still registered, holds index 0 as
well, so the indices of the registered textures are not pairwise distinct.
The loop stores the bit position inside the word, without the word's base
`i * 64`. -/
theorem register_returns_held_index :
    DescState.init.wf (List.replicate 65 .register) = true ∧
    (DescState.init.run (List.replicate 65 .register)).registered.get? 0 = some 0 ∧
    (DescState.init.run (List.replicate 65 .register)).registered.get? 64 = some 0 ∧
    ¬ (DescState.init.run (List.replicate 65 .register)).registered.Nodup := by
  decide

/-- C2 (descriptor counting), evaluated on the code: after 65 registrations,
unregistering the 65th texture and then the first one (each registered at that
moment, each unregistered once) leaves 64 bits set for 63 registered textures.
Both textures carry index 0, so the second unregistration clears a bit that is
already clear. -/
theorem popcount_exceeds_registered :
    DescState.init.wf
      (List.replicate 65 .register ++ [.unregister 64, .unregister 0]) = true ∧
    desc_popcount (DescState.init.run
      (List.replicate 65 .register ++ [.unregister 64, .unregister 0])).table = 64 ∧
    (DescState.init.run
      (List.replicate 65 .register ++ [.unregister 64, .unregister 0])).registered.length
      = 63 := by
  decide

/-- C3 (lowest free slot), evaluated on the code: on the table whose first word
is saturated and whose second word is empty, the lowest clear bit is bit 64;
registration sets bit 64 and leaves the other bits alone, but stores
`descriptor_idx = 0`, not 64. -/
theorem register_second_word_index :
    ((List.range 64).all (fun i => desc_bit ⟨[ALL_ONES, 0], 0⟩ i)) = true ∧
    desc_bit ⟨[ALL_ONES, 0], 0⟩ 64 = false ∧
    (ra_dk_register_texture ⟨[ALL_ONES, 0], 0⟩).2.descriptor_idx = 0 ∧
    (ra_dk_register_texture ⟨[ALL_ONES, 0], 0⟩).1 = ⟨[ALL_ONES, 1], 0⟩ ∧
    desc_bit (ra_dk_register_texture ⟨[ALL_ONES, 0], 0⟩).1 64 = true := by
  decide

set_option maxRecDepth 1000000 in
/-- C4 (descriptor capacity): starting from the empty table with no release,
each of the first 128 calls of `ra_dk_register_texture` obtains a non-negative
descriptor index and fills the table, and the 129th call leaves
`descriptor_idx` at `-1` (the texture is not registered) and the table as it
was. -/
theorem descriptor_capacity_scenario :
    ((DescState.init.run (List.replicate 129 .register)).texs.take 128).all
        (fun t => decide (0 ≤ t.1.descriptor_idx)) = true ∧
    (DescState.init.run (List.replicate 129 .register)).texs.length = 129 ∧
    (DescState.init.run (List.replicate 129 .register)).texs.drop 128 = [(⟨-1⟩, false)] ∧
    (DescState.init.run (List.replicate 128 .register)).table = ⟨[ALL_ONES, ALL_ONES], 0⟩ ∧
    (DescState.init.run (List.replicate 129 .register)).table =
      (DescState.init.run (List.replicate 128 .register)).table := by
  decide


theorem ctzAux_lt (fuel : Nat) : ∀ (x acc : Nat), x % 2 ^ fuel ≠ 0 →
    ctzAux fuel x acc < acc + fuel := by
  induction fuel with
  | zero =>
    intro x acc h
    exact absurd (Nat.mod_one x) h
  | succ n ih =>
    intro x acc h
    unfold ctzAux
    split_ifs with hx
    · omega
    · have hx0 : x % 2 = 0 := by omega
      have h2 : (x / 2) % 2 ^ n ≠ 0 := by
        intro hz
        apply h
        have e : x % 2 ^ (n + 1) = 2 * ((x / 2) % 2 ^ n) + x % 2 := by
          rw [pow_succ', Nat.mod_mul]
          omega
        rw [e, hz, hx0]
      have := ih (x / 2) (acc + 1) h2
      omega

/-- Every index `ra_dk_register_texture` hands out lies below 64, whatever the
table (of 64-bit words) holds: the bit position is taken inside one word. -/
theorem register_index_below_64 (p : priv) (hp : ∀ w ∈ p.allocated_descriptors, w < U64) :
    (ra_dk_register_texture p).2.descriptor_idx < 64 := by
  unfold ra_dk_register_texture
  simp only
  generalize p.allocated_descriptors = ws at hp
  induction ws with
  | nil => simp [register_loop]
  | cons pos rest ih =>
    unfold register_loop
    split_ifs with h
    · exact ih (fun w hw => hp w (List.mem_cons_of_mem _ hw))
    · have hlt : pos < U64 := hp pos (List.mem_cons_self _ _)
      have hne : not64 pos % 2 ^ 64 ≠ 0 := by
        simp only [not64, ALL_ONES, U64] at *
        omega
      have := ctzAux_lt 64 (not64 pos) 0 hne
      simp only [ctzll]
      omega

/-! ## Shader cache: properties -/

theorem byte_val (x : Nat) : (Fin.ofNat x : Byte).val = x % 256 := rfl

theorem blob_mem_lt (data : List Byte) (beyond : Nat → Byte) (i : Nat) (h : i < data.length) :
    blob_mem data beyond i = data.get ⟨i, h⟩ := by
  simp [blob_mem, h]

theorem blob_mem_append_left (a b : List Byte) (beyond : Nat → Byte) (i : Nat)
    (h : i < a.length) : blob_mem (a ++ b) beyond i = a.getD i 0 := by
  have h2 : i < (a ++ b).length := by simp; omega
  rw [blob_mem_lt _ _ _ h2]
  simp [List.getD, List.getElem?_eq_getElem h, List.getElem_append_left h]

theorem rd32_le32 (x : Nat) (hx : x < U32) (m : Nat → Byte) (off : Nat)
    (h0 : m off = Fin.ofNat x) (h1 : m (off + 1) = Fin.ofNat (x / 256))
    (h2 : m (off + 2) = Fin.ofNat (x / 65536)) (h3 : m (off + 3) = Fin.ofNat (x / 16777216)) :
    rd32 m off = x := by
  simp only [rd32, h0, h1, h2, h3, byte_val]
  simp only [U32] at hx
  omega

theorem hdr_bytes_length (h : dk_shadercache_hdr) : (hdr_bytes h).length = 32 := by
  simp [hdr_bytes, le32]

theorem hdr_read_hdr_bytes (h : dk_shadercache_hdr) (body : List Byte) (beyond : Nat → Byte)
    (hm : h.magic < U32) (hv : h.cache_version = 1)
    (h1 : h.vertex_offset < U32) (h2 : h.vertex_size < U32)
    (h3 : h.fragment_offset < U32) (h4 : h.fragment_size < U32)
    (h5 : h.compute_offset < U32) (h6 : h.compute_size < U32) :
    hdr_read (blob_mem (hdr_bytes h ++ body) beyond) = h := by
  have key : ∀ i, i < 32 → blob_mem (hdr_bytes h ++ body) beyond i = (hdr_bytes h).getD i 0 :=
    fun i hi => blob_mem_append_left _ _ _ _ (by rw [hdr_bytes_length]; exact hi)
  cases h with
  | mk magic ver vo vs fo fs co cs =>
    simp only at hm hv h1 h2 h3 h4 h5 h6
    subst hv
    simp only [hdr_read, dk_shadercache_hdr.mk.injEq]
    refine ⟨?_, ?_, ?_, ?_, ?_, ?_, ?_, ?_⟩
    · apply rd32_le32 _ hm <;> (rw [key _ (by norm_num)]; simp [hdr_bytes, le32])
    · have : rd32 (blob_mem (hdr_bytes ⟨magic, 1, vo, vs, fo, fs, co, cs⟩ ++ body) beyond) 4 = 1 := by
        apply rd32_le32 _ (by norm_num [U32]) <;> (rw [key _ (by norm_num)]; simp [hdr_bytes, le32])
      rw [this]; simp [toInt32]
    · apply rd32_le32 _ h1 <;> (rw [key _ (by norm_num)]; simp [hdr_bytes, le32])
    · apply rd32_le32 _ h2 <;> (rw [key _ (by norm_num)]; simp [hdr_bytes, le32])
    · apply rd32_le32 _ h3 <;> (rw [key _ (by norm_num)]; simp [hdr_bytes, le32])
    · apply rd32_le32 _ h4 <;> (rw [key _ (by norm_num)]; simp [hdr_bytes, le32])
    · apply rd32_le32 _ h5 <;> (rw [key _ (by norm_num)]; simp [hdr_bytes, le32])
    · apply rd32_le32 _ h6 <;> (rw [key _ (by norm_num)]; simp [hdr_bytes, le32])


theorem mem_read_blob (data : List Byte) (beyond : Nat → Byte) (off n : Nat)
    (h : off + n ≤ data.length) :
    mem_read (blob_mem data beyond) off n = blk_read data off n := by
  apply List.ext_getElem
  · simp [mem_read, blk_read]; omega
  · intro i h1 h2
    simp only [mem_read, List.length_map, List.length_range] at h1
    simp [mem_read, blk_read, blob_mem_lt data beyond (off + i) (by omega)]

theorem blk_read_append (a b c : List Byte) :
    blk_read (a ++ b ++ c) a.length b.length = b := by
  simp [blk_read]

theorem blk_read_mem_write (blk src : List Byte) (off : Nat) (h : off ≤ blk.length) :
    blk_read (mem_write blk off src) off src.length = src := by
  have hl : (blk.take off).length = off := by simp; omega
  simp only [blk_read, mem_write, List.append_assoc]
  rw [List.drop_append_of_le_length (by omega)]
  have : List.drop off (List.take off blk) = [] := by
    apply List.drop_eq_nil_of_le; omega
  rw [this]
  simp

theorem blk_read_mem_write_below (blk src : List Byte) (off off1 n : Nat)
    (h : off ≤ blk.length) (h1 : off1 + n ≤ off) :
    blk_read (mem_write blk off src) off1 n = blk_read blk off1 n := by
  apply List.ext_getElem?
  intro i
  simp only [blk_read, mem_write, List.append_assoc]
  by_cases hi : i < n
  · rw [List.getElem?_take_of_lt hi, List.getElem?_take_of_lt hi, List.getElem?_drop,
      List.getElem?_drop, List.getElem?_append_left (by simp; omega)]
    rw [List.getElem?_take_of_lt (by omega)]
  · rw [List.getElem?_take_eq_none (by omega), List.getElem?_take_eq_none (by omega)]

theorem mem_write_length (blk src : List Byte) (off : Nat) (h : off + src.length ≤ blk.length) :
    (mem_write blk off src).length = blk.length := by
  simp [mem_write]; omega

theorem bstr_xappend_some (l : List Byte) (a : bstr) :
    bstr_xappend ⟨some l⟩ a = ⟨some (l ++ a.bytes)⟩ := by
  unfold bstr_xappend
  split
  · rename_i h
    have : a.bytes = [] := List.length_eq_zero.mp h
    rw [this, List.append_nil]
  · rfl

theorem bstr_xappend_null_hdr (h : dk_shadercache_hdr) :
    bstr_xappend bstr.null ⟨some (hdr_bytes h)⟩ = ⟨some (hdr_bytes h)⟩ := by
  have hl : (bstr.mk (some (hdr_bytes h))).len ≠ 0 := by
    show (hdr_bytes h).length ≠ 0
    rw [hdr_bytes_length]; omega
  unfold bstr_xappend
  rw [if_neg hl]
  rfl

theorem save_shader_code_null (V F C : bstr) :
    save_shader_code bstr.null V F C =
      ⟨some (hdr_bytes (save_header V F C) ++ V.bytes ++ F.bytes ++ C.bytes)⟩ := by
  unfold save_shader_code
  rw [bstr_xappend_null_hdr, bstr_xappend_some, bstr_xappend_some, bstr_xappend_some]

theorem MP_ALIGN_UP_ge (x a : Nat) (ha : 0 < a) : x ≤ MP_ALIGN_UP x a := by
  unfold MP_ALIGN_UP
  have := Nat.div_add_mod (x + a - 1) a
  have := Nat.mod_lt (x + a - 1) ha
  have : (x + a - 1) / a * a = a * ((x + a - 1) / a) := Nat.mul_comm _ _
  omega

theorem MP_ALIGN_UP_lt (x a : Nat) (ha : 0 < a) : MP_ALIGN_UP x a < x + a := by
  unfold MP_ALIGN_UP
  have := Nat.div_add_mod (x + a - 1) a
  have : (x + a - 1) / a * a = a * ((x + a - 1) / a) := Nat.mul_comm _ _
  omega


theorem AV_RN32_magic_val : AV_RN32_magic = 0x48434B44 := by decide

theorem save_header_read (V F C : bstr) (body : List Byte) (beyond : Nat → Byte) :
    hdr_read (blob_mem (hdr_bytes (save_header V F C) ++ body) beyond) = save_header V F C := by
  have hU : U32 = 4294967296 := by norm_num [U32]
  have hH : HDR_SIZE = 32 := rfl
  apply hdr_read_hdr_bytes
    <;> simp only [save_header, AV_RN32_magic_val, dk_shadercache_version, hU, hH]
    <;> first
      | rfl
      | omega
      | (split_ifs <;> omega)

theorem load_shader_code_saved (alloc_ok : Bool) (beyond : Nat → Byte) (V F C : bstr)
    (wv wf wc : Bool) :
    load_shader_code alloc_ok beyond (save_shader_code bstr.null V F C) wv wf wc =
      match dkMemBlockCreate alloc_ok (load_memblock_size (save_header V F C) wv wf wc) with
      | none => ⟨false, none, none, none, none⟩
      | some blk =>
        let src := blob_mem (hdr_bytes (save_header V F C) ++ V.bytes ++ F.bytes ++ C.bytes) beyond
        let v := load_stage src wv (save_header V F C).vertex_offset
          (save_header V F C).vertex_size (blk, 0)
        let f := load_stage src wf (save_header V F C).fragment_offset
          (save_header V F C).fragment_size v.1
        let c := load_stage src wc (save_header V F C).compute_offset
          (save_header V F C).compute_size f.1
        ⟨true, some c.1.1, v.2, f.2, c.2⟩ := by
  rw [save_shader_code_null]
  unfold load_shader_code
  have hlen : ¬ (hdr_bytes (save_header V F C) ++ V.bytes ++ F.bytes ++ C.bytes).length
      < HDR_SIZE := by
    simp [hdr_bytes_length, HDR_SIZE]
  have hr := save_header_read V F C (V.bytes ++ F.bytes ++ C.bytes) beyond
  simp only [← List.append_assoc] at hr
  simp only [hlen, if_false, hr]
  have hmv : ¬ ((save_header V F C).magic ≠ AV_RN32_magic ∨
      (save_header V F C).cache_version ≠ dk_shadercache_version) := by
    simp [save_header]
  rw [if_neg hmv]


theorem MP_ALIGN_UP_zero (a : Nat) (ha : 0 < a) : MP_ALIGN_UP 0 a = 0 := by
  unfold MP_ALIGN_UP
  have : (0 + a - 1) / a = 0 := Nat.div_eq_of_lt (by omega)
  rw [this]; simp

theorem bstr_len_some (l : List Byte) : (bstr.mk (some l)).len = l.length := rfl

theorem bstr_bytes_some (l : List Byte) : (bstr.mk (some l)).bytes = l := rfl

theorem bstr_null_len : bstr.null.len = 0 := rfl

theorem bstr_null_bytes : bstr.null.bytes = [] := rfl

theorem save_header_raster (v f : List Byte) (hv : v ≠ []) (hf : f ≠ [])
    (hfit : HDR_SIZE + v.length + f.length < U32) :
    save_header ⟨some v⟩ ⟨some f⟩ bstr.null =
      ⟨AV_RN32_magic, 1, 32, v.length, 32 + v.length, f.length, 0, 0⟩ := by
  have hvl : v.length ≠ 0 := fun h => hv (List.length_eq_zero.mp h)
  have hfl : f.length ≠ 0 := fun h => hf (List.length_eq_zero.mp h)
  have hH : HDR_SIZE = 32 := rfl
  rw [hH] at hfit
  unfold save_header
  simp only [bstr_len_some, bstr_null_len, hH]
  simp only [hvl, hfl, ne_eq, not_false_eq_true, if_true, not_true_eq_false, if_false]
  rw [Nat.mod_eq_of_lt (by omega : v.length < U32),
    Nat.mod_eq_of_lt (by omega : f.length < U32),
    Nat.mod_eq_of_lt (by omega : 32 + v.length < U32)]
  rfl

theorem load_saved_raster (beyond : Nat → Byte) (v f : List Byte)
    (hv : v ≠ []) (hf : f ≠ []) (hfit : code_block_size v.length f.length 0 < U32) :
    ∃ blk, load_shader_code true beyond
        (save_shader_code bstr.null ⟨some v⟩ ⟨some f⟩ bstr.null) true true false =
        ⟨true, some blk, some ⟨0⟩,
          some ⟨MP_ALIGN_UP v.length DK_SHADER_CODE_ALIGNMENT⟩, none⟩ ∧
      blk_read blk 0 v.length = v ∧
      blk_read blk (MP_ALIGN_UP v.length DK_SHADER_CODE_ALIGNMENT) f.length = f := by
  have hvl : v.length ≠ 0 := fun h => hv (List.length_eq_zero.mp h)
  have hfl : f.length ≠ 0 := fun h => hf (List.length_eq_zero.mp h)
  have a1 := MP_ALIGN_UP_ge v.length 256 (by norm_num)
  have a2 := MP_ALIGN_UP_ge f.length 256 (by norm_num)
  have a3 := MP_ALIGN_UP_ge (1024 + MP_ALIGN_UP v.length 256 + MP_ALIGN_UP f.length 256)
    4096 (by norm_num)
  have hz : MP_ALIGN_UP 0 256 = 0 := MP_ALIGN_UP_zero 256 (by norm_num)
  simp only [code_block_size, DK_SHADER_CODE_UNUSABLE_SIZE, DK_SHADER_CODE_ALIGNMENT,
    DK_MEMBLOCK_ALIGNMENT, hz, Nat.add_zero] at hfit
  rw [load_shader_code_saved,
    save_header_raster v f hv hf (by simp only [HDR_SIZE]; omega)]
  have hsize : load_memblock_size ⟨AV_RN32_magic, 1, 32, v.length, 32 + v.length, f.length, 0, 0⟩
      true true false =
      MP_ALIGN_UP (1024 + MP_ALIGN_UP v.length 256 + MP_ALIGN_UP f.length 256) 4096 := by
    simp only [load_memblock_size, DK_SHADER_CODE_UNUSABLE_SIZE, DK_SHADER_CODE_ALIGNMENT,
      DK_MEMBLOCK_ALIGNMENT]
    simp only [hvl, hfl, ne_eq, not_false_eq_true, and_self, if_true, Bool.false_eq_true,
      false_and, if_false, Nat.add_zero]
    exact Nat.mod_eq_of_lt hfit
  rw [hsize]
  simp only [dkMemBlockCreate, if_true, bstr_bytes_some, bstr_null_bytes, List.append_nil]
  have hsrc1 : mem_read (blob_mem (hdr_bytes ⟨AV_RN32_magic, 1, 32, v.length, 32 + v.length,
      f.length, 0, 0⟩ ++ v ++ f) beyond) 32 v.length = v := by
    rw [mem_read_blob _ _ _ _ (by simp [hdr_bytes_length])]
    have := blk_read_append (hdr_bytes ⟨AV_RN32_magic, 1, 32, v.length, 32 + v.length,
      f.length, 0, 0⟩) v f
    rw [hdr_bytes_length] at this
    exact this
  have hsrc2 : mem_read (blob_mem (hdr_bytes ⟨AV_RN32_magic, 1, 32, v.length, 32 + v.length,
      f.length, 0, 0⟩ ++ v ++ f) beyond) (32 + v.length) f.length = f := by
    rw [mem_read_blob _ _ _ _ (by simp [hdr_bytes_length]; omega)]
    have := blk_read_append (hdr_bytes ⟨AV_RN32_magic, 1, 32, v.length, 32 + v.length,
      f.length, 0, 0⟩ ++ v) f []
    rw [List.length_append, hdr_bytes_length, List.append_nil] at this
    exact this
  simp only [load_stage, hvl, hfl, ne_eq, not_false_eq_true, and_self, if_true,
    Bool.false_eq_true, false_and, if_false, hsrc1, hsrc2, DK_SHADER_CODE_ALIGNMENT,
    Nat.zero_add]
  have hl1 : (mem_write (List.replicate (MP_ALIGN_UP (1024 + MP_ALIGN_UP v.length 256 +
      MP_ALIGN_UP f.length 256) 4096) (0 : Byte)) 0 v).length =
      MP_ALIGN_UP (1024 + MP_ALIGN_UP v.length 256 + MP_ALIGN_UP f.length 256) 4096 := by
    rw [mem_write_length _ _ _ (by rw [List.length_replicate]; omega), List.length_replicate]
  refine ⟨_, rfl, ?_, ?_⟩
  · rw [blk_read_mem_write_below _ _ _ _ _ (by rw [hl1]; omega) (by omega)]
    exact blk_read_mem_write _ _ _ (by simp)
  · exact blk_read_mem_write _ _ _ (by rw [hl1]; omega)


theorem save_header_compute (c : List Byte) (hc : c ≠ []) (hfit : HDR_SIZE + c.length < U32) :
    save_header bstr.null bstr.null ⟨some c⟩ =
      ⟨AV_RN32_magic, 1, 0, 0, 0, 0, 32, c.length⟩ := by
  have hcl : c.length ≠ 0 := fun h => hc (List.length_eq_zero.mp h)
  have hH : HDR_SIZE = 32 := rfl
  rw [hH] at hfit
  unfold save_header
  simp only [bstr_len_some, bstr_null_len, hH]
  simp only [hcl, ne_eq, not_false_eq_true, if_true, not_true_eq_false, if_false]
  rw [Nat.mod_eq_of_lt (by omega : c.length < U32),
    Nat.mod_eq_of_lt (by norm_num [U32] : 32 + 0 < U32)]
  rfl

theorem load_saved_compute (beyond : Nat → Byte) (c : List Byte)
    (hc : c ≠ []) (hfit : code_block_size 0 0 c.length < U32) :
    ∃ blk, load_shader_code true beyond
        (save_shader_code bstr.null bstr.null bstr.null ⟨some c⟩) false false true =
        ⟨true, some blk, none, none, some ⟨0⟩⟩ ∧
      blk_read blk 0 c.length = c := by
  have hcl : c.length ≠ 0 := fun h => hc (List.length_eq_zero.mp h)
  have a1 := MP_ALIGN_UP_ge c.length 256 (by norm_num)
  have a3 := MP_ALIGN_UP_ge (1024 + MP_ALIGN_UP c.length 256) 4096 (by norm_num)
  have hz : MP_ALIGN_UP 0 256 = 0 := MP_ALIGN_UP_zero 256 (by norm_num)
  simp only [code_block_size, DK_SHADER_CODE_UNUSABLE_SIZE, DK_SHADER_CODE_ALIGNMENT,
    DK_MEMBLOCK_ALIGNMENT, hz, Nat.add_zero] at hfit
  rw [load_shader_code_saved,
    save_header_compute c hc (by simp only [HDR_SIZE]; omega)]
  have hsize : load_memblock_size ⟨AV_RN32_magic, 1, 0, 0, 0, 0, 32, c.length⟩
      false false true = MP_ALIGN_UP (1024 + MP_ALIGN_UP c.length 256) 4096 := by
    simp only [load_memblock_size, DK_SHADER_CODE_UNUSABLE_SIZE, DK_SHADER_CODE_ALIGNMENT,
      DK_MEMBLOCK_ALIGNMENT]
    simp only [hcl, ne_eq, not_false_eq_true, and_self, if_true, Bool.false_eq_true,
      false_and, if_false, Nat.add_zero]
    exact Nat.mod_eq_of_lt hfit
  rw [hsize]
  simp only [dkMemBlockCreate, if_true, bstr_bytes_some, bstr_null_bytes, List.append_nil]
  have hsrc : mem_read (blob_mem (hdr_bytes ⟨AV_RN32_magic, 1, 0, 0, 0, 0, 32, c.length⟩ ++ c)
      beyond) 32 c.length = c := by
    rw [mem_read_blob _ _ _ _ (by simp [hdr_bytes_length])]
    have := blk_read_append (hdr_bytes ⟨AV_RN32_magic, 1, 0, 0, 0, 0, 32, c.length⟩) c []
    rw [hdr_bytes_length, List.append_nil] at this
    exact this
  simp only [load_stage, hcl, ne_eq, not_false_eq_true, and_self, if_true,
    Bool.false_eq_true, false_and, if_false, hsrc, DK_SHADER_CODE_ALIGNMENT, Nat.zero_add]
  exact ⟨_, rfl, blk_read_mem_write _ _ _ (by simp)⟩

theorem MP_ALIGN_UP_mono (x y a : Nat) (h : x ≤ y) : MP_ALIGN_UP x a ≤ MP_ALIGN_UP y a := by
  unfold MP_ALIGN_UP
  exact Nat.mul_le_mul_right _ (Nat.div_le_div_right (by omega))

theorem create_raster_fresh (load_alloc_ok : Bool) (beyond : Nat → Byte) (vsh fsh : List Byte)
    (hfit : code_block_size vsh.length fsh.length 0 < U32) :
    ∃ mem, dk_renderpass_create_raster load_alloc_ok true beyond
      ⟨true, some vsh⟩ ⟨true, some fsh⟩ bstr.null =
      ⟨true, some ⟨some mem,
        [some ⟨0⟩, some ⟨MP_ALIGN_UP vsh.length DK_SHADER_CODE_ALIGNMENT⟩],
        save_shader_code bstr.null ⟨some vsh⟩ ⟨some fsh⟩ bstr.null⟩⟩ := by
  have a1 := MP_ALIGN_UP_ge vsh.length 256 (by norm_num)
  have a1' := MP_ALIGN_UP_lt vsh.length 256 (by norm_num)
  have a2 := MP_ALIGN_UP_ge fsh.length 256 (by norm_num)
  have a3 := MP_ALIGN_UP_ge (vsh.length + fsh.length + 1024) 4096 (by norm_num)
  have hz : MP_ALIGN_UP 0 256 = 0 := MP_ALIGN_UP_zero 256 (by norm_num)
  have a4 := MP_ALIGN_UP_mono (vsh.length + fsh.length + 1024)
    (1024 + MP_ALIGN_UP vsh.length 256 + MP_ALIGN_UP fsh.length 256) 4096 (by omega)
  simp only [code_block_size, DK_SHADER_CODE_UNUSABLE_SIZE, DK_SHADER_CODE_ALIGNMENT,
    DK_MEMBLOCK_ALIGNMENT, hz, Nat.add_zero] at hfit
  unfold dk_renderpass_create_raster
  simp only [bstr_null_len, true_or, if_true, Bool.true_eq_false, or_self, if_false,
    DK_SHADER_CODE_UNUSABLE_SIZE, DK_SHADER_CODE_ALIGNMENT, DK_MEMBLOCK_ALIGNMENT]
  rw [Nat.mod_eq_of_lt (by omega : MP_ALIGN_UP (vsh.length + fsh.length + 1024) 4096 < U32)]
  simp only [dkMemBlockCreate, if_true]
  have hl1 : (mem_write (List.replicate (MP_ALIGN_UP (vsh.length + fsh.length + 1024) 4096)
      (0 : Byte)) 0 vsh).length = MP_ALIGN_UP (vsh.length + fsh.length + 1024) 4096 := by
    rw [mem_write_length _ _ _ (by rw [List.length_replicate]; omega), List.length_replicate]
  rw [blk_read_mem_write_below _ _ _ _ _ (by rw [hl1]; omega) (by omega),
    blk_read_mem_write _ _ _ (by simp), blk_read_mem_write _ _ _ (by rw [hl1]; omega)]
  exact ⟨_, rfl⟩

theorem create_compute_fresh (load_alloc_ok : Bool) (beyond : Nat → Byte) (sh : List Byte)
    (hfit : code_block_size 0 0 sh.length < U32) :
    ∃ mem, dk_renderpass_create_compute load_alloc_ok true beyond ⟨true, some sh⟩ bstr.null =
      ⟨true, some ⟨some mem, [some ⟨0⟩],
        save_shader_code bstr.null bstr.null bstr.null ⟨some sh⟩⟩⟩ := by
  have a1 := MP_ALIGN_UP_ge sh.length 256 (by norm_num)
  have hz : MP_ALIGN_UP 0 256 = 0 := MP_ALIGN_UP_zero 256 (by norm_num)
  have a4 := MP_ALIGN_UP_mono (sh.length + 1024) (1024 + MP_ALIGN_UP sh.length 256) 4096
    (by omega)
  simp only [code_block_size, DK_SHADER_CODE_UNUSABLE_SIZE, DK_SHADER_CODE_ALIGNMENT,
    DK_MEMBLOCK_ALIGNMENT, hz, Nat.add_zero] at hfit
  unfold dk_renderpass_create_compute
  simp only [bstr_null_len, true_or, if_true, Bool.true_eq_false, if_false,
    DK_SHADER_CODE_UNUSABLE_SIZE, DK_MEMBLOCK_ALIGNMENT]
  rw [Nat.mod_eq_of_lt (by omega : MP_ALIGN_UP (sh.length + 1024) 4096 < U32)]
  simp only [dkMemBlockCreate, if_true]
  rw [blk_read_mem_write _ _ _ (by simp)]
  exact ⟨_, rfl⟩


/-- C5 (pipeline cache round trip): for a freshly compiled raster pipeline with
non-empty vertex and fragment code, and for a freshly compiled compute pipeline
with non-empty compute code (the code block fitting the 32-bit block size and
its allocation succeeding), the blob `save_shader_code` attached to the pass is
accepted by `load_shader_code` with the same requested stages; the header read
back holds the serialised sizes, the same stages are initialised, and the code
memory holds at each shader's offset exactly the serialised bytes. -/
theorem cache_round_trip (load_alloc_ok : Bool) (beyond0 beyond : Nat → Byte)
    (vsh fsh csh : List Byte) (hv : vsh ≠ []) (hf : fsh ≠ []) (hc : csh ≠ [])
    (hfitR : code_block_size vsh.length fsh.length 0 < U32)
    (hfitC : code_block_size 0 0 csh.length < U32) :
    (∃ pass blk,
      (dk_renderpass_create_raster load_alloc_ok true beyond0
        ⟨true, some vsh⟩ ⟨true, some fsh⟩ bstr.null).pass = some pass ∧
      pass.cached_program = save_shader_code bstr.null ⟨some vsh⟩ ⟨some fsh⟩ bstr.null ∧
      load_shader_code true beyond pass.cached_program true true false =
        ⟨true, some blk, some ⟨0⟩,
          some ⟨MP_ALIGN_UP vsh.length DK_SHADER_CODE_ALIGNMENT⟩, none⟩ ∧
      (hdr_read (blob_mem pass.cached_program.bytes beyond)).vertex_size = vsh.length ∧
      (hdr_read (blob_mem pass.cached_program.bytes beyond)).fragment_size = fsh.length ∧
      (hdr_read (blob_mem pass.cached_program.bytes beyond)).compute_size = 0 ∧
      blk_read blk 0 vsh.length = vsh ∧
      blk_read blk (MP_ALIGN_UP vsh.length DK_SHADER_CODE_ALIGNMENT) fsh.length = fsh) ∧
    (∃ pass blk,
      (dk_renderpass_create_compute load_alloc_ok true beyond0
        ⟨true, some csh⟩ bstr.null).pass = some pass ∧
      pass.cached_program = save_shader_code bstr.null bstr.null bstr.null ⟨some csh⟩ ∧
      load_shader_code true beyond pass.cached_program false false true =
        ⟨true, some blk, none, none, some ⟨0⟩⟩ ∧
      (hdr_read (blob_mem pass.cached_program.bytes beyond)).vertex_size = 0 ∧
      (hdr_read (blob_mem pass.cached_program.bytes beyond)).fragment_size = 0 ∧
      (hdr_read (blob_mem pass.cached_program.bytes beyond)).compute_size = csh.length ∧
      blk_read blk 0 csh.length = csh) := by
  have a1 := MP_ALIGN_UP_ge vsh.length 256 (by norm_num)
  have a2 := MP_ALIGN_UP_ge fsh.length 256 (by norm_num)
  have a3 := MP_ALIGN_UP_ge (1024 + MP_ALIGN_UP vsh.length 256 + MP_ALIGN_UP fsh.length 256)
    4096 (by norm_num)
  have c1 := MP_ALIGN_UP_ge csh.length 256 (by norm_num)
  have c3 := MP_ALIGN_UP_ge (1024 + MP_ALIGN_UP csh.length 256) 4096 (by norm_num)
  have hz : MP_ALIGN_UP 0 256 = 0 := MP_ALIGN_UP_zero 256 (by norm_num)
  have hR := hfitR
  have hC := hfitC
  simp only [code_block_size, DK_SHADER_CODE_UNUSABLE_SIZE, DK_SHADER_CODE_ALIGNMENT,
    DK_MEMBLOCK_ALIGNMENT, hz, Nat.add_zero, Nat.zero_add] at hR hC
  constructor
  · obtain ⟨mem, hmem⟩ := create_raster_fresh load_alloc_ok beyond0 vsh fsh hfitR
    obtain ⟨blk, hload, hbv, hbf⟩ := load_saved_raster beyond vsh fsh hv hf hfitR
    refine ⟨_, blk, by rw [hmem], rfl, hload, ?_, ?_, ?_, hbv, hbf⟩ <;>
    · simp only [save_shader_code_null, bstr.bytes, Option.getD, List.append_assoc]
      rw [save_header_read, save_header_raster vsh fsh hv hf (by simp only [HDR_SIZE]; omega)]
  · obtain ⟨mem, hmem⟩ := create_compute_fresh load_alloc_ok beyond0 csh hfitC
    obtain ⟨blk, hload, hbc⟩ := load_saved_compute beyond csh hc hfitC
    refine ⟨_, blk, by rw [hmem], rfl, hload, ?_, ?_, ?_, hbc⟩ <;>
    · simp only [save_shader_code_null, bstr.bytes, Option.getD, List.append_assoc]
      rw [save_header_read, save_header_compute csh hc (by simp only [HDR_SIZE]; omega)]


/-- Witness of the cache round trip: a three-byte vertex stage, a two-byte
fragment stage and a one-byte compute stage. -/
theorem cache_round_trip_witness :
    ([1, 2, 3] : List Byte) ≠ [] ∧ ([4, 5] : List Byte) ≠ [] ∧ ([6] : List Byte) ≠ [] ∧
    code_block_size ([1, 2, 3] : List Byte).length ([4, 5] : List Byte).length 0 < U32 ∧
    code_block_size 0 0 ([6] : List Byte).length < U32 ∧
    (∃ blk, load_shader_code true (fun _ => 0)
        (save_shader_code bstr.null ⟨some [1, 2, 3]⟩ ⟨some [4, 5]⟩ bstr.null) true true false =
        ⟨true, some blk, some ⟨0⟩, some ⟨256⟩, none⟩ ∧
      blk_read blk 0 3 = [1, 2, 3] ∧ blk_read blk 256 2 = [4, 5]) ∧
    (∃ blk, load_shader_code true (fun _ => 0)
        (save_shader_code bstr.null bstr.null bstr.null ⟨some [6]⟩) false false true =
        ⟨true, some blk, none, none, some ⟨0⟩⟩ ∧
      blk_read blk 0 1 = [6]) := by
  have h := cache_round_trip true (fun _ => 0) (fun _ => 0) [1, 2, 3] [4, 5] [6]
    (by decide) (by decide) (by decide) (by decide) (by decide)
  obtain ⟨⟨pass, blk, _, hp, hl, _, _, _, hv, hf⟩, ⟨pass2, blk2, _, hp2, hl2, _, _, _, hc⟩⟩ := h
  refine ⟨by decide, by decide, by decide, by decide, by decide, ⟨blk, ?_, hv, hf⟩,
    ⟨blk2, ?_, hc⟩⟩
  · rw [← hp, hl]; rfl
  · rw [← hp2, hl2]

/-- C6 (cache blob layout), the claim as stated fails: with a non-empty vertex
blob, an empty fragment blob and a non-empty compute blob, the header gives
the compute stage offset 32 and size 1, but the byte of the blob at offset 32
is the vertex code, not the compute code. -/
theorem compute_offset_gap :
    (save_header ⟨some [1]⟩ bstr.null ⟨some [2]⟩).compute_offset = 32 ∧
    (save_header ⟨some [1]⟩ bstr.null ⟨some [2]⟩).compute_size = 1 ∧
    (save_shader_code bstr.null ⟨some [1]⟩ bstr.null ⟨some [2]⟩).bytes =
      hdr_bytes (save_header ⟨some [1]⟩ bstr.null ⟨some [2]⟩) ++ [1] ++ [] ++ [2] ∧
    blk_read (save_shader_code bstr.null ⟨some [1]⟩ bstr.null ⟨some [2]⟩).bytes
      (save_header ⟨some [1]⟩ bstr.null ⟨some [2]⟩).compute_offset
      (save_header ⟨some [1]⟩ bstr.null ⟨some [2]⟩).compute_size = [1] ∧
    blk_read (save_shader_code bstr.null ⟨some [1]⟩ bstr.null ⟨some [2]⟩).bytes
      (save_header ⟨some [1]⟩ bstr.null ⟨some [2]⟩).compute_offset
      (save_header ⟨some [1]⟩ bstr.null ⟨some [2]⟩).compute_size ≠ [2] := by
  decide

/-- C6 (cache blob layout), amended: for every triple of stage blobs whose
serialised length fits in 32 bits, except those with a non-empty vertex blob,
an empty fragment blob and a non-empty compute blob, `save_shader_code`
produces a 32-byte header followed by vertex ++ fragment ++ compute; the
header read back from the blob has offset = size = 0 for every empty stage,
and for every non-empty stage a size equal to its length and an offset at
which the blob holds exactly that stage's bytes. -/
theorem save_layout (beyond : Nat → Byte) (V F C : bstr)
    (hfit : HDR_SIZE + V.len + F.len + C.len < U32)
    (hgap : ¬ (V.len ≠ 0 ∧ F.len = 0 ∧ C.len ≠ 0)) :
    (save_shader_code bstr.null V F C).bytes =
      hdr_bytes (save_header V F C) ++ V.bytes ++ F.bytes ++ C.bytes ∧
    (hdr_bytes (save_header V F C)).length = 32 ∧
    hdr_read (blob_mem (save_shader_code bstr.null V F C).bytes beyond) = save_header V F C ∧
    (V.len = 0 → (save_header V F C).vertex_offset = 0 ∧ (save_header V F C).vertex_size = 0) ∧
    (F.len = 0 →
      (save_header V F C).fragment_offset = 0 ∧ (save_header V F C).fragment_size = 0) ∧
    (C.len = 0 →
      (save_header V F C).compute_offset = 0 ∧ (save_header V F C).compute_size = 0) ∧
    (V.len ≠ 0 → (save_header V F C).vertex_size = V.len ∧
      blk_read (save_shader_code bstr.null V F C).bytes
        (save_header V F C).vertex_offset (save_header V F C).vertex_size = V.bytes) ∧
    (F.len ≠ 0 → (save_header V F C).fragment_size = F.len ∧
      blk_read (save_shader_code bstr.null V F C).bytes
        (save_header V F C).fragment_offset (save_header V F C).fragment_size = F.bytes) ∧
    (C.len ≠ 0 → (save_header V F C).compute_size = C.len ∧
      blk_read (save_shader_code bstr.null V F C).bytes
        (save_header V F C).compute_offset (save_header V F C).compute_size = C.bytes) := by
  have hH : HDR_SIZE = 32 := rfl
  rw [hH] at hfit
  have hb : (save_shader_code bstr.null V F C).bytes =
      hdr_bytes (save_header V F C) ++ V.bytes ++ F.bytes ++ C.bytes := by
    rw [save_shader_code_null]; rfl
  have hl := hdr_bytes_length (save_header V F C)
  have hvs : (save_header V F C).vertex_size = V.len := by
    simp only [save_header]
    split_ifs with h
    · exact Nat.mod_eq_of_lt (by omega)
    · omega
  have hfs : (save_header V F C).fragment_size = F.len := by
    simp only [save_header]
    split_ifs with h
    · exact Nat.mod_eq_of_lt (by omega)
    · omega
  have hcs : (save_header V F C).compute_size = C.len := by
    simp only [save_header]
    split_ifs with h
    · exact Nat.mod_eq_of_lt (by omega)
    · omega
  refine ⟨hb, hl, ?_, ?_, ?_, ?_, ?_, ?_, ?_⟩
  · rw [hb]
    have := save_header_read V F C (V.bytes ++ F.bytes ++ C.bytes) beyond
    simpa only [List.append_assoc] using this
  · intro h
    exact ⟨by simp [save_header, h], by rw [hvs, h]⟩
  · intro h
    exact ⟨by simp [save_header, h], by rw [hfs, h]⟩
  · intro h
    exact ⟨by simp [save_header, h], by rw [hcs, h]⟩
  · intro h
    refine ⟨hvs, ?_⟩
    have ho : (save_header V F C).vertex_offset = (hdr_bytes (save_header V F C)).length := by
      rw [hl]; simp [save_header, h, hH]
    rw [hb, ho, hvs, List.append_assoc (hdr_bytes (save_header V F C) ++ V.bytes)]
    exact blk_read_append _ _ _
  · intro h
    refine ⟨hfs, ?_⟩
    have ho : (save_header V F C).fragment_offset =
        (hdr_bytes (save_header V F C) ++ V.bytes).length := by
      rw [List.length_append, hl]
      simp only [save_header, h, hH, ne_eq, not_false_eq_true, if_true]
      exact Nat.mod_eq_of_lt (by unfold bstr.len at *; omega)
    rw [hb, ho, hfs]
    exact blk_read_append _ _ _
  · intro h
    refine ⟨hcs, ?_⟩
    have ho : (save_header V F C).compute_offset =
        (hdr_bytes (save_header V F C) ++ V.bytes ++ F.bytes).length := by
      rw [List.length_append, List.length_append, hl]
      simp only [save_header, h, hH, ne_eq, not_false_eq_true, if_true]
      by_cases hf0 : F.len = 0
      · have hv0 : V.len = 0 := by
          by_contra hv
          exact hgap ⟨hv, hf0, h⟩
        unfold bstr.len at *
        simp only [hf0, not_true_eq_false, if_false, Nat.add_zero]
        rw [Nat.mod_eq_of_lt (by norm_num [U32])]
        omega
      · unfold bstr.len at *
        simp only [hf0, not_false_eq_true, if_true]
        rw [Nat.mod_eq_of_lt (by omega : 32 + V.bytes.length < U32),
          Nat.mod_eq_of_lt (by omega)]
    rw [hb, ho, hcs]
    have := blk_read_append (hdr_bytes (save_header V F C) ++ V.bytes ++ F.bytes) C.bytes []
    rwa [List.append_nil] at this

/-- Witness of the blob layout: the raster shape, vertex and fragment code with
no compute code. -/
theorem save_layout_witness :
    HDR_SIZE + (bstr.mk (some [1, 2, 3])).len + (bstr.mk (some [4, 5])).len
      + bstr.null.len < U32 ∧
    ¬ ((bstr.mk (some [1, 2, 3])).len ≠ 0 ∧ (bstr.mk (some [4, 5])).len = 0 ∧
      bstr.null.len ≠ 0) ∧
    (save_header ⟨some [1, 2, 3]⟩ ⟨some [4, 5]⟩ bstr.null).fragment_size = 2 ∧
    blk_read (save_shader_code bstr.null ⟨some [1, 2, 3]⟩ ⟨some [4, 5]⟩ bstr.null).bytes
      (save_header ⟨some [1, 2, 3]⟩ ⟨some [4, 5]⟩ bstr.null).fragment_offset
      (save_header ⟨some [1, 2, 3]⟩ ⟨some [4, 5]⟩ bstr.null).fragment_size = [4, 5] :=
  ⟨by decide, by decide,
   ((save_layout (fun _ => 0) ⟨some [1, 2, 3]⟩ ⟨some [4, 5]⟩ bstr.null
      (by decide) (by decide)).2.2.2.2.2.2.2.1 (by decide)).1,
   ((save_layout (fun _ => 0) ⟨some [1, 2, 3]⟩ ⟨some [4, 5]⟩ bstr.null
      (by decide) (by decide)).2.2.2.2.2.2.2.1 (by decide)).2⟩


theorem magic_of_rd32 (bytes : List Byte) (beyond : Nat → Byte) (hlen : 4 ≤ bytes.length)
    (h : rd32 (blob_mem bytes beyond) 0 = AV_RN32_magic) :
    bytes.take 4 = dk_shadercache_magic := by
  match bytes, hlen with
  | b0 :: b1 :: b2 :: b3 :: rest, _ =>
    rw [AV_RN32_magic_val] at h
    simp only [rd32, blob_mem, List.length_cons, Nat.zero_add] at h
    simp only [show (0 : Nat) < rest.length + 1 + 1 + 1 + 1 by omega,
      show (1 : Nat) < rest.length + 1 + 1 + 1 + 1 by omega,
      show (2 : Nat) < rest.length + 1 + 1 + 1 + 1 by omega,
      show (3 : Nat) < rest.length + 1 + 1 + 1 + 1 by omega, dite_true] at h
    simp only [List.get_eq_getElem, List.getElem_cons_zero, List.getElem_cons_succ] at h
    have h0 := b0.isLt
    have h1 := b1.isLt
    have h2 := b2.isLt
    have h3 := b3.isLt
    have e0 : b0 = 0x44 := Fin.ext (show b0.val = 68 by omega)
    have e1 : b1 = 0x4B := Fin.ext (show b1.val = 75 by omega)
    have e2 : b2 = 0x43 := Fin.ext (show b2.val = 67 by omega)
    have e3 : b3 = 0x48 := Fin.ext (show b3.val = 72 by omega)
    subst e0 e1 e2 e3
    rfl

/-- C7 (cache blob rejection): for every blob that is absent, shorter than the
32-byte header, whose first four bytes are not "DKCH", or whose version field
is not 1, `load_shader_code` returns false with no code memory block and no
shader initialised, whether or not an allocation would succeed; both
pipeline creators then enter the compile branch. -/
theorem load_rejects (alloc_ok : Bool) (beyond : Nat → Byte) (data : bstr) (wv wf wc : Bool)
    (h : data.start = none ∨ data.len < HDR_SIZE ∨
      data.bytes.take 4 ≠ dk_shadercache_magic ∨
      (hdr_read (blob_mem data.bytes beyond)).cache_version ≠ dk_shadercache_version) :
    load_shader_code alloc_ok beyond data wv wf wc = ⟨false, none, none, none, none⟩ ∧
    (∀ a vc fc, (dk_renderpass_create_raster alloc_ok a beyond vc fc data).compiled = true) ∧
    (∀ a c, (dk_renderpass_create_compute alloc_ok a beyond c data).compiled = true) := by
  have key : ∀ wv wf wc, load_shader_code alloc_ok beyond data wv wf wc =
      ⟨false, none, none, none, none⟩ := by
    intro wv wf wc
    unfold load_shader_code
    cases hs : data.start with
    | none => rfl
    | some bytes =>
      have hb : data.bytes = bytes := by simp [bstr.bytes, hs]
      simp only
      by_cases hlen : bytes.length < HDR_SIZE
      · rw [if_pos hlen]
      · rw [if_neg hlen]
        have hbad : (hdr_read (blob_mem bytes beyond)).magic ≠ AV_RN32_magic ∨
            (hdr_read (blob_mem bytes beyond)).cache_version ≠ dk_shadercache_version := by
          rcases h with h | h | h | h
          · rw [hs] at h; exact absurd h (by simp)
          · rw [bstr.len, hb] at h; exact absurd h hlen
          · left
            intro hm
            rw [hb] at h
            exact h (magic_of_rd32 bytes beyond (by simp only [HDR_SIZE] at hlen; omega) hm)
          · right
            rw [hb] at h; exact h
        rw [if_pos hbad]
  refine ⟨key wv wf wc, ?_, ?_⟩
  · intro a vc fc
    unfold dk_renderpass_create_raster
    simp only [key, or_true, if_true]
    split_ifs <;> try rfl
    split <;> try rfl
    split <;> rfl
  · intro a c
    unfold dk_renderpass_create_compute
    simp only [key, or_true, if_true]
    split_ifs <;> try rfl
    split <;> try rfl
    split <;> rfl

/-- Witness of the rejection: a 32-byte blob whose magic is "DKCX". -/
theorem load_rejects_witness :
    (List.take 4 (bstr.mk (some ([0x44, 0x4B, 0x43, 0x58] ++ List.replicate 28 0))).bytes
      ≠ dk_shadercache_magic) ∧
    load_shader_code true (fun _ => 0)
      ⟨some ([0x44, 0x4B, 0x43, 0x58] ++ List.replicate 28 0)⟩ true true false =
      ⟨false, none, none, none, none⟩ :=
  ⟨by decide,
   (load_rejects true (fun _ => 0) ⟨some ([0x44, 0x4B, 0x43, 0x58] ++ List.replicate 28 0)⟩
      true true false (Or.inr (Or.inr (Or.inl (by decide))))).1⟩

/-- C8 (accepted blob initialises every requested stage), evaluated on the
code: a 32-byte blob that is only a header with the right magic and version
and all sizes zero, and likewise the blob saved for a compute pipeline, is
accepted by `load_shader_code` for a raster pipeline (it returns true), yet
neither the vertex nor the fragment shader is initialised; the raster creator
then skips compilation and returns a pass whose two shaders are not
initialised. -/
theorem load_accepts_without_stage :
    (load_shader_code true (fun _ => 0)
      ⟨some (hdr_bytes ⟨AV_RN32_magic, 1, 0, 0, 0, 0, 0, 0⟩)⟩ true true false).ret = true ∧
    (load_shader_code true (fun _ => 0)
      ⟨some (hdr_bytes ⟨AV_RN32_magic, 1, 0, 0, 0, 0, 0, 0⟩)⟩ true true false).vert_sh = none ∧
    (load_shader_code true (fun _ => 0)
      ⟨some (hdr_bytes ⟨AV_RN32_magic, 1, 0, 0, 0, 0, 0, 0⟩)⟩ true true false).frag_sh = none ∧
    (load_shader_code true (fun _ => 0)
      (save_shader_code bstr.null bstr.null bstr.null ⟨some [1]⟩) true true false).ret = true ∧
    (load_shader_code true (fun _ => 0)
      (save_shader_code bstr.null bstr.null bstr.null ⟨some [1]⟩) true true false).vert_sh
      = none ∧
    (load_shader_code true (fun _ => 0)
      (save_shader_code bstr.null bstr.null bstr.null ⟨some [1]⟩) true true false).frag_sh
      = none ∧
    (dk_renderpass_create_raster true true (fun _ => 0) ⟨true, some [1]⟩ ⟨true, some [2]⟩
      ⟨some (hdr_bytes ⟨AV_RN32_magic, 1, 0, 0, 0, 0, 0, 0⟩)⟩).compiled = false ∧
    ((dk_renderpass_create_raster true true (fun _ => 0) ⟨true, some [1]⟩ ⟨true, some [2]⟩
      ⟨some (hdr_bytes ⟨AV_RN32_magic, 1, 0, 0, 0, 0, 0, 0⟩)⟩).pass.map (fun p => p.shaders))
      = some [none, none] := by
  decide


/-! ## Timer queries: properties -/

theorem dk_timer_create_some (p p' : priv) (t : ra_dk_timer)
    (h : dk_timer_create p true = (p', some t)) :
    t = ⟨[p.num_queries, p.num_queries + 1], 0, 0⟩ := by
  unfold dk_timer_create at h
  by_cases h1 : p.num_queries + RA_DK_NUM_QUERIES > RA_DK_MAX_QUERIES
  · rw [if_pos h1] at h
    simp at h
  · rw [if_neg h1, if_neg (by simp)] at h
    simp only [Prod.mk.injEq, Option.some.injEq] at h
    rw [← h.2]
    rfl

theorem timer_cycle_from0 (toNs : Nat → Nat) (n res : Nat) (m : QueryMem) (ts : Nat × Nat) :
    (timer_cycle toNs (⟨[n, n + 1], 0, res⟩, m) ts).1.1 =
      ⟨[n, n + 1], 1, elapsed toNs (slot_record m (n + 1))⟩ ∧
    (timer_cycle toNs (⟨[n, n + 1], 0, res⟩, m) ts).2 =
      elapsed toNs (slot_record m (n + 1)) ∧
    slot_record (timer_cycle toNs (⟨[n, n + 1], 0, res⟩, m) ts).1.2 (n + 1) = ts ∧
    slot_record (timer_cycle toNs (⟨[n, n + 1], 0, res⟩, m) ts).1.2 n = slot_record m n := by
  refine ⟨rfl, rfl, ?_, ?_⟩
  · simp only [timer_cycle, dk_timer_start, dk_timer_stop, slot_record, gpu_report,
      ra_dk_timer.slot, query_word, RA_DK_NUM_QUERIES, Nat.reduceAdd, Nat.reduceMod,
      List.getD_cons_succ, List.getD_cons_zero]
    apply Prod.ext
    · simp only
      rw [if_neg (by omega), if_neg (by omega), if_neg (by omega), if_pos (by omega)]
    · simp only
      rw [if_neg (by omega), if_pos (by omega)]
  · simp only [timer_cycle, dk_timer_start, dk_timer_stop, slot_record, gpu_report,
      ra_dk_timer.slot, query_word, RA_DK_NUM_QUERIES, Nat.reduceAdd, Nat.reduceMod,
      List.getD_cons_succ, List.getD_cons_zero]
    apply Prod.ext
    · simp only
      rw [if_neg (by omega), if_neg (by omega), if_neg (by omega), if_neg (by omega)]
    · simp only
      rw [if_neg (by omega), if_neg (by omega), if_neg (by omega), if_neg (by omega)]

theorem timer_cycle_from1 (toNs : Nat → Nat) (n res : Nat) (m : QueryMem) (ts : Nat × Nat) :
    (timer_cycle toNs (⟨[n, n + 1], 1, res⟩, m) ts).1.1 =
      ⟨[n, n + 1], 0, elapsed toNs (slot_record m n)⟩ ∧
    (timer_cycle toNs (⟨[n, n + 1], 1, res⟩, m) ts).2 = elapsed toNs (slot_record m n) ∧
    slot_record (timer_cycle toNs (⟨[n, n + 1], 1, res⟩, m) ts).1.2 n = ts ∧
    slot_record (timer_cycle toNs (⟨[n, n + 1], 1, res⟩, m) ts).1.2 (n + 1) =
      slot_record m (n + 1) := by
  have hcur : (1 + 1) % RA_DK_NUM_QUERIES = 0 := by decide
  refine ⟨?_, ?_, ?_, ?_⟩
  · simp only [timer_cycle, dk_timer_start, hcur, List.getD_cons_zero]
    rfl
  · simp only [timer_cycle, dk_timer_start, dk_timer_stop, hcur, List.getD_cons_zero]
    rfl
  · simp only [timer_cycle, dk_timer_start, dk_timer_stop, slot_record, gpu_report,
      ra_dk_timer.slot, query_word, RA_DK_NUM_QUERIES, Nat.reduceAdd, Nat.reduceMod,
      List.getD_cons_succ, List.getD_cons_zero]
    apply Prod.ext
    · simp only
      rw [if_neg (by omega), if_neg (by omega), if_neg (by omega), if_pos (by omega)]
    · simp only
      rw [if_neg (by omega), if_pos (by omega)]
  · simp only [timer_cycle, dk_timer_start, dk_timer_stop, slot_record, gpu_report,
      ra_dk_timer.slot, query_word, RA_DK_NUM_QUERIES, Nat.reduceAdd, Nat.reduceMod,
      List.getD_cons_succ, List.getD_cons_zero]
    apply Prod.ext
    · simp only
      rw [if_neg (by omega), if_neg (by omega), if_neg (by omega), if_neg (by omega)]
    · simp only
      rw [if_neg (by omega), if_neg (by omega), if_neg (by omega), if_neg (by omega)]


theorem timer_run_inv (toNs : Nat → Nat) (ts : Nat → Nat × Nat) (n : Nat) (m : QueryMem)
    (j : Nat) :
    (timer_run toNs ts (⟨[n, n + 1], 0, 0⟩, m) j).1.query_idx = [n, n + 1] ∧
    (timer_run toNs ts (⟨[n, n + 1], 0, 0⟩, m) j).1.cur_idx = j % 2 ∧
    (1 ≤ j → slot_record (timer_run toNs ts (⟨[n, n + 1], 0, 0⟩, m) j).2 (n + j % 2) = ts j) ∧
    (2 ≤ j → slot_record (timer_run toNs ts (⟨[n, n + 1], 0, 0⟩, m) j).2 (n + (j + 1) % 2)
      = ts (j - 1)) := by
  induction j with
  | zero => exact ⟨rfl, rfl, fun h => absurd h (by omega), fun h => absurd h (by omega)⟩
  | succ j ih =>
    obtain ⟨hq, hc, h1, h2⟩ := ih
    generalize hst : timer_run toNs ts (⟨[n, n + 1], 0, 0⟩, m) j = st at hq hc h1 h2
    have hstep : timer_run toNs ts (⟨[n, n + 1], 0, 0⟩, m) (j + 1) =
        (timer_cycle toNs st (ts (j + 1))).1 := by
      rw [← hst]; rfl
    rw [hstep]
    obtain ⟨⟨qi, cur, res⟩, mm⟩ := st
    simp only at hq hc h1 h2
    subst hq
    have hpar : j % 2 = 0 ∨ j % 2 = 1 := by omega
    rcases hpar with hp | hp
    · rw [hp] at hc h1
      subst hc
      have hn : (j + 1) % 2 = 1 := by omega
      have hn2 : (j + 1 + 1) % 2 = 0 := by omega
      obtain ⟨e1, _, e3, e4⟩ := timer_cycle_from0 toNs n res mm (ts (j + 1))
      rw [hn, hn2]
      refine ⟨by rw [e1], by rw [e1], fun _ => e3, fun hj => ?_⟩
      rw [Nat.add_sub_cancel]
      exact e4.trans (h1 (by omega))
    · rw [hp] at hc h1
      rw [show (j + 1) % 2 = 0 by omega] at h2
      subst hc
      have hn : (j + 1) % 2 = 0 := by omega
      have hn2 : (j + 1 + 1) % 2 = 1 := by omega
      obtain ⟨e1, _, e3, e4⟩ := timer_cycle_from1 toNs n res mm (ts (j + 1))
      rw [hn, hn2]
      refine ⟨by rw [e1], by rw [e1], fun _ => e3, fun hj => ?_⟩
      rw [Nat.add_sub_cancel]
      exact e4.trans (h1 (by omega))

/-- C9 (timer zero guard): for every timer and every content of query memory,
with `s` the timestamp word of the record at which this `dk_timer_start`
records its start capture and `e` the timestamp word of the record at which
the following `dk_timer_stop` records its end capture, `dk_timer_start` sets
`result` to 0 when `e` is not strictly greater than `s` and to the nanosecond
conversion of `e - s` otherwise; the first start of a freshly created timer on
zero-filled query memory yields 0. -/
theorem timer_zero_guard (toNs : Nat → Nat) (mem : QueryMem) (t : ra_dk_timer) :
    (¬ mem ((dk_timer_stop (dk_timer_start toNs mem t).1).2 / 8 + 1) >
        mem ((dk_timer_start toNs mem t).2 / 8 + 1) →
      (dk_timer_start toNs mem t).1.result = 0) ∧
    (mem ((dk_timer_stop (dk_timer_start toNs mem t).1).2 / 8 + 1) >
        mem ((dk_timer_start toNs mem t).2 / 8 + 1) →
      (dk_timer_start toNs mem t).1.result =
        toNs (mem ((dk_timer_stop (dk_timer_start toNs mem t).1).2 / 8 + 1) -
          mem ((dk_timer_start toNs mem t).2 / 8 + 1))) ∧
    (∀ p p' t0, dk_timer_create p true = (p', some t0) →
      (dk_timer_start toNs (fun _ => 0) t0).1.result = 0) := by
  have hs : (dk_timer_start toNs mem t).2 / 8 + 1 =
      query_word (t.query_idx.getD ((t.cur_idx + 1) % RA_DK_NUM_QUERIES) 0) + 1 := by
    simp only [dk_timer_start, query_word]; omega
  have he : (dk_timer_stop (dk_timer_start toNs mem t).1).2 / 8 + 1 =
      query_word (t.query_idx.getD ((t.cur_idx + 1) % RA_DK_NUM_QUERIES) 0) + 3 := by
    simp only [dk_timer_start, dk_timer_stop, ra_dk_timer.slot, query_word]; omega
  rw [hs, he]
  refine ⟨fun h => ?_, fun h => ?_, fun p p' t0 _ => ?_⟩
  · simp only [dk_timer_start]
    rw [if_neg h]
  · simp only [dk_timer_start]
    rw [if_pos h]
  · simp [dk_timer_start]

/-- Witness of the zero guard: a timer on slots 0 and 1 whose next record
holds the start timestamp 100 and the end timestamp 484. -/
theorem timer_zero_guard_witness :
    (dk_timer_start (fun x => x * 625 / 384)
      (fun w => if w = 5 then 100 else if w = 7 then 484 else 0) ⟨[0, 1], 0, 0⟩).1.result
      = 625 :=
  ((timer_zero_guard (fun x => x * 625 / 384)
      (fun w => if w = 5 then 100 else if w = 7 then 484 else 0) ⟨[0, 1], 0, 0⟩).2.1
    (by decide)).trans (by decide)

/-- C10 (timer delay), the claim as stated fails: on a fresh timer and
zero-filled query memory, with every capture landed before the next start, the
first cycle takes 384 ticks (625 ns), but the second `dk_timer_stop` returns 0:
the second start reads the other, never written slot.  The third stop returns
the 625 ns of the first cycle. -/
theorem timer_second_stop_not_first_cycle :
    dk_timer_create priv_init true = (⟨[0, 0], 2⟩, some ⟨[0, 1], 0, 0⟩) ∧
    elapsed (fun x => x * 625 / 384) (1000, 1384) = 625 ∧
    timer_stop_result (fun x => x * 625 / 384) (fun i => (1000 * i, 1000 * i + 384 * i))
      (⟨[0, 1], 0, 0⟩, fun _ => 0) 2 = 0 ∧
    timer_stop_result (fun x => x * 625 / 384) (fun i => (1000 * i, 1000 * i + 384 * i))
      (⟨[0, 1], 0, 0⟩, fun _ => 0) 3 = 625 := by
  decide

/-- C10 (timer delay), amended: for every timer returned by `dk_timer_create`,
every content of query memory and every `k ≥ 3`, when each recorded capture
has landed in query memory before the next start, the `k`-th `dk_timer_start`
reads back the timestamps of the `(k-2)`-th start/stop pair, so the `k`-th
`dk_timer_stop` returns the elapsed time of cycle `k - 2`: results are two
cycles late, the timer alternating between its two query slots. -/
theorem timer_two_cycle_delay (toNs : Nat → Nat) (ts : Nat → Nat × Nat) (p p' : priv)
    (t : ra_dk_timer) (mem : QueryMem) (k : Nat)
    (hcreate : dk_timer_create p true = (p', some t)) (hk : 3 ≤ k) :
    slot_record (timer_run toNs ts (t, mem) (k - 1)).2
      ((dk_timer_start toNs (timer_run toNs ts (t, mem) (k - 1)).2
        (timer_run toNs ts (t, mem) (k - 1)).1).1.slot) = ts (k - 2) ∧
    timer_stop_result toNs ts (t, mem) k = elapsed toNs (ts (k - 2)) := by
  rw [dk_timer_create_some p p' t hcreate]
  obtain ⟨j, rfl⟩ : ∃ j, k = j + 3 := ⟨k - 3, by omega⟩
  obtain ⟨hq, hc, _, h2⟩ := timer_run_inv toNs ts p.num_queries mem (j + 2)
  have h2' := h2 (by omega)
  simp only [timer_stop_result, Nat.add_sub_cancel, show j + 3 - 1 = j + 2 by omega,
    show j + 3 - 2 = j + 1 by omega, show j + 2 - 1 = j + 1 by omega] at *
  generalize timer_run toNs ts (⟨[p.num_queries, p.num_queries + 1], 0, 0⟩, mem) (j + 2) = st
    at hq hc h2'
  obtain ⟨⟨qi, cur, res⟩, mm⟩ := st
  simp only at hq hc h2'
  subst hq
  have hpar : j % 2 = 0 ∨ j % 2 = 1 := by omega
  rcases hpar with hp | hp
  · rw [show (j + 2) % 2 = 0 by omega] at hc
    rw [show (j + 2 + 1) % 2 = 1 by omega] at h2'
    subst hc
    obtain ⟨_, e2, _, _⟩ := timer_cycle_from0 toNs p.num_queries res mm (ts (j + 3))
    refine ⟨?_, by rw [e2, h2']⟩
    rw [← h2']; rfl
  · rw [show (j + 2) % 2 = 1 by omega] at hc
    rw [show (j + 2 + 1) % 2 = 0 by omega, Nat.add_zero] at h2'
    subst hc
    obtain ⟨_, e2, _, _⟩ := timer_cycle_from1 toNs p.num_queries res mm (ts (j + 3))
    refine ⟨?_, by rw [e2, h2']⟩
    rw [← h2']
    have hcur : (1 + 1) % RA_DK_NUM_QUERIES = 0 := by decide
    simp only [dk_timer_start, ra_dk_timer.slot, hcur, List.getD_cons_zero]

/-- Witness of the two-cycle delay: the third stop of the first timer of a
fresh context returns the elapsed time of the first cycle. -/
theorem timer_two_cycle_delay_witness :
    dk_timer_create priv_init true = (⟨[0, 0], 2⟩, some ⟨[0, 1], 0, 0⟩) ∧ 3 ≤ 3 ∧
    timer_stop_result (fun x => x * 625 / 384) (fun i => (1000 * i, 1000 * i + 384 * i))
      (⟨[0, 1], 0, 0⟩, fun _ => 0) 3 =
      elapsed (fun x => x * 625 / 384) (1000, 1384) :=
  ⟨by decide, by decide,
   (timer_two_cycle_delay (fun x => x * 625 / 384) (fun i => (1000 * i, 1000 * i + 384 * i))
      priv_init ⟨[0, 0], 2⟩ ⟨[0, 1], 0, 0⟩ (fun _ => 0) 3 (by decide) (by decide)).2⟩

/-! ## Timer pool: properties -/

theorem dk_timer_create_eq (p : priv) (ok : Bool) :
    dk_timer_create p ok =
      if ok = true ∧ p.num_queries + 2 ≤ 128 then
        (⟨p.allocated_descriptors, p.num_queries + 2⟩,
          some ⟨[p.num_queries, p.num_queries + 1], 0, 0⟩)
      else (p, none) := by
  unfold dk_timer_create
  simp only [RA_DK_NUM_QUERIES, RA_DK_MAX_QUERIES]
  by_cases h1 : p.num_queries + 2 > 128
  · rw [if_pos h1, if_neg (by omega)]
  · rw [if_neg h1]
    cases ok
    · simp
    · rw [if_neg (by simp), if_pos ⟨rfl, by omega⟩]
      rfl

theorem TimerState.inv_step (s : TimerState) (op : TimerOp) (h : s.inv) : (s.step op).inv := by
  obtain ⟨h1, h2, h3⟩ := h
  cases op with
  | destroy i => exact ⟨h1, h2, h3⟩
  | create ok =>
    simp only [TimerState.step, dk_timer_create_eq]
    by_cases hc : ok = true ∧ s.ctx.num_queries + 2 ≤ 128
    · simp only [if_pos hc]
      have hcr : (TimerState.mk ⟨s.ctx.allocated_descriptors, s.ctx.num_queries + 2⟩
          (s.timers ++ [some ⟨[s.ctx.num_queries, s.ctx.num_queries + 1], 0, 0⟩])).created =
          s.created + 1 := by
        simp [TimerState.created, List.filter_append]
      refine ⟨?_, ?_, ?_⟩
      · rw [hcr]; simp only; omega
      · rw [hcr]; omega
      · intro t ht q hq
        simp only [List.mem_append, List.mem_singleton, Option.some.injEq] at ht
        rcases ht with ht | ht
        · have := h3 t ht q hq
          simp only; omega
        · subst ht
          simp only [List.mem_cons, List.mem_singleton, List.not_mem_nil, or_false] at hq
          simp only; omega
    · simp only [if_neg hc]
      have hcr : (TimerState.mk s.ctx (s.timers ++ [none])).created = s.created := by
        simp [TimerState.created, List.filter_append]
      exact ⟨by rw [hcr]; exact h1, by rw [hcr]; exact h2,
        fun t ht q hq => h3 t (by simpa using ht) q hq⟩

theorem TimerState.inv_run (ops : List TimerOp) :
    ∀ s : TimerState, s.inv → (s.run ops).inv := by
  induction ops with
  | nil => exact fun s h => h
  | cons op ops ih => exact fun s h => ih (s.step op) (s.inv_step op h)

/-- C11 (timer pool exhaustion): after every sequence of `dk_timer_create` /
`dk_timer_destroy` calls on a fresh context, the slot counter is twice the
number of timers created so far (destroy returns nothing); the next
`dk_timer_create` succeeds exactly when its allocation succeeds and fewer than
64 timers have been created; a success reserves the two consecutive slot
indices at the counter, below 128 and used by no earlier timer, and advances
the counter by two; a failure returns `NULL` and leaves the counter unchanged,
so once 64 timers exist every later create fails. -/
theorem timer_pool_exhaustion (ops : List TimerOp) (ok : Bool) :
    (TimerState.init.run ops).ctx.num_queries = 2 * (TimerState.init.run ops).created ∧
    (TimerState.init.run ops).created ≤ 64 ∧
    (((dk_timer_create (TimerState.init.run ops).ctx ok).2).isSome = true ↔
      (ok = true ∧ (TimerState.init.run ops).created < 64)) ∧
    (∀ t, (dk_timer_create (TimerState.init.run ops).ctx ok).2 = some t →
      t.query_idx = [(TimerState.init.run ops).ctx.num_queries,
        (TimerState.init.run ops).ctx.num_queries + 1] ∧
      (TimerState.init.run ops).ctx.num_queries + 1 < RA_DK_MAX_QUERIES ∧
      (∀ u, some u ∈ (TimerState.init.run ops).timers → ∀ q ∈ u.query_idx, q ∉ t.query_idx) ∧
      (dk_timer_create (TimerState.init.run ops).ctx ok).1.num_queries =
        (TimerState.init.run ops).ctx.num_queries + 2) ∧
    ((dk_timer_create (TimerState.init.run ops).ctx ok).2 = none →
      (dk_timer_create (TimerState.init.run ops).ctx ok).1 = (TimerState.init.run ops).ctx) := by
  have hinit : TimerState.init.inv :=
    ⟨rfl, by simp [TimerState.created, TimerState.init], by simp [TimerState.init]⟩
  obtain ⟨h1, h2, h3⟩ := TimerState.inv_run ops TimerState.init hinit
  generalize TimerState.init.run ops = s at h1 h2 h3
  rw [dk_timer_create_eq]
  by_cases hc : ok = true ∧ s.ctx.num_queries + 2 ≤ 128
  · simp only [if_pos hc, Option.isSome_some, true_iff, Option.some.injEq, RA_DK_MAX_QUERIES]
    refine ⟨h1, h2, ⟨hc.1, by omega⟩, ?_, fun h => absurd h (by simp)⟩
    intro t ht
    subst ht
    refine ⟨rfl, by omega, ?_, trivial⟩
    intro u hu q hq
    have := h3 u hu q hq
    simp only [List.mem_cons, List.mem_singleton, List.not_mem_nil, or_false]
    omega
  · simp only [if_neg hc, Option.isSome_none, Bool.false_eq_true, false_iff]
    refine ⟨h1, h2, ?_, fun t ht => absurd ht (by simp), fun _ => trivial⟩
    intro hh
    exact hc ⟨hh.1, by omega⟩

/-- Witness of the pool exhaustion: after 64 successful creations the next
create fails although its allocation would succeed. -/
theorem timer_pool_exhaustion_witness :
    (TimerState.init.run (List.replicate 64 (.create true))).created = 64 ∧
    ¬ ((dk_timer_create (TimerState.init.run (List.replicate 64 (.create true))).ctx true).2.isSome
      = true) :=
  ⟨by decide, fun h =>
    absurd ((timer_pool_exhaustion (List.replicate 64 (.create true)) true).2.2.1.mp h).2
      (by decide)⟩

/-! ## Frame protocol: properties -/

theorem frame_run_cur (fbos : Nat → fbo_fences) (k : Nat) :
    (frame_run fbos k).dk.cur_cmdbuf_slice = ((k % 3 : Nat) : Int) := by
  induction k with
  | zero => rfl
  | succ k ih =>
    simp only [frame_run, done_frame, begin_frame, ih, RA_DK_NUM_CMDBUFS]
    rw [Int.tmod_eq_emod (by omega) (by omega)]
    omega

/-- C12 (command ring periodicity): after every number `k` of frames the
active slice index is 0, 1 or 2; the next `begin_frame` sets it to that index
plus one modulo 3; and the index after `k + 3` frames equals the index after
`k` frames. -/
theorem slice_cycle_periodic (fbos : Nat → fbo_fences) (fbo : fbo_fences) (k : Nat) :
    (0 ≤ (frame_run fbos k).dk.cur_cmdbuf_slice ∧ (frame_run fbos k).dk.cur_cmdbuf_slice < 3) ∧
    (begin_frame (frame_run fbos k) fbo).1.dk.cur_cmdbuf_slice =
      ((frame_run fbos k).dk.cur_cmdbuf_slice + 1) % 3 ∧
    (frame_run fbos (k + 1)).dk.cur_cmdbuf_slice =
      ((frame_run fbos k).dk.cur_cmdbuf_slice + 1) % 3 ∧
    (frame_run fbos (k + 3)).dk.cur_cmdbuf_slice = (frame_run fbos k).dk.cur_cmdbuf_slice := by
  have hb : (begin_frame (frame_run fbos k) fbo).1.dk.cur_cmdbuf_slice =
      ((frame_run fbos k).dk.cur_cmdbuf_slice + 1) % 3 := by
    simp only [begin_frame, RA_DK_NUM_CMDBUFS, frame_run_cur]
    rw [Int.tmod_eq_emod (by omega) (by omega)]
    rfl
  have h0 := frame_run_cur fbos k
  have h1 := frame_run_cur fbos (k + 1)
  have h3 := frame_run_cur fbos (k + 3)
  refine ⟨⟨by omega, by omega⟩, hb, by omega, by omega⟩

/-- C13 (slice fence pairing): in every frame of every sequence of
`begin_frame` / `done_frame` pairs, `begin_frame` waits on the completion
fence of the newly active slice with the infinite timeout `-1` before it
returns, it waits on no other fence object, and the following `done_frame`
signals the completion fence of that same slice, the slice index not having
changed in between. -/
theorem slice_fence_pairing (fbos : Nat → fbo_fences) (k : Nat) :
    DkCall.dkFenceWait
        (DkFence.slice (begin_frame (frame_run fbos k) (fbos k)).1.dk.cur_cmdbuf_slice) (-1)
      ∈ (begin_frame (frame_run fbos k) (fbos k)).2 ∧
    (∀ f t, DkCall.dkFenceWait f t ∈ (begin_frame (frame_run fbos k) (fbos k)).2 →
      f = DkFence.slice (begin_frame (frame_run fbos k) (fbos k)).1.dk.cur_cmdbuf_slice ∧
      t = -1) ∧
    (done_frame (begin_frame (frame_run fbos k) (fbos k)).1).1.dk.cur_cmdbuf_slice =
      (begin_frame (frame_run fbos k) (fbos k)).1.dk.cur_cmdbuf_slice ∧
    DkCall.dkQueueSignalFence
        (DkFence.slice (begin_frame (frame_run fbos k) (fbos k)).1.dk.cur_cmdbuf_slice)
      ∈ (done_frame (begin_frame (frame_run fbos k) (fbos k)).1).2 := by
  refine ⟨?_, ?_, rfl, ?_⟩
  · simp [begin_frame]
  · intro f t h
    simp only [begin_frame, List.mem_append, List.mem_cons, List.mem_singleton,
      List.not_mem_nil, or_false] at h
    rcases h with (h | h) | h
    · split_ifs at h <;> simp at h
    · rcases h with h | h | h
      · simp at h
      · simp at h
      · simp only [DkCall.dkFenceWait.injEq] at h
        exact ⟨h.1, h.2⟩
    · split at h <;> simp at h
  · simp [done_frame]

/-- C14 (beginSlice ordering), the claim as stated fails: in the first
`begin_frame` after `init` the recording buffer is cleared (call 1) and
re-pointed at the memory of slice 1 (call 2) before the blocking wait on the
fence of slice 1 (call 3). -/
theorem reset_precedes_wait :
    (begin_frame libmpv_priv.init ⟨none, none⟩).2 =
      [DkCall.dkQueueWaitIdle, DkCall.dkCmdBufClear,
       DkCall.dkCmdBufAddMemory 65536 65536,
       DkCall.dkFenceWait (DkFence.slice 1) (-1)] ∧
    List.indexOf DkCall.dkCmdBufClear (begin_frame libmpv_priv.init ⟨none, none⟩).2 <
      List.indexOf (DkCall.dkFenceWait (DkFence.slice 1) (-1))
        (begin_frame libmpv_priv.init ⟨none, none⟩).2 := by
  decide

/-- C14 (beginSlice ordering), amended: in every `begin_frame` call the
recording buffer is cleared, then re-pointed at the memory of the new slice,
and the blocking wait (timeout `-1`) on the new slice's completion fence is
the very next call; each of the three happens once, and only the optional wait
of the queue on the client's ready fence follows, so the wait still precedes
the return of `begin_frame` and everything recorded into the slice. -/
theorem reset_then_wait (s : libmpv_priv) (fbo : fbo_fences) :
    ∃ pre post,
      (begin_frame s fbo).2 = pre ++
        [DkCall.dkCmdBufClear,
         DkCall.dkCmdBufAddMemory
           ((begin_frame s fbo).1.dk.cur_cmdbuf_slice * RA_DK_CMDBUF_SIZE) RA_DK_CMDBUF_SIZE,
         DkCall.dkFenceWait (DkFence.slice (begin_frame s fbo).1.dk.cur_cmdbuf_slice) (-1)]
        ++ post ∧
      (pre = [] ∨ pre = [DkCall.dkQueueWaitIdle]) ∧
      (post = [] ∨ ∃ f, fbo.ready_fence = some f ∧ post = [DkCall.dkQueueWaitFence f]) := by
  refine ⟨if s.first_frame then [DkCall.dkQueueWaitIdle] else [],
    (match fbo.ready_fence with
     | some f => [DkCall.dkQueueWaitFence f]
     | none => []), rfl, ?_, ?_⟩
  · cases s.first_frame <;> simp
  · cases h : fbo.ready_fence <;> simp

/-- C15 (endSlice ordering), the claim as stated fails: after a `begin_frame`
that supplied a done fence, `done_frame` signals that fence, signals the fence
of the active slice and flushes the queue; it submits no command list. -/
theorem done_frame_submits_nothing :
    (done_frame (begin_frame libmpv_priv.init ⟨none, some (DkFence.client 7)⟩).1).2 =
      [DkCall.dkQueueSignalFence (DkFence.client 7),
       DkCall.dkQueueSignalFence (DkFence.slice 1), DkCall.dkQueueFlush] ∧
    DkCall.dkQueueSubmitCommands ∉
      (done_frame (begin_frame libmpv_priv.init ⟨none, some (DkFence.client 7)⟩).1).2 := by
  decide

/-- C15 (endSlice ordering), amended: every `done_frame` call makes, in this
order, a signal of the done fence supplied in the preceding `begin_frame`
(exactly when one was supplied), a signal of the active slice's own completion
fence, and a flush of the queue; it makes no other call, in particular no
submission of a command list. -/
theorem done_frame_order (s : libmpv_priv) (fbo : fbo_fences) :
    (done_frame (begin_frame s fbo).1).2 =
      (match fbo.done_fence with
       | some f => [DkCall.dkQueueSignalFence f]
       | none => []) ++
      [DkCall.dkQueueSignalFence (DkFence.slice (begin_frame s fbo).1.dk.cur_cmdbuf_slice),
       DkCall.dkQueueFlush] ∧
    DkCall.dkQueueSubmitCommands ∉ (done_frame (begin_frame s fbo).1).2 := by
  refine ⟨rfl, ?_⟩
  simp only [done_frame, begin_frame]
  cases fbo.done_fence <;> simp

/-! ## Texture creation and destruction: properties -/

/-- C16 (failed texture creation and the descriptor table), evaluated on the
code: with slot 0 held by a registered texture, a `dk_tex_create` call that
fails (unsupported dimension count 4, or failed block allocation, or failed
initial upload) returns `NULL` and clears bit 0 of the table.  Each failure
path runs `dk_tex_destroy`, which unregisters the new texture although it was
never registered; its zero-initialised `descriptor_idx` is 0. -/
theorem failed_create_releases_slot_zero :
    desc_bit (priv.mk [1, 0] 0) 0 = true ∧
    (dk_tex_create (priv.mk [1, 0] 0)
      ⟨4, 16, 16, 1, ra_formats.getD 0 default_format, true, false, false, false, false, false⟩
      true true).tex = none ∧
    (dk_tex_create (priv.mk [1, 0] 0)
      ⟨4, 16, 16, 1, ra_formats.getD 0 default_format, true, false, false, false, false, false⟩
      true true).ra = priv.mk [0, 0] 0 ∧
    (dk_tex_create (priv.mk [1, 0] 0)
      ⟨2, 16, 16, 1, ra_formats.getD 0 default_format, true, false, false, false, false, false⟩
      false true) = ⟨priv.mk [0, 0] 0, none,
        dk_tex_layout ⟨2, 16, 16, 1, ra_formats.getD 0 default_format,
          true, false, false, false, false, false⟩⟩ ∧
    (dk_tex_create (priv.mk [1, 0] 0)
      ⟨2, 16, 16, 1, ra_formats.getD 0 default_format, true, false, false, false, false, true⟩
      true false).ra = priv.mk [0, 0] 0 ∧
    desc_bit (dk_tex_create (priv.mk [1, 0] 0)
      ⟨4, 16, 16, 1, ra_formats.getD 0 default_format, true, false, false, false, false, false⟩
      true true).ra 0 = false := by
  decide

/-- C17 (failed registration and the descriptor table), evaluated on the code:
on the saturated table, registration fails with `descriptor_idx = -1` and
leaves the table unchanged, but unregistering or destroying that texture
clears bit 63 of the first word, a slot held by another texture: the word
index is `-1 / 64 = 0` and the shift count `-1 % 64 = -1`, which the target's
shift instruction takes modulo 64. -/
theorem unregister_failed_texture_clears_bit :
    (ra_dk_register_texture (priv.mk [ALL_ONES, ALL_ONES] 0)).2 = ⟨-1⟩ ∧
    (ra_dk_register_texture (priv.mk [ALL_ONES, ALL_ONES] 0)).1 =
      priv.mk [ALL_ONES, ALL_ONES] 0 ∧
    desc_bit (priv.mk [ALL_ONES, ALL_ONES] 0) 63 = true ∧
    ra_dk_unregister_texture (priv.mk [ALL_ONES, ALL_ONES] 0) ⟨-1⟩ =
      priv.mk [2 ^ 63 - 1, ALL_ONES] 0 ∧
    dk_tex_destroy (priv.mk [ALL_ONES, ALL_ONES] 0) ⟨-1⟩ = priv.mk [2 ^ 63 - 1, ALL_ONES] 0 ∧
    desc_bit (dk_tex_destroy (priv.mk [ALL_ONES, ALL_ONES] 0) ⟨-1⟩) 63 = false := by
  decide

/-! ## Frame target: properties -/

/-- C18 (frame target format check), evaluated on the code: for a target
record whose format tag occurs nowhere in the format table, `wrap_fbo` returns
0, not the invalid-parameter error, and wraps the target with the last format
of the table (`bgrx8`): the loop variable `fmt` keeps the last format visited
when no entry matches, so the `NULL` check after the loop never fires on a
non-empty table.  For a tag that does occur the table entry with that tag is
used. -/
theorem wrap_fbo_accepts_unknown_format :
    (formats.all (fun f => decide (f.fmt ≠ DkImageFormat.Other 0))) = true ∧
    (wrap_fbo ra_formats ⟨1, ⟨none, none⟩, 1280, 720, DkImageFormat.Other 0⟩).ret = 0 ∧
    (wrap_fbo ra_formats ⟨1, ⟨none, none⟩, 1280, 720, DkImageFormat.Other 0⟩).ret ≠
      MPV_ERROR_INVALID_PARAMETER ∧
    ((wrap_fbo ra_formats ⟨1, ⟨none, none⟩, 1280, 720, DkImageFormat.Other 0⟩).out.map
      (fun o => o.1.format.priv.fmt)) = some DkImageFormat.BGRX8_Unorm ∧
    ((wrap_fbo ra_formats ⟨1, ⟨none, none⟩, 1280, 720, DkImageFormat.RGBA8_Unorm⟩).out.map
      (fun o => o.1.format.priv.fmt)) = some DkImageFormat.RGBA8_Unorm := by
  decide

/-- What the search loop of `wrap_fbo` computes: the first format with the
requested tag when there is one, else the last format visited (the initial
value only for an empty list). -/
theorem wrap_fbo_loop_eq (tag : DkImageFormat) (fmts : List ra_format) :
    ∀ init : Option ra_format, wrap_fbo_loop tag fmts init =
      match fmts.find? (fun f => decide (f.priv.fmt = tag)) with
      | some f => some f
      | none => (fmts.getLast?).or init := by
  induction fmts with
  | nil => intro init; simp [wrap_fbo_loop]
  | cons f rest ih =>
    intro init
    unfold wrap_fbo_loop
    by_cases h : f.priv.fmt = tag
    · simp [h]
    · rw [if_neg h, ih, List.find?_cons_of_neg _ (by simpa using h)]
      cases hfind : List.find? (fun f => decide (f.priv.fmt = tag)) rest with
      | some g => rfl
      | none =>
        simp only
        cases rest with
        | nil => simp
        | cons g rest2 =>
          rw [List.getLast?_cons_cons]
          cases hl : (g :: rest2).getLast? with
          | none => simp at hl
          | some x => rfl

/-! ## Imported-texture cache: properties -/

theorem evict_loop_spec (c : Nat) : ∀ (i : Nat) (m : Mapper) (pre post : List cached_texture),
    m.hw.cached_textures = pre ++ post → pre.length = i →
    (evict_loop c i m).hw.cached_textures =
      pre.filter (fun e => decide (e.frames_ctx = c)) ++ post ∧
    (evict_loop c i m).destroyed =
      m.destroyed ++ (pre.filter (fun e => decide (e.frames_ctx ≠ c))).reverse ∧
    (evict_loop c i m).hw.num_planes = m.hw.num_planes ∧
    (evict_loop c i m).tex = m.tex ∧
    (evict_loop c i m).next_addr = m.next_addr ∧
    (evict_loop c i m).next_block = m.next_block := by
  intro i
  induction i with
  | zero =>
    intro m pre post hm hl
    have : pre = [] := List.length_eq_zero.mp hl
    subst this
    simpa [evict_loop] using hm
  | succ i ih =>
    intro m pre post hm hl
    rcases List.eq_nil_or_concat pre with h | ⟨pre1, e, h⟩
    · subst h; simp at hl
    · rw [List.concat_eq_append] at h
      subst h
      have hl1 : pre1.length = i := by simpa using hl
      have hget : m.hw.cached_textures.get? i = some e := by
        rw [List.get?_eq_getElem?, hm, List.append_assoc, List.getElem?_append_right (by omega)]
        simp [hl1]
      unfold evict_loop
      simp only [hget]
      by_cases hc : e.frames_ctx ≠ c
      · rw [if_pos hc]
        have hm1 : (MP_TARRAY_REMOVE_AT (destroy_cache_entry m e) i).hw.cached_textures =
            pre1 ++ post := by
          simp only [MP_TARRAY_REMOVE_AT, destroy_cache_entry, hm, List.append_assoc]
          rw [List.eraseIdx_append_of_length_le (by omega)]
          simp [hl1]
        obtain ⟨h1, h2, h3, h4, h5, h6⟩ :=
          ih (MP_TARRAY_REMOVE_AT (destroy_cache_entry m e) i) pre1 post hm1 hl1
        refine ⟨?_, ?_, h3, h4, h5, h6⟩
        · rw [h1, List.filter_append]
          simp [hc]
        · rw [h2, List.filter_append]
          simp [MP_TARRAY_REMOVE_AT, destroy_cache_entry, hc]
      · rw [if_neg hc]
        have hc1 : e.frames_ctx = c := by
          by_contra h
          exact hc h
        have hm1 : m.hw.cached_textures = pre1 ++ (e :: post) := by
          rw [hm]; simp
        obtain ⟨h1, h2, h3, h4, h5, h6⟩ := ih m pre1 (e :: post) hm1 hl1
        refine ⟨?_, ?_, h3, h4, h5, h6⟩
        · rw [h1, List.filter_append]
          simp [hc1]
        · rw [h2, List.filter_append]
          simp [hc1]

theorem mapper_evict_spec (m : Mapper) (req : map_request) :
    (mapper_evict m req).hw.cached_textures =
      m.hw.cached_textures.filter (fun e => decide (e.frames_ctx = req.hwctx)) ∧
    (mapper_evict m req).destroyed =
      m.destroyed ++
        (m.hw.cached_textures.filter (fun e => decide (e.frames_ctx ≠ req.hwctx))).reverse ∧
    (mapper_evict m req).hw.num_planes = m.hw.num_planes ∧
    (mapper_evict m req).tex = m.tex ∧
    (mapper_evict m req).next_addr = m.next_addr ∧
    (mapper_evict m req).next_block = m.next_block := by
  have hl : (mapper_layouts m req).hw.cached_textures = m.hw.cached_textures ∧
      (mapper_layouts m req).destroyed = m.destroyed ∧
      (mapper_layouts m req).hw.num_planes = m.hw.num_planes ∧
      (mapper_layouts m req).tex = m.tex ∧
      (mapper_layouts m req).next_addr = m.next_addr ∧
      (mapper_layouts m req).next_block = m.next_block := by
    unfold mapper_layouts
    split_ifs <;> simp
  obtain ⟨l1, l2, l3, l4, l5, l6⟩ := hl
  have := evict_loop_spec req.hwctx (mapper_layouts m req).hw.cached_textures.length
    (mapper_layouts m req) (mapper_layouts m req).hw.cached_textures [] (by simp) rfl
  simp only [List.append_nil] at this
  unfold mapper_evict
  rw [l1, l2, l3, l4, l5, l6] at this
  rw [l1]
  exact this

theorem destroy_cache_entry_log (m : Mapper) (e : cached_texture) :
    (destroy_cache_entry m e).log = m.log ++
      ((match e.memblock with
        | some b => [HwCall.dkMemBlockDestroy b]
        | none => []) ++ [HwCall.av_buffer_unref e.buf_ref]) := by
  unfold destroy_cache_entry
  cases e.memblock <;> simp

theorem evict_loop_effects (c : Nat) : ∀ (i : Nat) (m : Mapper) (pre post : List cached_texture),
    m.hw.cached_textures = pre ++ post → pre.length = i →
    (evict_loop c i m).log = m.log ++
      (pre.filter (fun e => decide (e.frames_ctx ≠ c))).reverse.flatMap (fun e =>
        (match e.memblock with
         | some b => [HwCall.dkMemBlockDestroy b]
         | none => []) ++ [HwCall.av_buffer_unref e.buf_ref]) ∧
    (evict_loop c i m).ra =
      (pre.filter (fun e => decide (e.frames_ctx ≠ c))).reverse.foldl
        (fun p e => (e.tex.take m.hw.num_planes).foldl
          (fun q t => ra_dk_unregister_texture q t.obj) p) m.ra := by
  intro i
  induction i with
  | zero =>
    intro m pre post _ hl
    have : pre = [] := List.length_eq_zero.mp hl
    subst this
    simp [evict_loop]
  | succ i ih =>
    intro m pre post hm hl
    rcases List.eq_nil_or_concat pre with h | ⟨pre1, e, h⟩
    · subst h; simp at hl
    · rw [List.concat_eq_append] at h
      subst h
      have hl1 : pre1.length = i := by simpa using hl
      have hget : m.hw.cached_textures.get? i = some e := by
        rw [List.get?_eq_getElem?, hm, List.append_assoc, List.getElem?_append_right (by omega)]
        simp [hl1]
      unfold evict_loop
      simp only [hget]
      by_cases hc : e.frames_ctx ≠ c
      · rw [if_pos hc]
        have hm1 : (MP_TARRAY_REMOVE_AT (destroy_cache_entry m e) i).hw.cached_textures =
            pre1 ++ post := by
          simp only [MP_TARRAY_REMOVE_AT, destroy_cache_entry, hm, List.append_assoc]
          rw [List.eraseIdx_append_of_length_le (by omega)]
          simp [hl1]
        obtain ⟨h1, h2⟩ :=
          ih (MP_TARRAY_REMOVE_AT (destroy_cache_entry m e) i) pre1 post hm1 hl1
        have hlog : (MP_TARRAY_REMOVE_AT (destroy_cache_entry m e) i).log =
            (destroy_cache_entry m e).log := rfl
        have hra : (MP_TARRAY_REMOVE_AT (destroy_cache_entry m e) i).ra =
            (e.tex.take m.hw.num_planes).foldl
              (fun q t => ra_dk_unregister_texture q t.obj) m.ra := rfl
        have hnp : (MP_TARRAY_REMOVE_AT (destroy_cache_entry m e) i).hw.num_planes =
            m.hw.num_planes := rfl
        have hf : (pre1 ++ [e]).filter (fun e => decide (e.frames_ctx ≠ c)) =
            pre1.filter (fun e => decide (e.frames_ctx ≠ c)) ++ [e] := by
          rw [List.filter_append]
          simp [hc]
        refine ⟨?_, ?_⟩
        · rw [h1, hlog, destroy_cache_entry_log, hf, List.reverse_append, List.reverse_singleton,
            List.singleton_append, List.flatMap_cons, List.append_assoc]
        · rw [h2, hra, hnp, hf, List.reverse_append, List.reverse_singleton,
            List.singleton_append, List.foldl_cons]
      · rw [if_neg hc]
        have hc1 : e.frames_ctx = c := by
          by_contra h
          exact hc h
        have hm1 : m.hw.cached_textures = pre1 ++ (e :: post) := by
          rw [hm]; simp
        obtain ⟨h1, h2⟩ := ih m pre1 (e :: post) hm1 hl1
        have hf : (pre1 ++ [e]).filter (fun e => decide (e.frames_ctx ≠ c)) =
            pre1.filter (fun e => decide (e.frames_ctx ≠ c)) := by
          rw [List.filter_append]
          simp [hc1]
        rw [hf]
        exact ⟨h1, h2⟩

theorem mapper_evict_effects (m : Mapper) (req : map_request) :
    (mapper_evict m req).log = (mapper_layouts m req).log ++
      (m.hw.cached_textures.filter
        (fun e => decide (e.frames_ctx ≠ req.hwctx))).reverse.flatMap (fun e =>
        (match e.memblock with
         | some b => [HwCall.dkMemBlockDestroy b]
         | none => []) ++ [HwCall.av_buffer_unref e.buf_ref]) ∧
    (mapper_evict m req).ra =
      (m.hw.cached_textures.filter
        (fun e => decide (e.frames_ctx ≠ req.hwctx))).reverse.foldl
        (fun p e => (e.tex.take m.hw.num_planes).foldl
          (fun q t => ra_dk_unregister_texture q t.obj) p) m.ra := by
  have hl : (mapper_layouts m req).hw.cached_textures = m.hw.cached_textures ∧
      (mapper_layouts m req).hw.num_planes = m.hw.num_planes ∧
      (mapper_layouts m req).ra = m.ra := by
    unfold mapper_layouts
    split_ifs <;> simp
  obtain ⟨l1, l2, l3⟩ := hl
  have := evict_loop_effects req.hwctx (mapper_layouts m req).hw.cached_textures.length
    (mapper_layouts m req) (mapper_layouts m req).hw.cached_textures [] (by simp) rfl
  unfold mapper_evict
  rw [l2, l3] at this
  rw [l1] at this
  rw [l1]
  exact this

theorem mapper_map_log (m : Mapper) (req : map_request) :
    ∃ post, (mapper_map m req).2.log = (mapper_evict m req).log ++ post ∧
      (∀ r, HwCall.av_buffer_unref r ∉ post) ∧
      ∀ b, HwCall.dkMemBlockDestroy b ∈ post → b = (mapper_evict m req).next_block := by
  cases hfind : (mapper_evict m req).hw.cached_textures.find?
      (fun e => decide (e.handle = req.handle)) with
  | some e =>
    refine ⟨[HwCall.dkCmdBufBarrier_invalidate_image, HwCall.dkQueueSubmitCommands], ?_,
      by simp, by simp⟩
    unfold mapper_map
    simp only [hfind]
  | none =>
    by_cases h1 : req.buf_ref_ok = false
    · refine ⟨[], ?_, by simp, by simp⟩
      unfold mapper_map
      simp only [hfind, h1, if_true, List.append_nil]
    · by_cases h2 : req.memblock_ok = false
      · refine ⟨[HwCall.av_buffer_ref req.map_ref], ?_, by simp, by simp⟩
        unfold mapper_map
        simp only [hfind, h1, h2, if_true, if_false, Bool.true_eq_false]
      · by_cases h3 : (map_planes req.talloc_fail (mapper_evict m req).hw.num_planes 0
            ⟨(mapper_evict m req).ra, (mapper_evict m req).next_addr, [], true⟩).ok = false
        · refine ⟨[HwCall.av_buffer_ref req.map_ref, HwCall.dkMemBlockCreate req.handle,
            HwCall.dkMemBlockDestroy (mapper_evict m req).next_block], ?_, by simp, by simp⟩
          unfold mapper_map
          simp only [hfind, h1, h2, h3, if_true, if_false, Bool.true_eq_false]
        · refine ⟨[HwCall.av_buffer_ref req.map_ref, HwCall.dkMemBlockCreate req.handle],
            ?_, by simp, by simp⟩
          unfold mapper_map
          simp only [hfind, h1, h2, h3, if_true, if_false, Bool.true_eq_false,
            MP_TARRAY_APPEND]

/-- C19 (imported-cache eviction is exact): for every cache list and every
mapping request, after the eviction pass of `mapper_map` the cache holds
exactly the prior entries whose frames context equals the request's, in their
original order, and every entry with a different context has been destroyed
exactly once, from the last to the first: the calls made by the pass are, for
each such entry in turn and for no other, the destruction of its memory import
when it has one followed by the release of its buffer reference, and the
descriptor table is the prior one with the plane textures of each such entry
unregistered.  Whatever `mapper_map` does afterwards, it releases no buffer
reference and destroys no memory block other than the one it has just
created. -/
theorem eviction_exact (m : Mapper) (req : map_request) :
    (mapper_evict m req).hw.cached_textures =
      m.hw.cached_textures.filter (fun e => decide (e.frames_ctx = req.hwctx)) ∧
    (mapper_evict m req).log =
      m.log ++
      (if m.hw.is_linear ≠ req.is_linear ∨ m.hw.has_calculated_layouts = false then
        (List.range m.hw.num_planes).map
          (fun i => HwCall.dkImageLayoutInitialize i req.is_linear)
       else []) ++
      (m.hw.cached_textures.filter
        (fun e => decide (e.frames_ctx ≠ req.hwctx))).reverse.flatMap (fun e =>
        (match e.memblock with
         | some b => [HwCall.dkMemBlockDestroy b]
         | none => []) ++ [HwCall.av_buffer_unref e.buf_ref]) ∧
    (mapper_evict m req).ra =
      (m.hw.cached_textures.filter
        (fun e => decide (e.frames_ctx ≠ req.hwctx))).reverse.foldl
        (fun p e => (e.tex.take m.hw.num_planes).foldl
          (fun q t => ra_dk_unregister_texture q t.obj) p) m.ra ∧
    (mapper_evict m req).destroyed =
      m.destroyed ++
        (m.hw.cached_textures.filter (fun e => decide (e.frames_ctx ≠ req.hwctx))).reverse ∧
    (mapper_map m req).2.destroyed = (mapper_evict m req).destroyed ∧
    (∃ post, (mapper_map m req).2.log = (mapper_evict m req).log ++ post ∧
      (∀ r, HwCall.av_buffer_unref r ∉ post) ∧
      ∀ b, HwCall.dkMemBlockDestroy b ∈ post → b = m.next_block) := by
  have hlay : (mapper_layouts m req).log = m.log ++
      (if m.hw.is_linear ≠ req.is_linear ∨ m.hw.has_calculated_layouts = false then
        (List.range m.hw.num_planes).map
          (fun i => HwCall.dkImageLayoutInitialize i req.is_linear)
       else []) := by
    unfold mapper_layouts
    split_ifs <;> simp
  have hnb := (mapper_evict_spec m req).2.2.2.2.2
  refine ⟨(mapper_evict_spec m req).1, ?_, (mapper_evict_effects m req).2,
    (mapper_evict_spec m req).2.1, ?_, ?_⟩
  · rw [(mapper_evict_effects m req).1, hlay]
  · unfold mapper_map
    simp only
    split
    · rfl
    · split_ifs <;> rfl
  · obtain ⟨post, h1, h2, h3⟩ := mapper_map_log m req
    rw [hnb] at h3
    exact ⟨post, h1, h2, h3⟩

theorem map_planes_length (tf : Option Nat) : ∀ (n i : Nat) (st : PlaneLoop),
    (map_planes tf n i st).ok = true →
    (map_planes tf n i st).created.length = st.created.length + n := by
  intro n
  induction n with
  | zero => intro i st _; rfl
  | succ n ih =>
    intro i st h
    unfold map_planes at h ⊢
    by_cases hf : tf = some i
    · rw [if_pos hf] at h
      simp at h
    · rw [if_neg hf] at h ⊢
      rw [ih _ _ h]
      simp only [List.length_append, List.length_singleton]
      omega

theorem range_map_get? (l : List tex_ptr) :
    (List.range l.length).map (fun j => l.get? j) = l.map some := by
  apply List.ext_getElem
  · simp
  · intro i h1 h2
    simp only [List.length_map, List.length_range] at h1
    simp [List.getElem?_eq_getElem h1]

theorem mapper_map_hit (m : Mapper) (req : map_request) (e : cached_texture)
    (he : (mapper_evict m req).hw.cached_textures.find?
      (fun x => decide (x.handle = req.handle)) = some e) :
    mapper_map m req =
      (0, { mapper_evict m req with
            tex := (List.range (mapper_evict m req).hw.num_planes).map (fun j => e.tex.get? j)
            log := (mapper_evict m req).log ++ [HwCall.dkCmdBufBarrier_invalidate_image,
              HwCall.dkQueueSubmitCommands] }) := by
  unfold mapper_map
  simp only [he]

theorem mapper_map_again (m1 : Mapper) (req2 : map_request) (e : cached_texture)
    (hall : ∀ x ∈ m1.hw.cached_textures, x.frames_ctx = req2.hwctx)
    (he : m1.hw.cached_textures.find? (fun x => decide (x.handle = req2.handle)) = some e)
    (ht : m1.tex = (List.range m1.hw.num_planes).map (fun j => e.tex.get? j)) :
    (mapper_map m1 req2).1 = 0 ∧ (mapper_map m1 req2).2.tex = m1.tex ∧
    (mapper_map m1 req2).2.hw.cached_textures = m1.hw.cached_textures := by
  obtain ⟨s1, _, s3, _, _, _⟩ := mapper_evict_spec m1 req2
  have hs : (mapper_evict m1 req2).hw.cached_textures = m1.hw.cached_textures := by
    rw [s1]
    exact List.filter_eq_self.mpr (fun x hx => by simpa using hall x hx)
  have he2 : (mapper_evict m1 req2).hw.cached_textures.find?
      (fun x => decide (x.handle = req2.handle)) = some e := by rw [hs]; exact he
  rw [mapper_map_hit m1 req2 e he2]
  refine ⟨rfl, ?_, hs⟩
  simp only [s3]
  exact ht.symm

/-- C20 (imported-cache reuse): when the request's handle is that of an entry
surviving eviction (`e` being the first such entry, and the only one when the
handles of the surviving entries are pairwise distinct), `mapper_map` returns
0, leaves the cache list as eviction left it, allocates no descriptor slot,
makes no call besides the invalidation barrier and its submission (no buffer
reference, no memory import), and sets every plane texture to the entry's
cached plane texture.  Hence after any successful request a second request
with the same handle and frames context returns 0 with the same plane
textures and the same cache list. -/
theorem imported_cache_reuse (m : Mapper) (req req2 : map_request) (e : cached_texture) :
    ((mapper_evict m req).hw.cached_textures.find?
        (fun x => decide (x.handle = req.handle)) = some e →
      e ∈ (mapper_evict m req).hw.cached_textures ∧ e.handle = req.handle ∧
      (mapper_map m req).1 = 0 ∧
      (mapper_map m req).2.hw.cached_textures = (mapper_evict m req).hw.cached_textures ∧
      (mapper_map m req).2.ra = (mapper_evict m req).ra ∧
      (mapper_map m req).2.log = (mapper_evict m req).log ++
        [HwCall.dkCmdBufBarrier_invalidate_image, HwCall.dkQueueSubmitCommands] ∧
      (mapper_map m req).2.tex = (List.range m.hw.num_planes).map (fun j => e.tex.get? j) ∧
      (((mapper_evict m req).hw.cached_textures.map (fun x => x.handle)).Nodup →
        ∀ x ∈ (mapper_evict m req).hw.cached_textures, x.handle = req.handle → x = e)) ∧
    ((mapper_map m req).1 = 0 → req2.handle = req.handle → req2.hwctx = req.hwctx →
      (mapper_map (mapper_map m req).2 req2).1 = 0 ∧
      (mapper_map (mapper_map m req).2 req2).2.tex = (mapper_map m req).2.tex ∧
      (mapper_map (mapper_map m req).2 req2).2.hw.cached_textures =
        (mapper_map m req).2.hw.cached_textures) := by
  obtain ⟨s1, _, s3, _, _, _⟩ := mapper_evict_spec m req
  have hctx : ∀ x ∈ (mapper_evict m req).hw.cached_textures, x.frames_ctx = req.hwctx := by
    intro x hx
    rw [s1] at hx
    simpa using (List.mem_filter.mp hx).2
  constructor
  · intro he
    have hmem := List.mem_of_find?_eq_some he
    have hh : e.handle = req.handle := by simpa using List.find?_some he
    rw [mapper_map_hit m req e he]
    refine ⟨hmem, hh, rfl, rfl, rfl, rfl, by simp only [s3], ?_⟩
    intro hnd x hx hxh
    exact List.inj_on_of_nodup_map hnd hx hmem (by rw [hxh, hh])
  · intro hret h2 c2
    cases hfind : (mapper_evict m req).hw.cached_textures.find?
        (fun x => decide (x.handle = req.handle)) with
    | some e1 =>
      rw [mapper_map_hit m req e1 hfind]
      apply mapper_map_again _ req2 e1
      · intro x hx
        rw [c2]
        exact hctx x hx
      · rw [h2]; exact hfind
      · rfl
    | none =>
      have hm : mapper_map m req =
          if req.buf_ref_ok = false then (-1, mapper_evict m req)
          else if req.memblock_ok = false then
            (-1, { mapper_evict m req with
                   log := (mapper_evict m req).log ++ [HwCall.av_buffer_ref req.map_ref] })
          else
            let pl := map_planes req.talloc_fail (mapper_evict m req).hw.num_planes 0
              ⟨(mapper_evict m req).ra, (mapper_evict m req).next_addr, [], true⟩
            if pl.ok = false then
              (-1, { mapper_evict m req with
                     ra := pl.ra
                     next_addr := pl.next_addr
                     next_block := (mapper_evict m req).next_block + 1
                     tex := pl.created.map some ++ [none] ++
                       (mapper_evict m req).tex.drop (pl.created.length + 1)
                     log := (mapper_evict m req).log ++ [HwCall.av_buffer_ref req.map_ref,
                       HwCall.dkMemBlockCreate req.handle,
                       HwCall.dkMemBlockDestroy (mapper_evict m req).next_block] })
            else
              (0, MP_TARRAY_APPEND
                { mapper_evict m req with
                  ra := pl.ra
                  next_addr := pl.next_addr
                  next_block := (mapper_evict m req).next_block + 1
                  tex := pl.created.map some
                  log := (mapper_evict m req).log ++ [HwCall.av_buffer_ref req.map_ref,
                    HwCall.dkMemBlockCreate req.handle] }
                ⟨req.map_ref, req.hwctx, req.handle, some (mapper_evict m req).next_block,
                  pl.created⟩) := by
        unfold mapper_map
        simp only [hfind]
      rw [hm] at hret ⊢
      by_cases hb : req.buf_ref_ok = false
      · rw [if_pos hb] at hret; simp at hret
      · rw [if_neg hb] at hret ⊢
        by_cases hmb : req.memblock_ok = false
        · rw [if_pos hmb] at hret; simp at hret
        · rw [if_neg hmb] at hret ⊢
          simp only at hret ⊢
          by_cases hok : (map_planes req.talloc_fail (mapper_evict m req).hw.num_planes 0
              ⟨(mapper_evict m req).ra, (mapper_evict m req).next_addr, [], true⟩).ok = false
          · rw [if_pos hok] at hret; simp at hret
          · rw [if_neg hok]
            have hok1 : (map_planes req.talloc_fail (mapper_evict m req).hw.num_planes 0
                ⟨(mapper_evict m req).ra, (mapper_evict m req).next_addr, [], true⟩).ok = true := by
              simpa using hok
            have hlen := map_planes_length req.talloc_fail _ 0 _ hok1
            simp only [List.length_nil, Nat.zero_add] at hlen
            apply mapper_map_again _ req2
              ⟨req.map_ref, req.hwctx, req.handle, some (mapper_evict m req).next_block,
                (map_planes req.talloc_fail (mapper_evict m req).hw.num_planes 0
                  ⟨(mapper_evict m req).ra, (mapper_evict m req).next_addr, [], true⟩).created⟩
            · intro x hx
              simp only [MP_TARRAY_APPEND, List.mem_append, List.mem_singleton] at hx
              rcases hx with hx | hx
              · rw [c2]; exact hctx x hx
              · rw [hx, c2]
            · simp only [MP_TARRAY_APPEND]
              rw [List.find?_append, h2, hfind]
              simp
            · simp only [MP_TARRAY_APPEND]
              have hr := range_map_get? (map_planes req.talloc_fail
                (mapper_evict m req).hw.num_planes 0
                ⟨(mapper_evict m req).ra, (mapper_evict m req).next_addr, [], true⟩).created
              rw [hlen] at hr
              exact hr.symm

/-- Witness of the reuse: a one-plane cache holding an entry for handle 7 of
frames context 1, and a request for handle 7 from that context. -/
theorem imported_cache_reuse_witness :
    (mapper_evict
        ⟨⟨true, 1, false, [⟨50, 1, 7, some 0, [⟨100, ⟨0⟩⟩]⟩]⟩, ⟨[1, 0], 0⟩, [none], 101, 1, [], []⟩
        ⟨7, false, 1, 50, true, true, none⟩).hw.cached_textures.find?
        (fun x => decide (x.handle = 7)) = some ⟨50, 1, 7, some 0, [⟨100, ⟨0⟩⟩]⟩ ∧
    (mapper_map
        ⟨⟨true, 1, false, [⟨50, 1, 7, some 0, [⟨100, ⟨0⟩⟩]⟩]⟩, ⟨[1, 0], 0⟩, [none], 101, 1, [], []⟩
        ⟨7, false, 1, 50, true, true, none⟩).1 = 0 :=
  ⟨by decide,
   ((imported_cache_reuse
      ⟨⟨true, 1, false, [⟨50, 1, 7, some 0, [⟨100, ⟨0⟩⟩]⟩]⟩, ⟨[1, 0], 0⟩, [none], 101, 1, [], []⟩
      ⟨7, false, 1, 50, true, true, none⟩ ⟨7, false, 1, 50, true, true, none⟩
      ⟨50, 1, 7, some 0, [⟨100, ⟨0⟩⟩]⟩).1 (by decide)).2.2.1⟩

/-- Every failing `dk_tex_create` leaves the bookkeeping that unregistering
descriptor index 0 produces, and a successful one the bookkeeping of the
registration, for every table and every request. -/
theorem dk_tex_create_table (p : priv) (params : ra_tex_params) (memblock_ok upload_ok : Bool) :
    ((dk_tex_create p params memblock_ok upload_ok).tex = none →
      (dk_tex_create p params memblock_ok upload_ok).ra = ra_dk_unregister_texture p ⟨0⟩) ∧
    (∀ t, (dk_tex_create p params memblock_ok upload_ok).tex = some t →
      (dk_tex_create p params memblock_ok upload_ok).ra = (ra_dk_register_texture p).1 ∧
      t = (ra_dk_register_texture p).2) := by
  unfold dk_tex_create
  simp only [dk_tex_destroy]
  split_ifs <;> simp

/-! ## Texture transfers and buffer updates: properties -/

/-- C21 (upload synchrony), the claim as stated fails: for a raw host-memory
source whose temporary import cannot be created, `dk_tex_upload` returns false
at once; it neither submits nor flushes nor waits, although the source is not
a host-cached caller buffer and a wait would have reported success. -/
theorem upload_import_failure_returns_early :
    (dk_tex_upload ⟨16, 16, 1, none, 0, 0x1234, 64, none⟩ false true).ret = false ∧
    (dk_tex_upload ⟨16, 16, 1, none, 0, 0x1234, 64, none⟩ false true).calls =
      [RaCall.dkMemBlockCreate 0x1000 4096] ∧
    RaCall.dkQueueSubmitCommands ∉
      (dk_tex_upload ⟨16, 16, 1, none, 0, 0x1234, 64, none⟩ false true).calls ∧
    RaCall.dkFenceWait RaFence.stack (-1) ∉
      (dk_tex_upload ⟨16, 16, 1, none, 0, 0x1234, 64, none⟩ false true).calls := by
  decide

/-- C21 (upload synchrony), amended: `dk_tex_upload` returns true without
submitting exactly when the source is a caller buffer flagged host-cached, and
then it neither flushes nor waits; when the source is raw host memory and the
temporary import cannot be created it returns false at once, again without
submitting, flushing or waiting; in every other case it ends with a submit, a
flush and a wait with timeout `-1` on the completion fence, returns true iff
that wait reports success, and releases the temporary import right after the
wait exactly when the source is raw host memory. -/
theorem upload_synchrony (params : ra_tex_upload_params) (memblock_ok wait_ok : Bool) :
    (((dk_tex_upload params memblock_ok wait_ok).ret = true ∧
        RaCall.dkQueueSubmitCommands ∉ (dk_tex_upload params memblock_ok wait_ok).calls) ↔
      ∃ b, params.buf = some b ∧ b.is_cpu_cached = true) ∧
    ((∃ b, params.buf = some b ∧ b.is_cpu_cached = true) →
      RaCall.dkQueueFlush ∉ (dk_tex_upload params memblock_ok wait_ok).calls ∧
      ∀ f t, RaCall.dkFenceWait f t ∉ (dk_tex_upload params memblock_ok wait_ok).calls) ∧
    (params.buf = none → memblock_ok = false →
      (dk_tex_upload params memblock_ok wait_ok).ret = false ∧
      RaCall.dkQueueSubmitCommands ∉ (dk_tex_upload params memblock_ok wait_ok).calls ∧
      RaCall.dkQueueFlush ∉ (dk_tex_upload params memblock_ok wait_ok).calls ∧
      (∀ f t, RaCall.dkFenceWait f t ∉ (dk_tex_upload params memblock_ok wait_ok).calls) ∧
      RaCall.dkMemBlockDestroy MemRef.host ∉
        (dk_tex_upload params memblock_ok wait_ok).calls) ∧
    (∀ b, params.buf = some b → b.is_cpu_cached = false →
      (dk_tex_upload params memblock_ok wait_ok).ret = wait_ok ∧
      (∃ pre, (dk_tex_upload params memblock_ok wait_ok).calls = pre ++
        [RaCall.dkQueueSubmitCommands, RaCall.dkQueueFlush,
         RaCall.dkFenceWait (RaFence.buffer b.id) (-1)]) ∧
      ∀ blk, RaCall.dkMemBlockDestroy blk ∉
        (dk_tex_upload params memblock_ok wait_ok).calls) ∧
    (params.buf = none → memblock_ok = true →
      (dk_tex_upload params memblock_ok wait_ok).ret = wait_ok ∧
      ∃ pre, (dk_tex_upload params memblock_ok wait_ok).calls = pre ++
        [RaCall.dkQueueSubmitCommands, RaCall.dkQueueFlush,
         RaCall.dkFenceWait RaFence.stack (-1), RaCall.dkMemBlockDestroy MemRef.host]) := by
  cases hb : params.buf with
  | none =>
    cases memblock_ok
    · have h : dk_tex_upload params false wait_ok = ⟨false,
          [RaCall.dkMemBlockCreate
            (upload_import DK_MEMBLOCK_ALIGNMENT params.src
              (params.stride * params.rect_height * params.rect_depth)).storage
            (upload_import DK_MEMBLOCK_ALIGNMENT params.src
              (params.stride * params.rect_height * params.rect_depth)).size]⟩ := by
        unfold dk_tex_upload
        simp only [hb, if_true]
      rw [h]
      simp
    · obtain ⟨pre, h⟩ : ∃ pre, dk_tex_upload params true wait_ok = ⟨wait_ok, pre ++
          [RaCall.dkQueueSubmitCommands, RaCall.dkQueueFlush,
           RaCall.dkFenceWait RaFence.stack (-1), RaCall.dkMemBlockDestroy MemRef.host]⟩ := by
        unfold dk_tex_upload
        simp only [hb, Bool.true_eq_false, if_false]
        exact ⟨[_, _, _, _, _], rfl⟩
      rw [h]
      refine ⟨by simp, by simp, by simp, by simp, fun _ _ => ⟨rfl, pre, rfl⟩⟩
  | some b =>
    cases hc : b.is_cpu_cached
    · obtain ⟨pre, h⟩ : ∃ pre, dk_tex_upload params memblock_ok wait_ok = ⟨wait_ok, pre ++
          [RaCall.dkQueueSubmitCommands, RaCall.dkQueueFlush,
           RaCall.dkFenceWait (RaFence.buffer b.id) (-1)]⟩ ∧
          ∀ blk, RaCall.dkMemBlockDestroy blk ∉ pre := by
        unfold dk_tex_upload
        simp only [hb, hc, Bool.false_eq_true, if_false]
        refine ⟨_, rfl, ?_⟩
        intro blk
        cases b.host_mapped <;> simp
      rw [h.1]
      refine ⟨by simp [hc], by simp [hc], by simp, ?_, by simp⟩
      intro b1 h1 _
      cases h1
      refine ⟨rfl, ⟨pre, rfl⟩, ?_⟩
      intro blk
      have := h.2 blk
      simp [this]
    · obtain ⟨rec, h⟩ : ∃ rec, dk_tex_upload params memblock_ok wait_ok = ⟨true, rec⟩ ∧
          RaCall.dkQueueSubmitCommands ∉ rec ∧ RaCall.dkQueueFlush ∉ rec ∧
          ∀ f t, RaCall.dkFenceWait f t ∉ rec := by
        unfold dk_tex_upload
        simp only [hb, hc, if_true]
        refine ⟨_, rfl, ?_⟩
        cases b.host_mapped <;> simp
      rw [h.1]
      refine ⟨by simp [h.2.1, hc], fun _ => ⟨h.2.2.1, h.2.2.2⟩, by simp, ?_, by simp⟩
      intro b1 h1 hc1
      cases h1
      rw [hc] at hc1
      exact absurd hc1 (by simp)

/-- Witness of the upload synchrony: a caller buffer of type texture upload
(host-cached) returns true with nothing submitted, and the same buffer flagged
otherwise submits, flushes and waits. -/
theorem upload_synchrony_witness :
    (dk_tex_upload ⟨16, 16, 1, some (dk_buf_create 3 ra_buf_type.RA_BUF_TYPE_TEX_UPLOAD true),
      0, 0, 64, none⟩ true false).ret = true ∧
    RaCall.dkQueueSubmitCommands ∉
      (dk_tex_upload ⟨16, 16, 1, some (dk_buf_create 3 ra_buf_type.RA_BUF_TYPE_TEX_UPLOAD true),
        0, 0, 64, none⟩ true false).calls :=
  (upload_synchrony ⟨16, 16, 1, some (dk_buf_create 3 ra_buf_type.RA_BUF_TYPE_TEX_UPLOAD true),
      0, 0, 64, none⟩ true false).1.mpr ⟨_, rfl, by decide⟩

/-- C22 (buffer update path): for every buffer, offset and size,
`dk_buf_update` on a uniform-typed buffer makes exactly one call, the inline
push of the data, hence no queue-idle wait and no host memory copy; on every
other buffer type it waits for queue idle first, then copies the bytes to the
host address of the block plus the offset, and after that flushes the host
cache for that range iff the buffer is host-cached, and does nothing else. -/
theorem buf_update_path (buf : ra_buf) (offset size : Nat) :
    (buf.type = ra_buf_type.RA_BUF_TYPE_UNIFORM →
      dk_buf_update buf offset size =
        [RaCall.dkCmdBufPushConstants (MemRef.buffer buf.id) offset size] ∧
      RaCall.dkQueueWaitIdle ∉ dk_buf_update buf offset size ∧
      ∀ blk o s, RaCall.memcpy blk o s ∉ dk_buf_update buf offset size) ∧
    (buf.type ≠ ra_buf_type.RA_BUF_TYPE_UNIFORM →
      (∃ post, dk_buf_update buf offset size =
        [RaCall.dkQueueWaitIdle, RaCall.memcpy (MemRef.buffer buf.id) offset size] ++ post ∧
        (post = [] ∨
          post = [RaCall.dkMemBlockFlushCpuCache (MemRef.buffer buf.id) offset size]) ∧
        (post ≠ [] ↔ buf.is_cpu_cached = true)) ∧
      ∀ blk o s, RaCall.dkCmdBufPushConstants blk o s ∉ dk_buf_update buf offset size) := by
  unfold dk_buf_update
  constructor
  · intro h
    simp [h]
  · intro h
    rw [if_neg h]
    cases hc : buf.is_cpu_cached <;> simp

/-- Witness of the buffer update path: a uniform buffer of 256 bytes updated
at offset 0 records one inline push; an upload-staging buffer waits, copies
and flushes. -/
theorem buf_update_path_witness :
    dk_buf_update (dk_buf_create 1 ra_buf_type.RA_BUF_TYPE_UNIFORM false) 0 256 =
      [RaCall.dkCmdBufPushConstants (MemRef.buffer 1) 0 256] ∧
    (∃ post, dk_buf_update (dk_buf_create 2 ra_buf_type.RA_BUF_TYPE_TEX_UPLOAD true) 0 256 =
      [RaCall.dkQueueWaitIdle, RaCall.memcpy (MemRef.buffer 2) 0 256] ++ post ∧
      (post = [] ∨ post = [RaCall.dkMemBlockFlushCpuCache (MemRef.buffer 2) 0 256]) ∧
      (post ≠ [] ↔
        (dk_buf_create 2 ra_buf_type.RA_BUF_TYPE_TEX_UPLOAD true).is_cpu_cached = true)) :=
  ⟨((buf_update_path (dk_buf_create 1 ra_buf_type.RA_BUF_TYPE_UNIFORM false) 0 256).1 rfl).1,
   ((buf_update_path (dk_buf_create 2 ra_buf_type.RA_BUF_TYPE_TEX_UPLOAD true) 0 256).2
      (by decide)).1⟩

/-- C23 (tiling workaround): for every table, every texture request and every
outcome of the later steps, the layout request `dk_tex_create` builds carries
the custom-tile-size flag if and only if the requested height is at most 8,
and its tile size is the one-GOB size if and only if the height is at most 8,
whatever the width, depth, format and usage flags are. -/
theorem tiling_workaround (p : priv) (params : ra_tex_params) (memblock_ok upload_ok : Bool) :
    (DkImageFlags.CustomTileSize ∈ (dk_tex_create p params memblock_ok upload_ok).layout.flags
      ↔ params.h ≤ 8) ∧
    ((dk_tex_create p params memblock_ok upload_ok).layout.tileSize =
      DkTileSize.DkTileSize_OneGob ↔ params.h ≤ 8) := by
  have hl : (dk_tex_create p params memblock_ok upload_ok).layout = dk_tex_layout params := by
    unfold dk_tex_create
    simp only
    split_ifs <;> rfl
  rw [hl]
  unfold dk_tex_layout
  by_cases h : params.h ≤ 8
  · simp [h]
  · simp only [h, if_false, iff_false, List.append_nil]
    constructor
    · intro hm
      simp only [List.mem_append, List.mem_singleton] at hm
      rcases hm with ((hm | hm) | hm) | hm
      · exact absurd hm (by decide)
      · split_ifs at hm <;> simp at hm
      · split_ifs at hm <;> simp at hm
      · split_ifs at hm <;> simp at hm
    · decide

/-- Witness of the tiling workaround: a 16x4 texture gets the custom tile size
flag, a 16x16 one does not. -/
theorem tiling_workaround_witness :
    DkImageFlags.CustomTileSize ∈ (dk_tex_create priv_init
      ⟨2, 16, 4, 1, default_format, true, false, false, false, false, false⟩
      true true).layout.flags ∧
    DkImageFlags.CustomTileSize ∉ (dk_tex_create priv_init
      ⟨2, 16, 16, 1, default_format, true, false, false, false, false, false⟩
      true true).layout.flags :=
  ⟨(tiling_workaround priv_init
      ⟨2, 16, 4, 1, default_format, true, false, false, false, false, false⟩ true true).1.mpr
      (by decide),
   fun h => absurd ((tiling_workaround priv_init
      ⟨2, 16, 16, 1, default_format, true, false, false, false, false, false⟩ true true).1.mp h)
      (by decide)⟩

theorem MP_ALIGN_UP_dvd (x a : Nat) : a ∣ MP_ALIGN_UP x a :=
  Dvd.intro_left _ rfl

/-- C24 (host-memory wrapping arithmetic): for every host address `p`, payload
size `n` and power-of-two alignment `2 ^ k` for which the aligned size fits
the 32-bit size of a block, the temporary import of `dk_tex_upload` and of
`dk_tex_download` has the offset `p mod 2 ^ k`, the base address
`p - p mod 2 ^ k`, which is a multiple of the alignment, a size that is a
multiple of the alignment, covers the bytes from `p` to `p + n`, and base plus
offset is exactly `p`; both functions request that import and address their
copy command at that offset inside it. -/
theorem host_import_arithmetic (k p n : Nat)
    (hfit : MP_ALIGN_UP (n + p % 2 ^ k) (2 ^ k) < U32) :
    ((upload_import (2 ^ k) p n).memblk_off = p % 2 ^ k ∧
      (upload_import (2 ^ k) p n).storage = p - p % 2 ^ k ∧
      2 ^ k ∣ (upload_import (2 ^ k) p n).storage ∧
      2 ^ k ∣ (upload_import (2 ^ k) p n).size ∧
      (upload_import (2 ^ k) p n).storage ≤ p ∧
      p + n ≤ (upload_import (2 ^ k) p n).storage + (upload_import (2 ^ k) p n).size ∧
      (upload_import (2 ^ k) p n).storage + (upload_import (2 ^ k) p n).memblk_off = p) ∧
    download_import (2 ^ k) p n = upload_import (2 ^ k) p n ∧
    (∀ params : ra_tex_upload_params, params.buf = none →
      ∀ wait_ok, ∃ rest,
        (dk_tex_upload params true wait_ok).calls =
          RaCall.dkMemBlockCreate
            (upload_import DK_MEMBLOCK_ALIGNMENT params.src
              (params.stride * params.rect_height * params.rect_depth)).storage
            (upload_import DK_MEMBLOCK_ALIGNMENT params.src
              (params.stride * params.rect_height * params.rect_depth)).size :: rest ∧
        RaCall.dkCmdBufCopyBufferToImage MemRef.host
            (upload_import DK_MEMBLOCK_ALIGNMENT params.src
              (params.stride * params.rect_height * params.rect_depth)).memblk_off
            params.stride (params.rect_height * params.rect_depth) ∈ rest) ∧
    (∀ (params : ra_tex_download_params) wait_ok, ∃ rest,
      (dk_tex_download params true wait_ok).calls =
        RaCall.dkMemBlockCreate
          (download_import DK_MEMBLOCK_ALIGNMENT params.dst
            (params.stride * params.tex_h)).storage
          (download_import DK_MEMBLOCK_ALIGNMENT params.dst
            (params.stride * params.tex_h)).size :: rest ∧
      RaCall.dkCmdBufCopyImageToBuffer MemRef.host
          (download_import DK_MEMBLOCK_ALIGNMENT params.dst
            (params.stride * params.tex_h)).memblk_off
          params.stride params.tex_h ∈ rest) := by
  have hand : p &&& (2 ^ k - 1) = p % 2 ^ k := Nat.and_pow_two_sub_one_eq_mod p k
  have hpos : 0 < 2 ^ k := Nat.two_pow_pos k
  have hle : p % 2 ^ k ≤ p := Nat.mod_le _ _
  have hge := MP_ALIGN_UP_ge (n + p % 2 ^ k) (2 ^ k) hpos
  refine ⟨?_, ?_, ?_, ?_⟩
  · simp only [upload_import, hand, Nat.mod_eq_of_lt hfit]
    refine ⟨trivial, trivial, Nat.dvd_sub_mod p, MP_ALIGN_UP_dvd _ _, Nat.sub_le _ _, ?_, ?_⟩
    · omega
    · omega
  · simp only [download_import, upload_import, Nat.add_comm]
  · intro params hb wait_ok
    unfold dk_tex_upload
    simp only [hb, Bool.true_eq_false, if_false]
    exact ⟨_, rfl, by simp⟩
  · intro params wait_ok
    unfold dk_tex_download
    simp only [Bool.true_eq_false, if_false]
    exact ⟨_, rfl, by simp⟩

/-- Witness of the wrapping arithmetic: address `0x1234`, 1024 bytes, 4 KiB
alignment. -/
theorem host_import_arithmetic_witness :
    MP_ALIGN_UP (1024 + 0x1234 % 2 ^ 12) (2 ^ 12) < U32 ∧
    (upload_import (2 ^ 12) 0x1234 1024).storage + (upload_import (2 ^ 12) 0x1234 1024).memblk_off
      = 0x1234 ∧
    0x1234 + 1024 ≤
      (upload_import (2 ^ 12) 0x1234 1024).storage + (upload_import (2 ^ 12) 0x1234 1024).size :=
  ⟨by decide, (host_import_arithmetic 12 0x1234 1024 (by decide)).1.2.2.2.2.2.2,
    (host_import_arithmetic 12 0x1234 1024 (by decide)).1.2.2.2.2.2.1⟩

/-! ## Render pass runs: properties -/

/-- C25 (vertex data path selection): for every raster run, with
`s = vertex_count * vertex_stride`, the vertex write is the single inline push
of `s` bytes, with no queue-idle wait, if and only if `s ≤ 0x7ffc`
(`((1 << 13) - 1) * 4` bytes), and otherwise it is a queue-idle wait followed
by a direct memory copy of `s` bytes to the start of the scratch block; in a
run that reaches the vertex write (scratch block `blk` after the reallocation
block) these calls come right after the reallocation block, and the binding
and draw calls after them contain no push, copy or wait. -/
theorem vertex_write_path (vao : Option vao_block) (run : raster_run) (new_id : Nat)
    (alloc_ok : Bool) (blk : vao_block) :
    (0x7ffc = ((1 <<< 13) - 1) * 4) ∧
    (run.vertex_count * run.vertex_stride ≤ 0x7ffc ↔
      vertex_write blk (run.vertex_count * run.vertex_stride) =
        [RaCall.dkCmdBufPushData (MemRef.scratch blk.id)
          (run.vertex_count * run.vertex_stride)]) ∧
    (run.vertex_count * run.vertex_stride ≤ 0x7ffc →
      RaCall.dkQueueWaitIdle ∉ vertex_write blk (run.vertex_count * run.vertex_stride)) ∧
    (¬ run.vertex_count * run.vertex_stride ≤ 0x7ffc →
      vertex_write blk (run.vertex_count * run.vertex_stride) =
        [RaCall.dkQueueWaitIdle,
         RaCall.memcpy (MemRef.scratch blk.id) 0 (run.vertex_count * run.vertex_stride)]) ∧
    ((vao_realloc vao (run.vertex_count * run.vertex_stride) new_id alloc_ok).1 = some blk →
      (dk_renderpass_run_raster vao run new_id alloc_ok).2 =
        (vao_realloc vao (run.vertex_count * run.vertex_stride) new_id alloc_ok).2 ++
        vertex_write blk (run.vertex_count * run.vertex_stride) ++ raster_draw blk run) ∧
    (RaCall.dkQueueWaitIdle ∉ raster_draw blk run ∧
      (∀ m sz, RaCall.dkCmdBufPushData m sz ∉ raster_draw blk run) ∧
      ∀ m o sz, RaCall.memcpy m o sz ∉ raster_draw blk run) := by
  refine ⟨by decide, ?_, ?_, ?_, ?_, ?_⟩
  · unfold vertex_write
    by_cases h : run.vertex_count * run.vertex_stride ≤ 0x7ffc
    · simp [h]
    · simp [h]
  · intro h
    simp [vertex_write, h]
  · intro h
    simp [vertex_write, h]
  · intro h
    simp only [dk_renderpass_run_raster, h]
  · unfold raster_draw
    cases run.invalidate_target <;> cases run.enable_blend <;> simp

/-- Witness of the path selection: 6 vertices of 32 bytes on the initial
scratch block are pushed inline. -/
theorem vertex_write_path_witness :
    (dk_renderpass_run_raster (some ⟨1, 4096⟩) ⟨6, 32, false, false⟩ 2 true).2 =
      (vao_realloc (some ⟨1, 4096⟩) (6 * 32) 2 true).2 ++
        vertex_write ⟨1, 4096⟩ (6 * 32) ++ raster_draw ⟨1, 4096⟩ ⟨6, 32, false, false⟩ :=
  (vertex_write_path (some ⟨1, 4096⟩) ⟨6, 32, false, false⟩ 2 true ⟨1, 4096⟩).2.2.2.2.1
    (by decide)

theorem compute_fence_loop_eq (inputs : List ra_renderpass_input)
    (values : List ra_renderpass_input_val) :
    compute_fence_loop inputs values =
      (values.filter (fun v =>
        decide ((inputs.getD v.index ⟨ra_vartype.RA_VARTYPE_INVALID, 0⟩).type =
          ra_vartype.RA_VARTYPE_BUF_RW))).map
        (fun v => RaCall.dkCmdBufSignalFence (RaFence.buffer v.data) true) := by
  induction values with
  | nil => rfl
  | cons v rest ih =>
    unfold compute_fence_loop
    rw [ih]
    by_cases h : (inputs.getD v.index ⟨ra_vartype.RA_VARTYPE_INVALID, 0⟩).type =
        ra_vartype.RA_VARTYPE_BUF_RW
    · rw [List.filter_cons_of_pos (by simpa using h), if_pos h]
      rfl
    · rw [List.filter_cons_of_neg (by simpa using h), if_neg h]
      rfl

/-- C27 (compute completion fences): for every compute run, the calls recorded
are the shader binding, the dispatch with the requested group counts and the
barrier, followed by one fence signal for each input value whose input is
declared a read-write storage buffer, in the order of the values and each on
the fence of that value's buffer, and by nothing else: a value of any other
type gets no signal. -/
theorem compute_fence_signals (inputs : List ra_renderpass_input)
    (values : List ra_renderpass_input_val) (gx gy gz : Nat) :
    dk_renderpass_run_compute inputs values gx gy gz =
      [RaCall.dkCmdBufBindShaders 1, RaCall.dkCmdBufDispatchCompute gx gy gz,
       RaCall.dkCmdBufBarrier_primitives] ++
      (values.filter (fun v =>
        decide ((inputs.getD v.index ⟨ra_vartype.RA_VARTYPE_INVALID, 0⟩).type =
          ra_vartype.RA_VARTYPE_BUF_RW))).map
        (fun v => RaCall.dkCmdBufSignalFence (RaFence.buffer v.data) true) ∧
    ((dk_renderpass_run_compute inputs values gx gy gz).filter
        (fun c => match c with
          | RaCall.dkCmdBufSignalFence _ _ => true
          | _ => false)).length =
      (values.filter (fun v =>
        decide ((inputs.getD v.index ⟨ra_vartype.RA_VARTYPE_INVALID, 0⟩).type =
          ra_vartype.RA_VARTYPE_BUF_RW))).length := by
  have h := compute_fence_loop_eq inputs values
  refine ⟨by unfold dk_renderpass_run_compute; rw [h], ?_⟩
  unfold dk_renderpass_run_compute
  rw [h]
  simp only [List.filter_append, List.length_append]
  have h1 : (List.filter (fun c => match c with
      | RaCall.dkCmdBufSignalFence _ _ => true
      | _ => false)
      [RaCall.dkCmdBufBindShaders 1, RaCall.dkCmdBufDispatchCompute gx gy gz,
       RaCall.dkCmdBufBarrier_primitives]) = [] := by
    simp [List.filter]
  rw [h1, List.filter_eq_self.mpr, List.length_map]
  · simp
  · intro c hc
    obtain ⟨v, _, rfl⟩ := List.mem_map.mp hc
    rfl

/-! ## Shader cache bounds and code block size: properties -/

set_option maxRecDepth 1000000 in
/-- C28 (accepted cache blobs are in bounds), evaluated on the code: a blob
that is only the 32-byte header, with the right magic and version and a
compute stage declared at offset 32 with size 16, is accepted by
`load_shader_code` for a compute pipeline although the stage range ends at
byte 48, past the 32 bytes of the blob; the 16 bytes copied to the start of
the code memory are the bytes that follow the blob in memory (here `0xAA`),
and the compute shader is initialised on them.  Likewise a vertex stage
declared at offset 0 with size 32 is accepted and the header itself is copied
as code. -/
theorem load_copies_outside_blob :
    (bstr.mk (some (hdr_bytes ⟨AV_RN32_magic, 1, 0, 0, 0, 0, 32, 16⟩))).len = 32 ∧
    ¬ (32 + 16 ≤ (bstr.mk (some (hdr_bytes ⟨AV_RN32_magic, 1, 0, 0, 0, 0, 32, 16⟩))).len) ∧
    (load_shader_code true (fun _ => 0xAA)
      ⟨some (hdr_bytes ⟨AV_RN32_magic, 1, 0, 0, 0, 0, 32, 16⟩)⟩ false false true).ret = true ∧
    (load_shader_code true (fun _ => 0xAA)
      ⟨some (hdr_bytes ⟨AV_RN32_magic, 1, 0, 0, 0, 0, 32, 16⟩)⟩ false false true).comp_sh
      = some ⟨0⟩ ∧
    ((load_shader_code true (fun _ => 0xAA)
      ⟨some (hdr_bytes ⟨AV_RN32_magic, 1, 0, 0, 0, 0, 32, 16⟩)⟩ false false true).shader_memblock.map
        (fun b => blk_read b 0 16)) = some (List.replicate 16 0xAA) ∧
    (load_shader_code true (fun _ => 0xAA)
      ⟨some (hdr_bytes ⟨AV_RN32_magic, 1, 0, 32, 0, 0, 0, 0⟩)⟩ true false false).ret = true ∧
    ((load_shader_code true (fun _ => 0xAA)
      ⟨some (hdr_bytes ⟨AV_RN32_magic, 1, 0, 32, 0, 0, 0, 0⟩)⟩ true false false).shader_memblock.map
        (fun b => blk_read b 0 32)) =
      some (hdr_bytes ⟨AV_RN32_magic, 1, 0, 32, 0, 0, 0, 0⟩) := by
  decide

theorem create_raster_fresh_mem (load_alloc_ok : Bool) (beyond : Nat → Byte)
    (vsh fsh : List Byte) (hfit : code_block_size vsh.length fsh.length 0 < U32) :
    dk_renderpass_create_raster load_alloc_ok true beyond
      ⟨true, some vsh⟩ ⟨true, some fsh⟩ bstr.null =
      ⟨true, some ⟨some (mem_write (mem_write
          (List.replicate (MP_ALIGN_UP (vsh.length + fsh.length + 1024) 4096) 0) 0 vsh)
          (MP_ALIGN_UP vsh.length 256) fsh),
        [some ⟨0⟩, some ⟨MP_ALIGN_UP vsh.length DK_SHADER_CODE_ALIGNMENT⟩],
        save_shader_code bstr.null ⟨some vsh⟩ ⟨some fsh⟩ bstr.null⟩⟩ := by
  have a1 := MP_ALIGN_UP_ge vsh.length 256 (by norm_num)
  have a1' := MP_ALIGN_UP_lt vsh.length 256 (by norm_num)
  have a2 := MP_ALIGN_UP_ge fsh.length 256 (by norm_num)
  have a3 := MP_ALIGN_UP_ge (vsh.length + fsh.length + 1024) 4096 (by norm_num)
  have hz : MP_ALIGN_UP 0 256 = 0 := MP_ALIGN_UP_zero 256 (by norm_num)
  have a4 := MP_ALIGN_UP_mono (vsh.length + fsh.length + 1024)
    (1024 + MP_ALIGN_UP vsh.length 256 + MP_ALIGN_UP fsh.length 256) 4096 (by omega)
  simp only [code_block_size, DK_SHADER_CODE_UNUSABLE_SIZE, DK_SHADER_CODE_ALIGNMENT,
    DK_MEMBLOCK_ALIGNMENT, hz, Nat.add_zero] at hfit
  unfold dk_renderpass_create_raster
  simp only [bstr_null_len, true_or, if_true, Bool.true_eq_false, or_self, if_false,
    DK_SHADER_CODE_UNUSABLE_SIZE, DK_SHADER_CODE_ALIGNMENT, DK_MEMBLOCK_ALIGNMENT]
  rw [Nat.mod_eq_of_lt (by omega : MP_ALIGN_UP (vsh.length + fsh.length + 1024) 4096 < U32)]
  simp only [dkMemBlockCreate, if_true]
  have hl1 : (mem_write (List.replicate (MP_ALIGN_UP (vsh.length + fsh.length + 1024) 4096)
      (0 : Byte)) 0 vsh).length = MP_ALIGN_UP (vsh.length + fsh.length + 1024) 4096 := by
    rw [mem_write_length _ _ _ (by rw [List.length_replicate]; omega), List.length_replicate]
  rw [blk_read_mem_write_below _ _ _ _ _ (by rw [hl1]; omega) (by omega),
    blk_read_mem_write _ _ _ (by simp), blk_read_mem_write _ _ _ (by rw [hl1]; omega)]

theorem load_memblock_size_saved (V F : List Byte) (v f : Nat) (hV : V.length = v)
    (hF : F.length = f) (hv : v ≠ 0) (hf : f ≠ 0) (hv32 : v < U32) (hf32 : f < U32) :
    load_memblock_size (save_header ⟨some V⟩ ⟨some F⟩ bstr.null) true true false =
      MP_ALIGN_UP (DK_SHADER_CODE_UNUSABLE_SIZE + MP_ALIGN_UP v DK_SHADER_CODE_ALIGNMENT +
        MP_ALIGN_UP f DK_SHADER_CODE_ALIGNMENT) DK_MEMBLOCK_ALIGNMENT % U32 := by
  have e1 : (bstr.mk (some V)).len = v := hV
  have e2 : (bstr.mk (some F)).len = f := hF
  simp only [load_memblock_size, save_header, e1, e2, bstr_null_len, ne_eq, hv, hf,
    not_false_eq_true, if_true, true_and, Nat.mod_eq_of_lt hv32, Nat.mod_eq_of_lt hf32,
    Bool.false_eq_true, false_and, if_false, Nat.add_zero, not_true_eq_false]

/-- C29 (fresh raster code memory is large enough), evaluated on the code: for
compiled sizes `vsh_size = 1` and `fsh_size = 3071` the creator allocates a
code block of 4096 bytes and places the fragment shader at offset 256, while
`align_up(1, 256) + 3071 + 1024 = 4351`; the fragment code fills bytes 256 to
3326 of the block, so it reaches into the last 1024 bytes (from byte 3072),
and `load_shader_code` allocates 8192 bytes for the program saved by the same
call. -/
theorem fresh_code_block_too_small :
    (∃ mem, dk_renderpass_create_raster true true (fun _ => 0)
        ⟨true, some (List.replicate 1 1)⟩ ⟨true, some (List.replicate 3071 2)⟩ bstr.null =
        ⟨true, some ⟨some mem, [some ⟨0⟩, some ⟨256⟩],
          save_shader_code bstr.null ⟨some (List.replicate 1 1)⟩
            ⟨some (List.replicate 3071 2)⟩ bstr.null⟩⟩ ∧
      mem.length = 4096 ∧
      blk_read mem 256 3071 = List.replicate 3071 2) ∧
    MP_ALIGN_UP (1 + 3071 + DK_SHADER_CODE_UNUSABLE_SIZE) DK_MEMBLOCK_ALIGNMENT = 4096 ∧
    MP_ALIGN_UP 1 DK_SHADER_CODE_ALIGNMENT + 3071 + DK_SHADER_CODE_UNUSABLE_SIZE = 4351 ∧
    4096 - DK_SHADER_CODE_UNUSABLE_SIZE < 256 + 3071 ∧
    load_memblock_size
      (save_header ⟨some (List.replicate 1 1)⟩ ⟨some (List.replicate 3071 2)⟩ bstr.null)
      true true false = 8192 := by
  have hv : (List.replicate 1 (1 : Byte)).length = 1 := List.length_replicate _ _
  have hf : (List.replicate 3071 (2 : Byte)).length = 3071 := List.length_replicate _ _
  have hb : (List.replicate 4096 (0 : Byte)).length = 4096 := List.length_replicate _ _
  have a1 : MP_ALIGN_UP 1 256 = 256 := by decide
  have a1' : MP_ALIGN_UP 1 DK_SHADER_CODE_ALIGNMENT = 256 := by decide
  have a2 : MP_ALIGN_UP (1 + 3071 + 1024) 4096 = 4096 := by decide
  have hl1 : (mem_write (List.replicate 4096 (0 : Byte)) 0 (List.replicate 1 1)).length
      = 4096 := by
    rw [mem_write_length _ _ _ (by rw [hv, hb]; omega), hb]
  have hcr := create_raster_fresh_mem true (fun _ => 0) (List.replicate 1 1)
    (List.replicate 3071 2) (by rw [hv, hf]; decide)
  rw [hv, hf, a1, a1', a2] at hcr
  refine ⟨⟨_, hcr, ?_, ?_⟩, by decide, by decide, by decide, ?_⟩
  · rw [mem_write_length _ _ _ (by rw [hl1, hf]; omega), hl1]
  · have r3 := blk_read_mem_write
      (mem_write (List.replicate 4096 (0 : Byte)) 0 (List.replicate 1 1)) (List.replicate 3071 2)
      256 (by rw [hl1]; omega)
    rw [hf] at r3
    exact r3
  · rw [load_memblock_size_saved _ _ 1 3071 hv hf (by decide) (by decide) (by decide)
      (by decide)]
    decide

/-! ## Mapper runs: properties -/

theorem mapper_map_cached (m : Mapper) (req : map_request) :
    (mapper_map m req).2.hw.cached_textures = (mapper_evict m req).hw.cached_textures ∨
    ((mapper_evict m req).hw.cached_textures.find?
        (fun e => decide (e.handle = req.handle)) = none ∧
      (mapper_map m req).1 = 0 ∧
      ∃ e, e.handle = req.handle ∧
        (mapper_map m req).2.hw.cached_textures =
          (mapper_evict m req).hw.cached_textures ++ [e]) := by
  cases hfind : (mapper_evict m req).hw.cached_textures.find?
      (fun e => decide (e.handle = req.handle)) with
  | some e =>
    left
    rw [mapper_map_hit m req e hfind]
  | none =>
    by_cases h1 : req.buf_ref_ok = false
    · left
      unfold mapper_map
      simp only [hfind, h1, if_true]
    · by_cases h2 : req.memblock_ok = false
      · left
        unfold mapper_map
        simp only [hfind, h1, h2, if_true, if_false, Bool.true_eq_false]
      · by_cases h3 : (map_planes req.talloc_fail (mapper_evict m req).hw.num_planes 0
            ⟨(mapper_evict m req).ra, (mapper_evict m req).next_addr, [], true⟩).ok = false
        · left
          unfold mapper_map
          simp only [hfind, h1, h2, h3, if_true, if_false, Bool.true_eq_false]
        · right
          refine ⟨rfl, ?_, ⟨req.map_ref, req.hwctx, req.handle,
            some (mapper_evict m req).next_block,
            (map_planes req.talloc_fail (mapper_evict m req).hw.num_planes 0
              ⟨(mapper_evict m req).ra, (mapper_evict m req).next_addr, [], true⟩).created⟩,
            rfl, ?_⟩
          · unfold mapper_map
            simp only [hfind, h1, h2, h3, if_true, if_false, Bool.true_eq_false]
          · unfold mapper_map
            simp only [hfind, h1, h2, h3, if_true, if_false, Bool.true_eq_false,
              MP_TARRAY_APPEND]

theorem mapper_map_nodup (m : Mapper) (req : map_request)
    (h : (m.hw.cached_textures.map (fun e => e.handle)).Nodup) :
    ((mapper_map m req).2.hw.cached_textures.map (fun e => e.handle)).Nodup := by
  have hs : ((mapper_evict m req).hw.cached_textures.map (fun e => e.handle)).Nodup := by
    rw [(mapper_evict_spec m req).1]
    exact List.Nodup.sublist ((List.filter_sublist _).map _) h
  rcases mapper_map_cached m req with hc | ⟨hnone, _, e, he, hc⟩
  · rw [hc]
    exact hs
  · rw [hc, List.map_append]
    refine List.Nodup.append hs (List.nodup_singleton _) ?_
    intro a ha hb
    rw [List.map_singleton, List.mem_singleton] at hb
    obtain ⟨x, hx, rfl⟩ := List.mem_map.mp ha
    have := List.find?_eq_none.mp hnone x hx
    simp only [decide_eq_true_eq] at this
    exact this (hb.trans he)

theorem mapper_run_nodup : ∀ (reqs : List map_request) (m : Mapper),
    (m.hw.cached_textures.map (fun e => e.handle)).Nodup →
    ((mapper_run m reqs).hw.cached_textures.map (fun e => e.handle)).Nodup
  | [], _, h => h
  | req :: rest, m, h => mapper_run_nodup rest (mapper_map m req).2 (mapper_map_nodup m req h)

/-- C30 (imported-cache key uniqueness): if the handles of the cache entries
are pairwise distinct before a `mapper_map` call, they are pairwise distinct
after it; the cache after the call is either the list of the surviving entries
(those of the request's frames context) or, when no surviving entry has the
request's handle, that list with one new entry of the request's handle
appended; hence distinctness holds after every sequence of calls, and starting
from the empty cache every reachable cache holds at most one entry per
external handle. -/
theorem cache_handles_distinct (m : Mapper) (req : map_request)
    (h : (m.hw.cached_textures.map (fun e => e.handle)).Nodup) :
    ((mapper_map m req).2.hw.cached_textures.map (fun e => e.handle)).Nodup ∧
    ((mapper_map m req).2.hw.cached_textures =
        m.hw.cached_textures.filter (fun e => decide (e.frames_ctx = req.hwctx)) ∨
      ((∀ x ∈ m.hw.cached_textures.filter (fun e => decide (e.frames_ctx = req.hwctx)),
          x.handle ≠ req.handle) ∧
        ∃ e, e.handle = req.handle ∧
          (mapper_map m req).2.hw.cached_textures =
            m.hw.cached_textures.filter (fun e => decide (e.frames_ctx = req.hwctx)) ++ [e])) ∧
    (∀ reqs, ((mapper_run m reqs).hw.cached_textures.map (fun e => e.handle)).Nodup) ∧
    (∀ (m0 : Mapper) (reqs : List map_request) (hd : Nat), m0.hw.cached_textures = [] →
      ((mapper_run m0 reqs).hw.cached_textures.filter
        (fun e => decide (e.handle = hd))).length ≤ 1) := by
  refine ⟨mapper_map_nodup m req h, ?_, fun reqs => mapper_run_nodup reqs m h, ?_⟩
  · rcases mapper_map_cached m req with hc | ⟨hnone, _, e, he, hc⟩
    · rw [(mapper_evict_spec m req).1] at hc
      exact Or.inl hc
    · rw [(mapper_evict_spec m req).1] at hc hnone
      refine Or.inr ⟨?_, e, he, hc⟩
      intro x hx
      have := List.find?_eq_none.mp hnone x hx
      simpa using this
  · intro m0 reqs hd h0
    have hn := mapper_run_nodup reqs m0 (by rw [h0]; exact List.nodup_nil)
    have hc := List.nodup_iff_count_le_one.mp hn hd
    have e : List.count hd ((mapper_run m0 reqs).hw.cached_textures.map (fun e => e.handle)) =
        ((mapper_run m0 reqs).hw.cached_textures.filter
          (fun e => decide (e.handle = hd))).length := by
      rw [List.count, List.countP_map, List.countP_eq_length_filter]
      congr 2
    rw [← e]
    exact hc

/-- Witness of the key uniqueness: the first request on an empty cache
appends one entry, of handle 7. -/
theorem cache_handles_distinct_witness :
    ((Mapper.mk ⟨false, 1, false, []⟩ ⟨[0, 0], 0⟩ [none] 100 0 [] []).hw.cached_textures.map
      (fun e => e.handle)).Nodup ∧
    ((mapper_map ⟨⟨false, 1, false, []⟩, ⟨[0, 0], 0⟩, [none], 100, 0, [], []⟩
      ⟨7, false, 1, 50, true, true, none⟩).2.hw.cached_textures.map (fun e => e.handle)) = [7] ∧
    ((mapper_map ⟨⟨false, 1, false, []⟩, ⟨[0, 0], 0⟩, [none], 100, 0, [], []⟩
      ⟨7, false, 1, 50, true, true, none⟩).2.hw.cached_textures.map
        (fun e => e.handle)).Nodup :=
  ⟨List.nodup_nil, by decide,
   (cache_handles_distinct ⟨⟨false, 1, false, []⟩, ⟨[0, 0], 0⟩, [none], 100, 0, [], []⟩
      ⟨7, false, 1, 50, true, true, none⟩ List.nodup_nil).1⟩

end DK
